import Mathlib

/-!
# rofi, Wayland display backend (`source/wayland/display.c`)

A shallow embedding of the shared-memory buffer pool and of the pointer input
aggregation of the Wayland backend, together with the properties the
specification states about them.

Conventions of the embedding:

* a pointer to a protocol object (`struct wl_buffer *`, `struct wl_surface *`, ...)
  is the natural number identifying the object, wrapped in `Option`; `none` is `NULL`;
* `gint` / `int32_t` values are integers; signed overflow is undefined in C and is
  excluded where it could occur; `size_t` arithmetic is taken modulo `2 ^ 64`;
* every call the code makes into a collaborator (libwayland, libc, the view, the
  bindings) is appended to a list of calls, so that "what was requested" can be read
  back from the result of a function.
-/

namespace RofiWayland

/-! ## The process-wide context -/

/-- Modelled from the spec: the declaration of `wayland_stuff` is in `wayland-internal.h`,
which is not among the sources. These are the fields of the global context that the buffer
pool, the pointer handlers and the layer surface code of `display.c` read or write, with
the types their uses show. `last_seat` holds the `wl_seat` identity of the seat it points
to; `layer_width` and `layer_height` are `uint32_t`. The static `wayland_` is
zero-initialised, hence the defaults of the last three fields. -/
structure wayland_stuff where
  buffer_count : Nat
  scale : Int
  surface : Option Nat
  last_seat : Option Nat
  wlr_surface : Option Nat := none
  layer_width : Nat := 0
  layer_height : Nat := 0
deriving DecidableEq, Repr

/-- The values `wayland_display_setup` gives to these fields of the zero-initialised
static `wayland_`: `buffer_count = 3`, `scale = 1`; no surface and no last seat yet. -/
def wayland_display_setup : wayland_stuff :=
  { buffer_count := 3, scale := 1, surface := none, last_seat := none }

/-! ## Buffer pool: data -/

/-- One slice of the pool, `wayland_buffer`. `data` is the address of the slice. The back
pointer `pool` is not represented: a buffer is always reached through its pool. -/
structure wayland_buffer where
  buffer : Option Nat
  data : Nat
  released : Bool
deriving DecidableEq, Repr

/-- The pool, `struct _display_buffer_pool`. `buffers` is the array of
`wayland->buffer_count` entries allocated by `display_buffer_pool_new`; the loops
`for (i = 0; i < wayland->buffer_count; ++i)` over it are recursions over this list. -/
structure wayland_buffer_pool where
  data : Nat
  size : Nat
  width : Int
  height : Int
  to_free : Bool
  buffers : List wayland_buffer
deriving DecidableEq, Repr

/-- The drawable handed to the view: a cairo image surface over one slice. `user_data` is
the `wayland_buffer` stored under `wayland_cairo_surface_user_data`, as its index in
`pool->buffers`. -/
structure cairo_surface_t where
  data : Nat
  width : Int
  height : Int
  stride : Int
  user_data : Nat
deriving DecidableEq, Repr

/-- Calls made by the buffer pool code into libc, libwayland and cairo. -/
inductive PoolCall where
  | mmap (length : Nat) (addr : Nat)
  | wl_shm_create_pool (size : Int)
  | wl_shm_pool_create_buffer (offset width height stride : Int) (buffer : Nat)
  | wl_buffer_destroy (buffer : Nat)
  | munmap (addr : Nat) (length : Nat)
  | g_free_pool
  | cairo_surface_destroy
  | wl_surface_damage (surface : Nat) (x y width height : Int)
  | wl_surface_attach (surface : Nat) (buffer : Option Nat) (x y : Int)
  | wl_surface_set_buffer_scale (surface : Nat) (scale : Int)
  | wl_surface_commit (surface : Nat)
deriving DecidableEq, Repr

/-- What the environment answers to the library and system calls of
`display_buffer_pool_new`: the cairo stride function, the return values of `g_open`,
`fcntl` and `ftruncate`, the address returned by `mmap` (`none` is `MAP_FAILED`) and the
proxy returned by the `i`-th `wl_shm_pool_create_buffer`. -/
structure shm_env where
  cairo_format_stride_for_width : Int → Int
  g_open : Int
  fcntl : Int
  ftruncate : Nat → Int
  mmap : Nat → Option Nat
  wl_shm_pool_create_buffer : Nat → Nat

/-- Conversion of an integer to `size_t`. -/
def to_size_t (x : Int) : Nat := (x % 2 ^ 64).toNat

/-- Conversion of a `size_t` to the `int32_t` of a protocol argument. -/
def to_int32 (x : Nat) : Int := ((x : Int) + 2 ^ 31) % 2 ^ 32 - 2 ^ 31

/-! ## Buffer pool: operations -/

/-- Body of the loop of `wayland_buffer_cleanup` for one buffer: a released buffer that
still has its protocol object has it destroyed and its pointer cleared. -/
def wayland_buffer_cleanup_buffer (b : wayland_buffer) : wayland_buffer × List PoolCall :=
  match b.released, b.buffer with
  | true, some h => ({ b with buffer := none }, [PoolCall.wl_buffer_destroy h])
  | _, _ => (b, [])

/-- The loop of `wayland_buffer_cleanup`: the updated buffers, the calls made and
`count`, the number of buffers whose protocol object is `NULL` afterwards. -/
def wayland_buffer_cleanup_loop :
    List wayland_buffer → List wayland_buffer × List PoolCall × Nat
  | [] => ([], [], 0)
  | b :: bs =>
    let r := wayland_buffer_cleanup_buffer b
    let rest := wayland_buffer_cleanup_loop bs
    (r.1 :: rest.1, r.2 ++ rest.2.1,
      (if r.1.buffer = none then 1 else 0) + rest.2.2)

/-- The function `wayland_buffer_cleanup`. -/
def wayland_buffer_cleanup (w : wayland_stuff) (self : wayland_buffer_pool) :
    wayland_buffer_pool × List PoolCall :=
  if !self.to_free then (self, [])
  else
    let r := wayland_buffer_cleanup_loop self.buffers
    let self1 := { self with buffers := r.1 }
    if r.2.2 < w.buffer_count then (self1, r.2.1)
    else (self1, r.2.1 ++ [PoolCall.munmap self.data self.size, PoolCall.g_free_pool])

/-- Body of the loop of `wayland_buffer_release` for one buffer: the buffer whose protocol
object is the released proxy is marked released. -/
def wayland_buffer_release_buffer (buffer : Nat) (b : wayland_buffer) : wayland_buffer :=
  if b.buffer = some buffer then { b with released := true } else b

/-- The listener `wayland_buffer_release` for the release event of proxy `buffer`. -/
def wayland_buffer_release (w : wayland_stuff) (self : wayland_buffer_pool) (buffer : Nat) :
    wayland_buffer_pool × List PoolCall :=
  wayland_buffer_cleanup w
    { self with buffers := self.buffers.map (wayland_buffer_release_buffer buffer) }

/-- The function `display_buffer_pool_new`: the pool (`none` is `NULL`) and the calls made. The
pool is `g_new0`-allocated and only `width`, `height` and `buffers` are assigned, so its
`data`, `size` and `to_free` fields are zero. -/
def display_buffer_pool_new (w : wayland_stuff) (env : shm_env) (width height : Int) :
    Option wayland_buffer_pool × List PoolCall :=
  let width := width * w.scale
  let height := height * w.scale
  let stride := env.cairo_format_stride_for_width width
  if stride < 0 then (none, [])
  else
    let size := to_size_t (stride * height)
    let pool_size := (size * w.buffer_count) % 2 ^ 64
    if env.g_open < 0 then (none, [])
    else if env.fcntl < 0 then (none, [])
    else if env.ftruncate pool_size < 0 then (none, [])
    else
      match env.mmap pool_size with
      | none => (none, [])
      | some data =>
        let slot := fun i : Nat => (size * i) % 2 ^ 64
        (some
          { data := 0, size := 0, width := width, height := height, to_free := false,
            buffers := (List.range w.buffer_count).map fun i =>
              { buffer := some (env.wl_shm_pool_create_buffer i),
                data := data + slot i, released := true } },
         [PoolCall.mmap pool_size data, PoolCall.wl_shm_create_pool (to_int32 pool_size)] ++
          (List.range w.buffer_count).map fun i =>
            PoolCall.wl_shm_pool_create_buffer (to_int32 (slot i)) width height stride
              (env.wl_shm_pool_create_buffer i))

/-- The function `display_buffer_pool_free` on a non-`NULL` pool. -/
def display_buffer_pool_free (w : wayland_stuff) (self : wayland_buffer_pool) :
    wayland_buffer_pool × List PoolCall :=
  wayland_buffer_cleanup w { self with to_free := true }

/-- The scan of `display_buffer_pool_get_next_buffer`: index of the first buffer, from
index `i` on, whose `released` flag is set. -/
def get_next_buffer_scan : List wayland_buffer → Nat → Option Nat
  | [], _ => none
  | b :: bs, i => if b.released then some i else get_next_buffer_scan bs (i + 1)

/-- The function `display_buffer_pool_get_next_buffer`; `none` is `NULL`. -/
def display_buffer_pool_get_next_buffer (env : shm_env) (pool : wayland_buffer_pool) :
    Option cairo_surface_t :=
  match get_next_buffer_scan pool.buffers 0 with
  | none => none
  | some i =>
    match pool.buffers[i]? with
    | none => none
    | some buffer =>
      some { data := buffer.data, width := pool.width, height := pool.height,
             stride := env.cairo_format_stride_for_width pool.width, user_data := i }

/-- The function `display_surface_commit`, for a drawable of `pool`. -/
def display_surface_commit (w : wayland_stuff) (pool : wayland_buffer_pool)
    (surface : Option cairo_surface_t) : wayland_buffer_pool × List PoolCall :=
  match surface, w.surface with
  | some s, some wl_surface =>
    match pool.buffers[s.user_data]? with
    | none => (pool, [])
    | some buffer =>
      ({ pool with buffers := pool.buffers.set s.user_data { buffer with released := false } },
       [PoolCall.cairo_surface_destroy,
        PoolCall.wl_surface_damage wl_surface 0 0 pool.width pool.height,
        PoolCall.wl_surface_attach wl_surface buffer.buffer 0 0,
        PoolCall.wl_surface_set_buffer_scale wl_surface w.scale,
        PoolCall.wl_surface_commit wl_surface])
  | _, _ => (pool, [])

/-- A pool together with the calls made on its behalf so far, oldest first. -/
structure pool_state where
  pool : wayland_buffer_pool
  calls : List PoolCall
deriving DecidableEq, Repr

/-- What can happen to a pool once it exists: the view asks for the next buffer, presents
a drawable, the compositor notifies the release of a buffer, the view frees the pool. -/
inductive pool_event where
  | get_next_buffer
  | surface_commit (surface : Option cairo_surface_t)
  | buffer_release (buffer : Nat)
  | pool_free
deriving DecidableEq, Repr

/-- The pool object has been handed to `g_free`. -/
def pool_state.freed (s : pool_state) : Bool := decide (PoolCall.g_free_pool ∈ s.calls)

/-- Some `munmap` call has been made. -/
def munmap_called (calls : List PoolCall) : Bool :=
  calls.any fun c => match c with
    | PoolCall.munmap _ _ => true
    | _ => false

/-- The region of `length` bytes at `addr` has been unmapped by one of the calls:
`munmap(a, l)` fails with `EINVAL` when `l` is `0` and otherwise removes the mappings in
`[a, a + l)`. -/
def region_unmapped (calls : List PoolCall) (addr length : Nat) : Bool :=
  calls.any fun c => match c with
    | PoolCall.munmap a l => decide (l ≠ 0 ∧ a ≤ addr ∧ addr + length ≤ a + l)
    | _ => false

/-- One event on a pool. Once the pool has been freed it no longer exists: all its protocol
objects are destroyed, so no listener of it runs, and nothing is done on it. -/
def pool_step (w : wayland_stuff) (s : pool_state) (e : pool_event) : pool_state :=
  if s.freed then s
  else
    match e with
    | pool_event.get_next_buffer => s
    | pool_event.surface_commit surface =>
      let r := display_surface_commit w s.pool surface
      { pool := r.1, calls := s.calls ++ r.2 }
    | pool_event.buffer_release buffer =>
      let r := wayland_buffer_release w s.pool buffer
      { pool := r.1, calls := s.calls ++ r.2 }
    | pool_event.pool_free =>
      let r := display_buffer_pool_free w s.pool
      { pool := r.1, calls := s.calls ++ r.2 }

/-- A sequence of events on a pool. -/
def pool_run (w : wayland_stuff) (s : pool_state) (es : List pool_event) : pool_state :=
  es.foldl (pool_step w) s

/-- An environment in which every call of `display_buffer_pool_new` succeeds: cairo's stride
for 32-bit pixels, a mapping at address 4096, proxies numbered from 10. -/
def example_env : shm_env :=
  { cairo_format_stride_for_width := fun width => 4 * width
    g_open := 3
    fcntl := 0
    ftruncate := fun _ => 0
    mmap := fun _ => some 4096
    wl_shm_pool_create_buffer := fun i => 10 + i }

/-- The context of the end-to-end scenario: after setup, with a surface and scale 2. -/
def example_wayland : wayland_stuff :=
  { wayland_display_setup with scale := 2, surface := some 1 }

/-- The pool of the end-to-end scenario: 100x20 at scale 2, three slices of 32000 bytes. -/
def example_pool : wayland_buffer_pool :=
  { data := 0, size := 0, width := 200, height := 40, to_free := false,
    buffers := [⟨some 10, 4096, true⟩, ⟨some 11, 36096, true⟩, ⟨some 12, 68096, true⟩] }

/-- The calls `display_buffer_pool_new` makes for the pool of the end-to-end scenario. -/
def example_new_calls : List PoolCall :=
  [PoolCall.mmap 96000 4096, PoolCall.wl_shm_create_pool 96000,
   PoolCall.wl_shm_pool_create_buffer 0 200 40 800 10,
   PoolCall.wl_shm_pool_create_buffer 32000 200 40 800 11,
   PoolCall.wl_shm_pool_create_buffer 64000 200 40 800 12]

/-- The event is a release notification. -/
def is_buffer_release : pool_event → Bool
  | pool_event.buffer_release _ => true
  | _ => false

/-- What holds of every state of a pool made by `display_buffer_pool_new`: the array has
`buffer_count` entries, the fields `data` and `size` are still zero, the pool is freed
exactly when `munmap` has been called, which requires `to_free` and no protocol object
left, and every `munmap` call made was `munmap(NULL, 0)`. -/
def pool_inv (w : wayland_stuff) (s : pool_state) : Prop :=
  s.pool.buffers.length = w.buffer_count ∧ s.pool.data = 0 ∧ s.pool.size = 0 ∧
  s.freed = munmap_called s.calls ∧
  (munmap_called s.calls = true →
    s.pool.to_free = true ∧ ∀ b ∈ s.pool.buffers, b.buffer = none) ∧
  (∀ a l, PoolCall.munmap a l ∈ s.calls → a = 0 ∧ l = 0)

/-- What holds after `display_buffer_pool_free` while only release notifications arrive:
a buffer has lost its protocol object exactly when it is released, and `munmap` has been
called exactly when every buffer is released. -/
def free_inv (w : wayland_stuff) (s : pool_state) : Prop :=
  s.pool.buffers.length = w.buffer_count ∧ s.pool.to_free = true ∧
  (∀ b ∈ s.pool.buffers, b.buffer = none ↔ b.released = true) ∧
  s.freed = munmap_called s.calls ∧
  (munmap_called s.calls = true ↔ ∀ b ∈ s.pool.buffers, b.released = true)

/-! ## Seats and pointer input: data -/

/-- Modelled from the spec: the member `repeat` of `wayland_seat` (`wayland-internal.h` is not
among the sources): the repeating keycode (`0` is none), the timer source and the rate and
delay announced by the compositor. -/
structure wayland_seat_repeat where
  key : Nat
  source : Option Nat
  rate : Int
  delay : Int
deriving DecidableEq, Repr

/-- Modelled from the spec: the member `button` of `wayland_seat`: the staged button (the
`uint32_t` of the button event, `0` is none), the position it applies to, whether it was
pressed and the event time. -/
structure wayland_seat_button where
  button : Nat
  x : Int
  y : Int
  pressed : Bool
  time : Nat
deriving DecidableEq, Repr

/-- Modelled from the spec: the member `motion` of `wayland_seat`: the staged position
(compared with `-1`, so signed) and the event time. -/
structure wayland_seat_motion where
  x : Int
  y : Int
  time : Nat
deriving DecidableEq, Repr

/-- Modelled from the spec: the member `wheel` of `wayland_seat`: the `gint` accumulators, in
120ths of a wheel step. -/
structure wayland_seat_wheel where
  vertical : Int
  horizontal : Int
deriving DecidableEq, Repr

/-- Modelled from the spec: the member `wheel_continuous` of `wayland_seat`. The C fields are
`double`s to which only values `wl_fixed_to_double(value) = value / 256` are added; they are
held here exactly, as the number of 256ths. -/
structure wayland_seat_wheel_continuous where
  vertical : Int
  horizontal : Int
deriving DecidableEq, Repr

/-- Modelled from the spec: the declaration of `wayland_seat` is in `wayland-internal.h`, which
is not among the sources. These are the fields `display.c` uses, with the types their uses
show; `seat` is the identity of the `wl_seat` proxy. -/
structure wayland_seat where
  global_name : Nat
  seat : Nat
  name : Option String
  repeat_ : wayland_seat_repeat
  serial : Nat
  pointer_serial : Nat
  keyboard : Option Nat
  pointer : Option Nat
  data_device : Option Nat
  primary_selection_device : Option Nat
  cursor_shape_device : Option Nat
  button : wayland_seat_button
  motion : wayland_seat_motion
  wheel : wayland_seat_wheel
  wheel_continuous : wayland_seat_wheel_continuous
  axis_source : Nat
deriving DecidableEq, Repr

/-- The button codes of `linux/input-event-codes.h`. -/
def BTN_LEFT : Nat := 0x110

/-- See `BTN_LEFT`. -/
def BTN_RIGHT : Nat := 0x111

/-- See `BTN_LEFT`. -/
def BTN_MIDDLE : Nat := 0x112

/-- The axes of `enum wl_pointer_axis`. -/
def WL_POINTER_AXIS_VERTICAL_SCROLL : Nat := 0

/-- See `WL_POINTER_AXIS_VERTICAL_SCROLL`. -/
def WL_POINTER_AXIS_HORIZONTAL_SCROLL : Nat := 1

/-- The sources of `enum wl_pointer_axis_source`; `0` is the wheel. -/
def WL_POINTER_AXIS_SOURCE_FINGER : Nat := 1

/-- See `WL_POINTER_AXIS_SOURCE_FINGER`. -/
def WL_POINTER_AXIS_SOURCE_CONTINUOUS : Nat := 2

/-- The value of `enum wl_pointer_button_state` for a press. -/
def WL_POINTER_BUTTON_STATE_PRESSED : Nat := 1

/-- The button handed to the bindings: `unset` is the initial `-1` of the local variable
`button`, the others are the `NK_BINDINGS_MOUSE_BUTTON_*` values. -/
inductive NkBindingsMouseButton where
  | unset
  | PRIMARY
  | SECONDARY
  | MIDDLE
deriving DecidableEq, Repr

/-- The two `NK_BINDINGS_BUTTON_STATE_*` values. -/
inductive NkBindingsButtonState where
  | PRESS
  | RELEASE
deriving DecidableEq, Repr

/-- The two `NK_BINDINGS_SCROLL_AXIS_*` values. -/
inductive NkBindingsScrollAxis where
  | VERTICAL
  | HORIZONTAL
deriving DecidableEq, Repr

/-- Calls made by the pointer code into the view and the bindings collaborators. -/
inductive InputCall where
  | rofi_view_handle_mouse_motion (x y : Int) (hover_select : Bool)
  | nk_bindings_seat_handle_button (button : NkBindingsMouseButton)
      (state : NkBindingsButtonState) (time : Nat)
  | nk_bindings_seat_handle_scroll (axis : NkBindingsScrollAxis) (steps : Int)
  | rofi_view_maybe_update
deriving DecidableEq, Repr

/-- The inline `wl_fixed_to_int` of `wayland-util.h`: `f / 256` in C, rounding to zero. -/
def wl_fixed_to_int (f : Int) : Int := Int.tdiv f 256

/-! ## Pointer input: handlers -/

/-- The listener `wayland_pointer_motion`. -/
def wayland_pointer_motion (self : wayland_seat) (time : Nat) (x y : Int) : wayland_seat :=
  { self with
    button := { self.button with x := wl_fixed_to_int x, y := wl_fixed_to_int y }
    motion := { x := wl_fixed_to_int x, y := wl_fixed_to_int y, time := time } }

/-- The listener `wayland_pointer_button`. -/
def wayland_pointer_button (w : wayland_stuff) (self : wayland_seat)
    (serial time button state : Nat) : wayland_stuff × wayland_seat :=
  ({ w with last_seat := some self.seat },
   { self with
     serial := serial
     button := { self.button with
       time := time
       pressed := decide (state = WL_POINTER_BUTTON_STATE_PRESSED)
       button := button } })

/-- The listener `wayland_pointer_axis`; `value` is the `wl_fixed_t` of the event. -/
def wayland_pointer_axis (self : wayland_seat) (_time axis : Nat) (value : Int) :
    wayland_seat :=
  if axis = WL_POINTER_AXIS_VERTICAL_SCROLL then
    { self with wheel_continuous :=
        { self.wheel_continuous with vertical := self.wheel_continuous.vertical + value } }
  else if axis = WL_POINTER_AXIS_HORIZONTAL_SCROLL then
    { self with wheel_continuous :=
        { self.wheel_continuous with horizontal := self.wheel_continuous.horizontal + value } }
  else self

/-- The listener `wayland_pointer_axis_source`. -/
def wayland_pointer_axis_source (self : wayland_seat) (axis_source : Nat) : wayland_seat :=
  { self with axis_source := axis_source }

/-- The listener `wayland_pointer_axis_stop`, which does nothing. -/
def wayland_pointer_axis_stop (self : wayland_seat) (_time _axis : Nat) : wayland_seat := self

/-- The listener `wayland_pointer_axis_discrete`. -/
def wayland_pointer_axis_discrete (self : wayland_seat) (axis : Nat) (discrete : Int) :
    wayland_seat :=
  if axis = WL_POINTER_AXIS_VERTICAL_SCROLL then
    { self with wheel := { self.wheel with vertical := self.wheel.vertical + discrete * 120 } }
  else if axis = WL_POINTER_AXIS_HORIZONTAL_SCROLL then
    { self with wheel :=
        { self.wheel with horizontal := self.wheel.horizontal + discrete * 120 } }
  else self

/-- The listener `wayland_pointer_axis120`. -/
def wayland_pointer_axis120 (self : wayland_seat) (axis : Nat) (value120 : Int) :
    wayland_seat :=
  if axis = WL_POINTER_AXIS_VERTICAL_SCROLL then
    { self with wheel := { self.wheel with vertical := self.wheel.vertical + value120 } }
  else if axis = WL_POINTER_AXIS_HORIZONTAL_SCROLL then
    { self with wheel := { self.wheel with horizontal := self.wheel.horizontal + value120 } }
  else self

/-- First block of `wayland_pointer_send_events`: the staged motion. -/
def send_events_motion (hover_select : Bool) (self : wayland_seat) :
    wayland_seat × List InputCall :=
  if self.motion.x > -1 ∨ self.motion.y > -1 then
    ({ self with motion := { self.motion with x := -1, y := -1 } },
     [InputCall.rofi_view_handle_mouse_motion self.motion.x self.motion.y hover_select])
  else (self, [])

/-- The `switch` of `wayland_pointer_send_events` on the staged button code. -/
def send_events_button_code (button : Nat) : NkBindingsMouseButton :=
  if button = BTN_LEFT then NkBindingsMouseButton.PRIMARY
  else if button = BTN_RIGHT then NkBindingsMouseButton.SECONDARY
  else if button = BTN_MIDDLE then NkBindingsMouseButton.MIDDLE
  else NkBindingsMouseButton.unset

/-- Second block of `wayland_pointer_send_events`: the staged button. -/
def send_events_button (self : wayland_seat) : wayland_seat × List InputCall :=
  let button := send_events_button_code self.button.button
  if self.button.button > 0 then
    ({ self with button := { self.button with button := 0 } },
     if self.button.pressed then
       [InputCall.rofi_view_handle_mouse_motion self.button.x self.button.y false,
        InputCall.nk_bindings_seat_handle_button button NkBindingsButtonState.PRESS
          self.button.time]
     else
       [InputCall.nk_bindings_seat_handle_button button NkBindingsButtonState.RELEASE
          self.button.time])
  else (self, [])

/-- The statement `wheel += 20 * wheel_continuous` for one axis: the sum is formed in
`double` and converted back to `gint`, rounding to zero. With `continuous` in 256ths the
sum is `(256 * wheel + 20 * continuous) / 256`. -/
def add_continuous (wheel continuous : Int) : Int :=
  Int.tdiv (256 * wheel + 20 * continuous) 256

/-- Third block of `wayland_pointer_send_events`: finger and continuous sources feed the
wheel accumulators. -/
def send_events_continuous (self : wayland_seat) : wayland_seat :=
  if self.axis_source = WL_POINTER_AXIS_SOURCE_FINGER ∨
      self.axis_source = WL_POINTER_AXIS_SOURCE_CONTINUOUS then
    { self with wheel :=
        { vertical := add_continuous self.wheel.vertical self.wheel_continuous.vertical
          horizontal := add_continuous self.wheel.horizontal self.wheel_continuous.horizontal } }
  else self

/-- The scroll block of `wayland_pointer_send_events` for one axis with accumulator
`v120`: the retained accumulator and the calls made. `/` and `%` of C round to zero. -/
def send_events_scroll (axis : NkBindingsScrollAxis) (v120 : Int) : Int × List InputCall :=
  if v120.natAbs ≥ 120 then
    (if v120 > 0 then Int.tmod v120 120 else -(Int.tmod (-v120) 120),
     [InputCall.nk_bindings_seat_handle_scroll axis (Int.tdiv v120 120)])
  else (v120, [])

/-- The function `wayland_pointer_send_events`. `state` is what `rofi_view_get_active()`
returns and `hover_select` is `config.hover_select`. -/
def wayland_pointer_send_events (state : Option Nat) (hover_select : Bool)
    (self : wayland_seat) : wayland_seat × List InputCall :=
  match state with
  | none => (self, [])
  | some _ =>
    let m := send_events_motion hover_select self
    let b := send_events_button m.1
    let c := send_events_continuous b.1
    let v := send_events_scroll NkBindingsScrollAxis.VERTICAL c.wheel.vertical
    let h := send_events_scroll NkBindingsScrollAxis.HORIZONTAL c.wheel.horizontal
    ({ c with
       wheel := { vertical := v.1, horizontal := h.1 }
       axis_source := 0
       wheel_continuous := { vertical := 0, horizontal := 0 } },
     m.2 ++ b.2 ++ v.2 ++ h.2 ++ [InputCall.rofi_view_maybe_update])

/-- The pointer events of a seat handled below. The frame event carries what
`rofi_view_get_active()` returns while it is handled. -/
inductive pointer_event where
  | motion (time : Nat) (x y : Int)
  | button (serial time button state : Nat)
  | axis (time axis : Nat) (value : Int)
  | frame (state : Option Nat)
  | axis_source (axis_source : Nat)
  | axis_stop (time axis : Nat)
  | axis_discrete (axis : Nat) (discrete : Int)
  | axis_value120 (axis : Nat) (value120 : Int)
deriving DecidableEq, Repr

/-- The context, the seat an event arrives on and the calls dispatched so far to the view
and the bindings, oldest first. -/
structure pointer_state where
  wayland : wayland_stuff
  self : wayland_seat
  calls : List InputCall
deriving DecidableEq, Repr

/-- Dispatch of one pointer event through `wayland_pointer_listener`; the frame handler
`wayland_pointer_frame` only calls `wayland_pointer_send_events`. -/
def wayland_pointer_listener (hover_select : Bool) (s : pointer_state) :
    pointer_event → pointer_state
  | pointer_event.motion time x y => { s with self := wayland_pointer_motion s.self time x y }
  | pointer_event.button serial time button state =>
    let r := wayland_pointer_button s.wayland s.self serial time button state
    { s with wayland := r.1, self := r.2 }
  | pointer_event.axis time axis value =>
    { s with self := wayland_pointer_axis s.self time axis value }
  | pointer_event.frame state =>
    let r := wayland_pointer_send_events state hover_select s.self
    { s with self := r.1, calls := s.calls ++ r.2 }
  | pointer_event.axis_source axis_source =>
    { s with self := wayland_pointer_axis_source s.self axis_source }
  | pointer_event.axis_stop time axis =>
    { s with self := wayland_pointer_axis_stop s.self time axis }
  | pointer_event.axis_discrete axis discrete =>
    { s with self := wayland_pointer_axis_discrete s.self axis discrete }
  | pointer_event.axis_value120 axis value120 =>
    { s with self := wayland_pointer_axis120 s.self axis value120 }

/-- A sequence of pointer events on one seat. -/
def pointer_run (hover_select : Bool) (s : pointer_state) (es : List pointer_event) :
    pointer_state :=
  es.foldl (wayland_pointer_listener hover_select) s

/-- The wheel deltas, in 120ths, that an event carries for the vertical and for the
horizontal axis: a discrete step counts 120, a value120 event its value. -/
def wheel_delta : pointer_event → Int × Int
  | pointer_event.axis_discrete axis discrete =>
    if axis = WL_POINTER_AXIS_VERTICAL_SCROLL then (discrete * 120, 0)
    else if axis = WL_POINTER_AXIS_HORIZONTAL_SCROLL then (0, discrete * 120)
    else (0, 0)
  | pointer_event.axis_value120 axis value120 =>
    if axis = WL_POINTER_AXIS_VERTICAL_SCROLL then (value120, 0)
    else if axis = WL_POINTER_AXIS_HORIZONTAL_SCROLL then (0, value120)
    else (0, 0)
  | _ => (0, 0)

/-- The event is a discrete-step or a value120 axis event. -/
def is_wheel_event : pointer_event → Bool
  | pointer_event.axis_discrete _ _ => true
  | pointer_event.axis_value120 _ _ => true
  | _ => false

/-- The event is a wheel event or a frame handled while a view is active. -/
def is_wheel_or_active_frame : pointer_event → Bool
  | pointer_event.frame (some _) => true
  | e => is_wheel_event e

/-- The wheel delta an event carries for `axis`. -/
def wheel_delta_axis (axis : NkBindingsScrollAxis) (e : pointer_event) : Int :=
  match axis with
  | NkBindingsScrollAxis.VERTICAL => (wheel_delta e).1
  | NkBindingsScrollAxis.HORIZONTAL => (wheel_delta e).2

/-- Sum of the deltas a sequence of events carries for `axis`. -/
def wheel_sum (axis : NkBindingsScrollAxis) (es : List pointer_event) : Int :=
  (es.map (wheel_delta_axis axis)).sum

/-- The wheel accumulator of a seat for `axis`. -/
def wheel_axis (axis : NkBindingsScrollAxis) (self : wayland_seat) : Int :=
  match axis with
  | NkBindingsScrollAxis.VERTICAL => self.wheel.vertical
  | NkBindingsScrollAxis.HORIZONTAL => self.wheel.horizontal

/-- The staged continuous delta of a seat for `axis`, in 256ths. -/
def wheel_continuous_axis (axis : NkBindingsScrollAxis) (self : wayland_seat) : Int :=
  match axis with
  | NkBindingsScrollAxis.VERTICAL => self.wheel_continuous.vertical
  | NkBindingsScrollAxis.HORIZONTAL => self.wheel_continuous.horizontal

/-- The event is a pointer frame. -/
def is_frame : pointer_event → Bool
  | pointer_event.frame _ => true
  | _ => false

/-- The fields of a seat that are neither staged pointer fields (`button`, `motion`,
`wheel`, `wheel_continuous`, `axis_source`) nor `serial`. -/
def seat_other_fields (self : wayland_seat) :
    Nat × Nat × Option String × wayland_seat_repeat × Nat × Option Nat × Option Nat ×
      Option Nat × Option Nat × Option Nat :=
  (self.global_name, self.seat, self.name, self.repeat_, self.pointer_serial, self.keyboard,
    self.pointer, self.data_device, self.primary_selection_device, self.cursor_shape_device)

/-- The step arguments of the scroll calls made for `axis`, oldest first. -/
def scroll_steps (axis : NkBindingsScrollAxis) : List InputCall → List Int
  | [] => []
  | InputCall.nk_bindings_seat_handle_scroll a steps :: cs =>
    if a = axis then steps :: scroll_steps axis cs else scroll_steps axis cs
  | _ :: cs => scroll_steps axis cs

/-- Number of mouse-motion calls made to the view. -/
def motion_calls : List InputCall → Nat
  | [] => 0
  | InputCall.rofi_view_handle_mouse_motion _ _ _ :: cs => motion_calls cs + 1
  | _ :: cs => motion_calls cs

/-- Number of button transitions handed to the bindings. -/
def button_calls : List InputCall → Nat
  | [] => 0
  | InputCall.nk_bindings_seat_handle_button _ _ _ :: cs => button_calls cs + 1
  | _ :: cs => button_calls cs

/-- A seat as `g_new0` leaves it when it is advertised: every field zero. -/
def zero_seat : wayland_seat :=
  { global_name := 0, seat := 0, name := none
    repeat_ := { key := 0, source := none, rate := 0, delay := 0 }
    serial := 0, pointer_serial := 0, keyboard := none, pointer := none
    data_device := none, primary_selection_device := none, cursor_shape_device := none
    button := { button := 0, x := 0, y := 0, pressed := false, time := 0 }
    motion := { x := 0, y := 0, time := 0 }
    wheel := { vertical := 0, horizontal := 0 }
    wheel_continuous := { vertical := 0, horizontal := 0 }
    axis_source := 0 }

/-- A seat on which nothing is staged: as left by a frame handled with an active view. -/
def idle_seat : wayland_seat :=
  { zero_seat with seat := 7, global_name := 21, motion := { x := -1, y := -1, time := 0 } }

/-- The idle seat after a motion to (5, 5) and a press of the left button, not yet followed
by a frame. -/
def pressed_seat : wayland_seat :=
  (pointer_run false ⟨example_wayland, idle_seat, []⟩
    [pointer_event.motion 100 (5 * 256) (5 * 256),
     pointer_event.button 31 101 BTN_LEFT WL_POINTER_BUTTON_STATE_PRESSED]).self

/-- The idle seat after a motion to (-5, -5), a position left of and above the surface. -/
def outside_seat : wayland_seat :=
  (pointer_run false ⟨example_wayland, idle_seat, []⟩
    [pointer_event.motion 100 (-5 * 256) (-5 * 256)]).self

/-- The idle seat after a finger scroll of 6.0 on the vertical axis (axis source and axis
events), not yet followed by a frame; its wheel accumulators are still zero. -/
def finger_seat : wayland_seat :=
  (pointer_run false ⟨example_wayland, idle_seat, []⟩
    [pointer_event.axis_source WL_POINTER_AXIS_SOURCE_FINGER,
     pointer_event.axis 100 WL_POINTER_AXIS_VERTICAL_SCROLL (6 * 256)]).self

/-! ## Outputs -/

/-- The anonymous `struct` of the members `current` and `pending` of `wayland_output`. -/
structure output_geometry where
  x : Int
  y : Int
  width : Int
  height : Int
  physical_width : Int
  physical_height : Int
  scale : Int
  transform : Int
deriving DecidableEq, Repr

/-- The `wayland_output` of `display.c`; `output` is the identity of the `wl_output` proxy. -/
structure wayland_output where
  global_name : Nat
  output : Nat
  name : Option String
  current : output_geometry
  pending : output_geometry
deriving DecidableEq, Repr

/-- The flag `WL_OUTPUT_MODE_CURRENT` of `enum wl_output_mode`. -/
def WL_OUTPUT_MODE_CURRENT : Nat := 1

/-- The listener `wayland_output_done`. -/
def wayland_output_done (self : wayland_output) : wayland_output :=
  { self with current := self.pending }

/-- The listener `wayland_output_geometry`; `width` and `height` are millimetres. The
strings `make` and `model` of the event are not used and not represented. -/
def wayland_output_geometry (self : wayland_output)
    (x y width height _subpixel transform : Int) : wayland_output :=
  { self with pending := { self.pending with
      x := x, y := y, physical_width := width, physical_height := height,
      transform := transform } }

/-- The listener `wayland_output_mode`. -/
def wayland_output_mode (self : wayland_output) (flags : Nat) (width height _refresh : Int) :
    wayland_output :=
  if flags &&& WL_OUTPUT_MODE_CURRENT ≠ 0 then
    { self with pending := { self.pending with width := width, height := height } }
  else self

/-- The listener `wayland_output_scale`. -/
def wayland_output_scale (self : wayland_output) (scale : Int) : wayland_output :=
  { self with pending := { self.pending with scale := scale } }

/-- The listener `wayland_output_name`. -/
def wayland_output_name (self : wayland_output) (name : String) : wayland_output :=
  { self with name := some name }

/-- The listener `wayland_output_description`, which does nothing. -/
def wayland_output_description (self : wayland_output) (_name : String) : wayland_output := self

/-- The events of a `wl_output`. -/
inductive output_event where
  | geometry (x y width height subpixel transform : Int)
  | mode (flags : Nat) (width height refresh : Int)
  | scale (scale : Int)
  | done
  | name (name : String)
  | description (name : String)
deriving DecidableEq, Repr

/-- Dispatch of one output event through `wayland_output_listener`. -/
def wayland_output_listener (self : wayland_output) : output_event → wayland_output
  | output_event.geometry x y width height subpixel transform =>
    wayland_output_geometry self x y width height subpixel transform
  | output_event.mode flags width height refresh =>
    wayland_output_mode self flags width height refresh
  | output_event.scale scale => wayland_output_scale self scale
  | output_event.done => wayland_output_done self
  | output_event.name name => wayland_output_name self name
  | output_event.description name => wayland_output_description self name

/-- A sequence of events on one output. -/
def output_run (self : wayland_output) (es : List output_event) : wayland_output :=
  es.foldl wayland_output_listener self

/-- The event is a done event. -/
def is_done : output_event → Bool
  | output_event.done => true
  | _ => false

/-- The geometry of an output that has seen no event: scale 1, every other field 0. -/
def initial_geometry : output_geometry :=
  { x := 0, y := 0, width := 0, height := 0, physical_width := 0, physical_height := 0,
    scale := 1, transform := 0 }

/-- The output made by the `wl_output` branch of `wayland_registry_handle_global` for the
global `name` bound as proxy `output`: `g_new0`, then `pending.scale = 1` and
`current = pending`. -/
def new_output (name output : Nat) : wayland_output :=
  { global_name := name, output := output, name := none,
    current := initial_geometry, pending := initial_geometry }

/-! ## Layer surface placement -/

/-- Modelled from the spec: the values of `enum WindowLocation` are declared in
`rofi-types.h`, which is not among the sources. They are taken as parameters; being the
`case` labels of one `switch`, they are pairwise distinct. -/
structure WindowLocation where
  WL_CENTER : Int
  WL_NORTH : Int
  WL_EAST : Int
  WL_SOUTH : Int
  WL_WEST : Int
  WL_NORTH_WEST : Int
  WL_NORTH_EAST : Int
  WL_SOUTH_EAST : Int
  WL_SOUTH_WEST : Int
deriving DecidableEq, Repr

/-- The nine labels of the `switch` of `display_set_surface_dimensions`. -/
def WindowLocation.labels (c : WindowLocation) : List Int :=
  [c.WL_NORTH_WEST, c.WL_NORTH, c.WL_NORTH_EAST, c.WL_EAST, c.WL_SOUTH_EAST, c.WL_SOUTH,
   c.WL_SOUTH_WEST, c.WL_WEST, c.WL_CENTER]

/-- The location codes of rofi: centre 0, north 1, east 2, south 4, west 8, the corners the
sums of their two edges. -/
def rofi_locations : WindowLocation :=
  { WL_CENTER := 0, WL_NORTH := 1, WL_EAST := 2, WL_SOUTH := 4, WL_WEST := 8,
    WL_NORTH_WEST := 9, WL_NORTH_EAST := 3, WL_SOUTH_EAST := 6, WL_SOUTH_WEST := 12 }

/-- The anchor bits of `enum zwlr_layer_surface_v1_anchor` (wlr-layer-shell protocol). -/
def ZWLR_LAYER_SURFACE_V1_ANCHOR_TOP : Nat := 1

/-- See `ZWLR_LAYER_SURFACE_V1_ANCHOR_TOP`. -/
def ZWLR_LAYER_SURFACE_V1_ANCHOR_BOTTOM : Nat := 2

/-- See `ZWLR_LAYER_SURFACE_V1_ANCHOR_TOP`. -/
def ZWLR_LAYER_SURFACE_V1_ANCHOR_LEFT : Nat := 4

/-- See `ZWLR_LAYER_SURFACE_V1_ANCHOR_TOP`. -/
def ZWLR_LAYER_SURFACE_V1_ANCHOR_RIGHT : Nat := 8

/-- Requests made on the layer surface. -/
inductive LayerCall where
  | zwlr_layer_surface_v1_set_size (surface : Option Nat) (width height : Nat)
  | zwlr_layer_surface_v1_set_anchor (surface : Option Nat) (anchor : Nat)
  | zwlr_layer_surface_v1_set_margin (surface : Option Nat) (top right bottom left : Int)
  | zwlr_layer_surface_v1_ack_configure (surface : Option Nat) (serial : Nat)
  | zwlr_layer_surface_v1_destroy (surface : Nat)
  | wl_surface_destroy (surface : Nat)
deriving DecidableEq, Repr

/-- Conversion of an `int` to `uint32_t`. -/
def to_uint32 (x : Int) : Nat := (x % 2 ^ 32).toNat

/-- The `switch (loc)` of `display_set_surface_dimensions`: the anchor of a location. -/
def location_anchor (c : WindowLocation) (loc : Int) : Nat :=
  if loc = c.WL_NORTH_WEST then
    ZWLR_LAYER_SURFACE_V1_ANCHOR_LEFT ||| ZWLR_LAYER_SURFACE_V1_ANCHOR_TOP
  else if loc = c.WL_NORTH then ZWLR_LAYER_SURFACE_V1_ANCHOR_TOP
  else if loc = c.WL_NORTH_EAST then
    ZWLR_LAYER_SURFACE_V1_ANCHOR_RIGHT ||| ZWLR_LAYER_SURFACE_V1_ANCHOR_TOP
  else if loc = c.WL_EAST then ZWLR_LAYER_SURFACE_V1_ANCHOR_RIGHT
  else if loc = c.WL_SOUTH_EAST then
    ZWLR_LAYER_SURFACE_V1_ANCHOR_RIGHT ||| ZWLR_LAYER_SURFACE_V1_ANCHOR_BOTTOM
  else if loc = c.WL_SOUTH then ZWLR_LAYER_SURFACE_V1_ANCHOR_BOTTOM
  else if loc = c.WL_SOUTH_WEST then
    ZWLR_LAYER_SURFACE_V1_ANCHOR_LEFT ||| ZWLR_LAYER_SURFACE_V1_ANCHOR_BOTTOM
  else if loc = c.WL_WEST then ZWLR_LAYER_SURFACE_V1_ANCHOR_LEFT
  else 0

/-- The value of `wlr_anchor` that `display_set_surface_dimensions` passes to
`zwlr_layer_surface_v1_set_anchor`: the anchor of the location, then the two `|=` for a
zero height and a zero width. -/
def surface_anchor (c : WindowLocation) (width height loc : Int) : Nat :=
  let a0 := location_anchor c loc
  let a1 :=
    if height = 0 then
      a0 ||| (ZWLR_LAYER_SURFACE_V1_ANCHOR_BOTTOM ||| ZWLR_LAYER_SURFACE_V1_ANCHOR_TOP)
    else a0
  if width = 0 then
    a1 ||| (ZWLR_LAYER_SURFACE_V1_ANCHOR_LEFT ||| ZWLR_LAYER_SURFACE_V1_ANCHOR_RIGHT)
  else a1

/-- The function `display_set_surface_dimensions`. -/
def display_set_surface_dimensions (c : WindowLocation) (w : wayland_stuff)
    (width height x_margin y_margin loc : Int) : wayland_stuff × List LayerCall :=
  ({ w with layer_width := to_uint32 width, layer_height := to_uint32 height },
   [LayerCall.zwlr_layer_surface_v1_set_size w.wlr_surface (to_uint32 width)
      (to_uint32 height),
    LayerCall.zwlr_layer_surface_v1_set_anchor w.wlr_surface (surface_anchor c width height loc),
    LayerCall.zwlr_layer_surface_v1_set_margin w.wlr_surface y_margin (-x_margin) (-y_margin)
      x_margin])

/-- The anchors requested by a list of calls, oldest first. -/
def requested_anchors : List LayerCall → List Nat
  | [] => []
  | LayerCall.zwlr_layer_surface_v1_set_anchor _ anchor :: cs => anchor :: requested_anchors cs
  | _ :: cs => requested_anchors cs

/-! ## Seats: keyboard, key repeat and capabilities -/

/-- The key states handed to the bindings, `NK_BINDINGS_KEY_STATE_*`. -/
inductive NkBindingsKeyState where
  | PRESS
  | PRESSED
  | RELEASE
deriving DecidableEq, Repr

/-- The callback of a repeat timer: `wayland_key_repeat_delay` for the initial delay,
`wayland_key_repeat` for the repeat rate. -/
inductive repeat_callback where
  | wayland_key_repeat_delay
  | wayland_key_repeat
deriving DecidableEq, Repr

/-- Calls made by the keyboard and seat code into the bindings, the view, the GLib main
context and libwayland. `g_timeout_add` carries the source it created, which
`g_main_context_find_source_by_id` then returns. -/
inductive SeatCall where
  | nk_bindings_seat_handle_key (keycode : Nat) (state : NkBindingsKeyState)
  | rofi_view_handle_text (text : String)
  | rofi_view_maybe_update
  | g_timeout_add (interval : Int) (callback : repeat_callback) (source : Nat)
  | g_source_destroy (source : Nat)
  | wl_seat_get_keyboard (keyboard : Nat)
  | wl_keyboard_release (keyboard : Nat)
  | wl_seat_get_pointer (pointer : Nat)
  | wl_pointer_release (pointer : Nat)
  | wp_cursor_shape_device_v1_destroy (device : Nat)
  | wl_data_device_manager_get_data_device (manager device : Nat)
  | zwp_primary_selection_device_manager_v1_get_device (manager device : Nat)
  | wl_seat_release (seat : Nat)
deriving DecidableEq, Repr

/-- The values of `enum wl_keyboard_key_state`. -/
def WL_KEYBOARD_KEY_STATE_RELEASED : Nat := 0

/-- See `WL_KEYBOARD_KEY_STATE_RELEASED`. -/
def WL_KEYBOARD_KEY_STATE_PRESSED : Nat := 1

/-- The bits of `enum wl_seat_capability`. -/
def WL_SEAT_CAPABILITY_POINTER : Nat := 1

/-- See `WL_SEAT_CAPABILITY_POINTER`. -/
def WL_SEAT_CAPABILITY_KEYBOARD : Nat := 2

/-- The recurring statement `if (self->repeat.source != NULL) { g_source_destroy(...);
self->repeat.source = NULL; }`. -/
def repeat_source_destroy (self : wayland_seat) : wayland_seat × List SeatCall :=
  match self.repeat_.source with
  | none => (self, [])
  | some source =>
    ({ self with repeat_ := { self.repeat_ with source := none } },
     [SeatCall.g_source_destroy source])

/-- The timer callback `wayland_key_repeat`. `state` is what `rofi_view_get_active()`
returns and `text` what the bindings return for the key; the Boolean is the return value,
`true` for `G_SOURCE_CONTINUE`. -/
def wayland_key_repeat (state : Option Nat) (text : Option String) (self : wayland_seat) :
    wayland_seat × List SeatCall × Bool :=
  if self.repeat_.key = 0 then
    ({ self with repeat_ := { self.repeat_ with source := none } }, [], false)
  else
    let c0 := [SeatCall.nk_bindings_seat_handle_key self.repeat_.key NkBindingsKeyState.PRESS]
    match state with
    | none => (self, c0, false)
    | some _ =>
      (self,
       c0 ++ (match text with
          | some t => [SeatCall.rofi_view_handle_text t]
          | none => []) ++ [SeatCall.rofi_view_maybe_update],
       true)

/-- The timer callback `wayland_key_repeat_delay`; `source` is the source created by its
`g_timeout_add`. It always returns `G_SOURCE_REMOVE`. -/
def wayland_key_repeat_delay (state : Option Nat) (text : Option String) (source : Nat)
    (self : wayland_seat) : wayland_seat × List SeatCall × Bool :=
  if self.repeat_.key = 0 then (self, [], false)
  else
    let c0 := [SeatCall.nk_bindings_seat_handle_key self.repeat_.key NkBindingsKeyState.PRESS]
    match state with
    | none => (self, c0, false)
    | some _ =>
      ({ self with repeat_ := { self.repeat_ with source := some source } },
       c0 ++ (match text with
          | some t => [SeatCall.rofi_view_handle_text t]
          | none => []) ++
        [SeatCall.g_timeout_add self.repeat_.rate repeat_callback.wayland_key_repeat source,
         SeatCall.rofi_view_maybe_update],
       false)

/-- The listener `wayland_keyboard_key`. `state` is what `rofi_view_get_active()` returns,
`text` what the bindings return for a press and `source` the source created by
`g_timeout_add`. The keycode `key + 8` is an `xkb_keycode_t`, 32 bits wide. -/
def wayland_keyboard_key (w : wayland_stuff) (state : Option Nat) (text : Option String)
    (source : Nat) (self : wayland_seat) (serial _time key kstate : Nat) :
    wayland_stuff × wayland_seat × List SeatCall :=
  let self0 := { self with serial := serial }
  let keycode := (key + 8) % 2 ^ 32
  let r : wayland_seat × List SeatCall :=
    if kstate = WL_KEYBOARD_KEY_STATE_RELEASED then
      let r1 : wayland_seat × List SeatCall :=
        if keycode = self0.repeat_.key then
          repeat_source_destroy { self0 with repeat_ := { self0.repeat_ with key := 0 } }
        else (self0, [])
      (r1.1, r1.2 ++ [SeatCall.nk_bindings_seat_handle_key keycode NkBindingsKeyState.RELEASE])
    else if kstate = WL_KEYBOARD_KEY_STATE_PRESSED then
      let c0 := [SeatCall.nk_bindings_seat_handle_key keycode NkBindingsKeyState.PRESS]
      let r1 := repeat_source_destroy self0
      match state with
      | none => (r1.1, c0 ++ r1.2)
      | some _ =>
        ({ r1.1 with repeat_ := { r1.1.repeat_ with key := keycode, source := some source } },
         c0 ++ r1.2 ++ (match text with
            | some t => [SeatCall.rofi_view_handle_text t]
            | none => []) ++
          [SeatCall.g_timeout_add self.repeat_.delay repeat_callback.wayland_key_repeat_delay
            source])
    else (self0, [])
  ({ w with last_seat := some self.seat }, r.1,
   r.2 ++ (match state with
      | some _ => [SeatCall.rofi_view_maybe_update]
      | none => []))

/-- The listener `wayland_keyboard_repeat_info`. -/
def wayland_keyboard_repeat_info (self : wayland_seat) (rate delay : Int) :
    wayland_seat × List SeatCall :=
  repeat_source_destroy
    { self with repeat_ := { self.repeat_ with key := 0, rate := rate, delay := delay } }

/-- The function `wayland_keyboard_release`. -/
def wayland_keyboard_release (self : wayland_seat) : wayland_seat × List SeatCall :=
  match self.keyboard with
  | none => (self, [])
  | some keyboard =>
    let r := repeat_source_destroy { self with repeat_ := { self.repeat_ with key := 0 } }
    ({ r.1 with keyboard := none }, [SeatCall.wl_keyboard_release keyboard] ++ r.2)

/-- The function `wayland_pointer_release`; `have_cursor_shape` tells whether
`HAVE_WAYLAND_CURSOR_SHAPE` is defined. -/
def wayland_pointer_release (have_cursor_shape : Bool) (self : wayland_seat) :
    wayland_seat × List SeatCall :=
  match self.pointer with
  | none => (self, [])
  | some pointer =>
    let r : wayland_seat × List SeatCall :=
      match have_cursor_shape, self.cursor_shape_device with
      | true, some device =>
        ({ self with cursor_shape_device := none },
         [SeatCall.wp_cursor_shape_device_v1_destroy device])
      | _, _ => (self, [])
    ({ r.1 with pointer := none }, r.2 ++ [SeatCall.wl_pointer_release pointer])

/-- The proxies libwayland creates for the requests of `wayland_seat_capabilities`. -/
structure seat_env where
  wl_seat_get_keyboard : Nat
  wl_seat_get_pointer : Nat
  get_data_device : Nat
  get_primary_selection_device : Nat
deriving DecidableEq, Repr

/-- First statement of `wayland_seat_capabilities`: the keyboard. -/
def seat_capabilities_keyboard (env : seat_env) (self : wayland_seat) (capabilities : Nat) :
    wayland_seat × List SeatCall :=
  if capabilities &&& WL_SEAT_CAPABILITY_KEYBOARD ≠ 0 ∧ self.keyboard = none then
    ({ self with keyboard := some env.wl_seat_get_keyboard },
     [SeatCall.wl_seat_get_keyboard env.wl_seat_get_keyboard])
  else if ¬ (capabilities &&& WL_SEAT_CAPABILITY_POINTER ≠ 0) ∧ self.keyboard ≠ none then
    wayland_keyboard_release self
  else (self, [])

/-- Second statement of `wayland_seat_capabilities`: the pointer. -/
def seat_capabilities_pointer (have_cursor_shape : Bool) (env : seat_env)
    (self : wayland_seat) (capabilities : Nat) : wayland_seat × List SeatCall :=
  if capabilities &&& WL_SEAT_CAPABILITY_POINTER ≠ 0 ∧ self.pointer = none then
    ({ self with pointer := some env.wl_seat_get_pointer },
     [SeatCall.wl_seat_get_pointer env.wl_seat_get_pointer])
  else if ¬ (capabilities &&& WL_SEAT_CAPABILITY_POINTER ≠ 0) ∧ self.pointer ≠ none then
    wayland_pointer_release have_cursor_shape self
  else (self, [])

/-- Last two statements of `wayland_seat_capabilities`: the data devices, requested
whenever the managers `wayland->data_device_manager` and
`wayland->primary_selection_device_manager` exist. -/
def seat_capabilities_devices (data_device_manager primary_selection_device_manager : Option Nat)
    (env : seat_env) (self : wayland_seat) : wayland_seat × List SeatCall :=
  let r1 : wayland_seat × List SeatCall :=
    match data_device_manager with
    | some m =>
      ({ self with data_device := some env.get_data_device },
       [SeatCall.wl_data_device_manager_get_data_device m env.get_data_device])
    | none => (self, [])
  match primary_selection_device_manager with
  | some m =>
    ({ r1.1 with primary_selection_device := some env.get_primary_selection_device },
     r1.2 ++ [SeatCall.zwp_primary_selection_device_manager_v1_get_device m
      env.get_primary_selection_device])
  | none => r1

/-- The listener `wayland_seat_capabilities`. -/
def wayland_seat_capabilities (have_cursor_shape : Bool)
    (data_device_manager primary_selection_device_manager : Option Nat) (env : seat_env)
    (self : wayland_seat) (capabilities : Nat) : wayland_seat × List SeatCall :=
  let k := seat_capabilities_keyboard env self capabilities
  let p := seat_capabilities_pointer have_cursor_shape env k.1 capabilities
  let d := seat_capabilities_devices data_device_manager primary_selection_device_manager env p.1
  (d.1, k.2 ++ p.2 ++ d.2)

/-- The attached timeout sources of the main context after a list of calls:
`g_timeout_add` attaches its source and `g_source_destroy` detaches one. The main context
holds the only reference to a source made by `g_timeout_add`, so a source that is no
longer attached has been freed; `g_source_destroy` on it is a use after free, and the
result is `none`. -/
def apply_timer_calls :
    List (Nat × repeat_callback) → List SeatCall → Option (List (Nat × repeat_callback))
  | timers, [] => some timers
  | timers, SeatCall.g_timeout_add _ callback source :: cs =>
    apply_timer_calls (timers ++ [(source, callback)]) cs
  | timers, SeatCall.g_source_destroy source :: cs =>
    if timers.any (fun t => t.1 = source) then
      apply_timer_calls (timers.filter fun t => t.1 ≠ source) cs
    else none
  | timers, _ :: cs => apply_timer_calls timers cs

/-- Number of `g_timeout_add` calls in a list of calls. -/
def timeout_adds : List SeatCall → Nat
  | [] => 0
  | SeatCall.g_timeout_add _ _ _ :: cs => timeout_adds cs + 1
  | _ :: cs => timeout_adds cs

/-- The keycodes of the synthetic or real presses handed to the bindings, oldest first. -/
def key_presses : List SeatCall → List Nat
  | [] => []
  | SeatCall.nk_bindings_seat_handle_key keycode NkBindingsKeyState.PRESS :: cs =>
    keycode :: key_presses cs
  | _ :: cs => key_presses cs

/-- A seat with its keyboard in the main loop: the context, the seat, the live timeout
sources of the main context with their callbacks, the id the main context gives to the next
source, and the calls made so far, oldest first. -/
structure keyboard_state where
  wayland : wayland_stuff
  self : wayland_seat
  timers : List (Nat × repeat_callback)
  next_id : Nat
  calls : List SeatCall
deriving DecidableEq, Repr

/-- What happens to the keyboard of a seat: a key event, a repeat-info event, the release
of the keyboard, and the expiry of timeout source `source`. Key and expiry carry what
`rofi_view_get_active()` and the bindings return while they are handled. -/
inductive keyboard_event where
  | key (state : Option Nat) (text : Option String) (serial time key kstate : Nat)
  | repeat_info (rate delay : Int)
  | keyboard_release
  | timer (source : Nat) (state : Option Nat) (text : Option String)
deriving DecidableEq, Repr

/-- One keyboard event. The main context runs the callback of a source only while the
source is attached, and detaches and frees the source when the callback returns
`G_SOURCE_REMOVE`. The result is `none` when the handler destroys a freed source. -/
def keyboard_step (s : keyboard_state) : keyboard_event → Option keyboard_state
  | keyboard_event.key state text serial time key kstate =>
    let r := wayland_keyboard_key s.wayland state text s.next_id s.self serial time key kstate
    (apply_timer_calls s.timers r.2.2).map fun timers =>
      { wayland := r.1, self := r.2.1, timers := timers,
        next_id := s.next_id + timeout_adds r.2.2, calls := s.calls ++ r.2.2 }
  | keyboard_event.repeat_info rate delay =>
    let r := wayland_keyboard_repeat_info s.self rate delay
    (apply_timer_calls s.timers r.2).map fun timers =>
      { s with self := r.1, timers := timers, calls := s.calls ++ r.2 }
  | keyboard_event.keyboard_release =>
    let r := wayland_keyboard_release s.self
    (apply_timer_calls s.timers r.2).map fun timers =>
      { s with self := r.1, timers := timers, calls := s.calls ++ r.2 }
  | keyboard_event.timer source state text =>
    match s.timers.find? fun t => t.1 = source with
    | none => some s
    | some (_, repeat_callback.wayland_key_repeat_delay) =>
      let r := wayland_key_repeat_delay state text s.next_id s.self
      (apply_timer_calls s.timers r.2.1).map fun timers =>
        { s with
          self := r.1
          timers := if r.2.2 then timers else timers.filter fun t => t.1 ≠ source
          next_id := s.next_id + timeout_adds r.2.1
          calls := s.calls ++ r.2.1 }
    | some (_, repeat_callback.wayland_key_repeat) =>
      let r := wayland_key_repeat state text s.self
      (apply_timer_calls s.timers r.2.1).map fun timers =>
        { s with
          self := r.1
          timers := if r.2.2 then timers else timers.filter fun t => t.1 ≠ source
          next_id := s.next_id + timeout_adds r.2.1
          calls := s.calls ++ r.2.1 }

/-- A sequence of keyboard events; `none` once a handler has destroyed a freed source. -/
def keyboard_run (s : keyboard_state) : List keyboard_event → Option keyboard_state
  | [] => some s
  | e :: es =>
    match keyboard_step s e with
    | none => none
    | some t => keyboard_run t es

/-- The event is a timer expiry. -/
def is_timer : keyboard_event → Bool
  | keyboard_event.timer _ _ _ => true
  | _ => false

/-- What holds of the repeat timers of a seat: at most one is live, and a live one is the
one stored in `repeat.source` and was created before the next source id. -/
def keyboard_inv (s : keyboard_state) : Prop :=
  s.timers.length ≤ 1 ∧
  ∀ t ∈ s.timers, s.self.repeat_.source = some t.1 ∧ t.1 < s.next_id

/-- A seat that holds keyboard 50 and has seen repeat-info (rate 40, delay 600), with no
timer armed. -/
def keyboard_seat : wayland_seat :=
  { idle_seat with
    keyboard := some 50
    repeat_ := { key := 0, source := none, rate := 40, delay := 600 } }

/-- The example proxies for `wayland_seat_capabilities`. -/
def example_seat_env : seat_env :=
  { wl_seat_get_keyboard := 51, wl_seat_get_pointer := 61, get_data_device := 71,
    get_primary_selection_device := 81 }

/-- The three ways a keyboard step can leave the timers: none live; exactly the one just
created, which is stored; or timers and stored source as before. -/
def timers_outcome (s t : keyboard_state) : Prop :=
  t.timers = [] ∨
  (∃ cb, t.timers = [(s.next_id, cb)] ∧ t.self.repeat_.source = some s.next_id ∧
    t.next_id = s.next_id + 1) ∨
  (t.timers = s.timers ∧ t.self.repeat_.source = s.self.repeat_.source ∧
    s.next_id ≤ t.next_id)

/-- Whether a handler that starts with `stored` in `repeat.source` destroys the stored
source before each `g_timeout_add` of its list of calls. -/
def cancelled_before_armed : Option Nat → List SeatCall → Bool
  | _, [] => true
  | stored, SeatCall.g_source_destroy source :: cs =>
    cancelled_before_armed (if stored = some source then none else stored) cs
  | stored, SeatCall.g_timeout_add _ _ source :: cs =>
    stored.isNone && cancelled_before_armed (some source) cs
  | stored, _ :: cs => cancelled_before_armed stored cs

/-- A keyboard state of `keyboard_seat` with no live timer, next source id 7 and no call
made. -/
def keyboard_start : keyboard_state :=
  { wayland := example_wayland, self := keyboard_seat, timers := [], next_id := 7, calls := [] }

/-- Whether the source stored in `repeat.source`, if there is one, is attached to the main
context; when it is not, `repeat.source` points to a freed source. -/
def source_attached (s : keyboard_state) : Bool :=
  match s.self.repeat_.source with
  | none => true
  | some source => s.timers.any fun t => t.1 = source

/-- The state `keyboard_start` after key 30 was pressed with view 1: the delay timer 7 is
armed and stored. -/
def keyboard_pressed : keyboard_state :=
  { wayland := { example_wayland with last_seat := some 7 }
    self := { keyboard_seat with
      serial := 3
      repeat_ := { key := 38, source := some 7, rate := 40, delay := 600 } }
    timers := [(7, repeat_callback.wayland_key_repeat_delay)]
    next_id := 8
    calls := [SeatCall.nk_bindings_seat_handle_key 38 NkBindingsKeyState.PRESS,
      SeatCall.g_timeout_add 600 repeat_callback.wayland_key_repeat_delay 7,
      SeatCall.rofi_view_maybe_update] }

/-- The state `keyboard_pressed` after timer 7 expired while no view was active: the
callback returned `G_SOURCE_REMOVE`, source 7 is detached and freed, and `repeat.source`
still holds it. -/
def keyboard_stale : keyboard_state :=
  { keyboard_pressed with
    timers := []
    calls := keyboard_pressed.calls ++
      [SeatCall.nk_bindings_seat_handle_key 38 NkBindingsKeyState.PRESS] }

/-! ## Registry -/

/-- The interface named by a `global` event; `other` is any name that
`wayland_registry_handle_global` does not compare with. -/
inductive wl_interface where
  | wl_compositor
  | zwlr_layer_shell_v1
  | zwp_keyboard_shortcuts_inhibit_manager_v1
  | wl_shm
  | wl_seat
  | wl_output
  | wl_data_device_manager
  | zwp_primary_selection_device_manager_v1
  | wp_cursor_shape_manager_v1
  | other
deriving DecidableEq, Repr

/-- Modelled from the spec: the version constants that `wayland_registry_handle_global` uses
are defined in `wayland-internal.h`, which is not among the sources. Their values are
parameters. -/
structure interface_versions where
  WL_COMPOSITOR_INTERFACE_VERSION : Nat
  WL_SHM_INTERFACE_VERSION : Nat
  WL_SEAT_INTERFACE_MIN_VERSION : Nat
  WL_SEAT_INTERFACE_MAX_VERSION : Nat
  WL_OUTPUT_INTERFACE_MIN_VERSION : Nat
  WL_OUTPUT_INTERFACE_MAX_VERSION : Nat
  WL_LAYER_SHELL_INTERFACE_VERSION : Nat
  WL_KEYBOARD_SHORTCUTS_INHIBITOR_INTERFACE_VERSION : Nat
deriving DecidableEq, Repr

/-- The version that introduced `wl_output.release`, from `wayland-client-protocol.h`. -/
def WL_OUTPUT_RELEASE_SINCE_VERSION : Nat := 3

/-- Modelled from the spec: the array `wayland->global_names`, indexed by the enum
`wayland_global_name` of `wayland-internal.h` (not among the sources); one member per
enumerator that `wayland_registry_handle_global_remove` lists, in the order taken for the
enumerators, 0 while unset. -/
structure wayland_global_names where
  WAYLAND_GLOBAL_COMPOSITOR : Nat
  WAYLAND_GLOBAL_SHM : Nat
  WAYLAND_GLOBAL_LAYER_SHELL : Nat
  WAYLAND_GLOBAL_KEYBOARD_SHORTCUTS_INHIBITOR : Nat
  WAYLAND_GLOBAL_CURSOR_SHAPE : Nat
deriving DecidableEq, Repr

/-- Modelled from the spec: the members of `wayland->cursor` that the registry listeners
use; the proxies and loaded objects are identities, `none` for NULL. -/
structure wayland_cursor where
  theme : Option Nat
  cursor : Option Nat
  image : Option Nat
  surface : Option Nat
  frame_cb : Option Nat
  scale : Int
deriving DecidableEq, Repr

/-- Modelled from the spec: the members of the context `wayland_stuff` that the registry
listeners use. The hash tables `seats` and `outputs` are lists in iteration order. -/
structure wayland_registry where
  global_names : wayland_global_names
  compositor : Option Nat
  shm : Option Nat
  layer_shell : Option Nat
  kb_shortcuts_inhibit_manager : Option Nat
  cursor_shape_manager : Option Nat
  data_device_manager : Option Nat
  primary_selection_device_manager : Option Nat
  cursor : wayland_cursor
  seats : List wayland_seat
  outputs : List wayland_output
deriving DecidableEq, Repr

/-- The calls the registry listeners make, in order; `seat` wraps a call made by
`wayland_seat_release`. -/
inductive RegistryCall where
  | wl_registry_bind (name : Nat) (interface : wl_interface) (version : Nat)
  | wl_seat_add_listener (seat : Nat)
  | wl_output_add_listener (output : Nat)
  | wl_compositor_destroy (compositor : Option Nat)
  | wp_cursor_shape_manager_v1_destroy (manager : Option Nat)
  | zwlr_layer_shell_v1_destroy (layer_shell : Option Nat)
  | zwp_keyboard_shortcuts_inhibit_manager_v1_destroy (manager : Option Nat)
  | wl_shm_destroy (shm : Option Nat)
  | wl_callback_destroy (callback : Nat)
  | wl_surface_destroy (surface : Option Nat)
  | wl_cursor_theme_destroy (theme : Option Nat)
  | seat (call : SeatCall)
  | wl_output_release (output : Nat)
  | wl_output_destroy (output : Nat)
deriving DecidableEq, Repr

/-- The listener `wayland_registry_handle_global`. `proxy` is what `wl_registry_bind`
returns, `have_cursor_shape` tells whether `HAVE_WAYLAND_CURSOR_SHAPE` is defined. The
result is `none` when `g_error` aborts the process. -/
def wayland_registry_handle_global (have_cursor_shape : Bool) (v : interface_versions)
    (r : wayland_registry) (name : Nat) (interface : wl_interface) (version proxy : Nat) :
    Option (wayland_registry × List RegistryCall) :=
  match interface with
  | wl_interface.wl_compositor =>
    some ({ r with
            global_names := { r.global_names with WAYLAND_GLOBAL_COMPOSITOR := name }
            compositor := some proxy },
          [RegistryCall.wl_registry_bind name interface
            (min version v.WL_COMPOSITOR_INTERFACE_VERSION)])
  | wl_interface.zwlr_layer_shell_v1 =>
    some ({ r with
            global_names := { r.global_names with WAYLAND_GLOBAL_LAYER_SHELL := name }
            layer_shell := some proxy },
          [RegistryCall.wl_registry_bind name interface
            (min version v.WL_LAYER_SHELL_INTERFACE_VERSION)])
  | wl_interface.zwp_keyboard_shortcuts_inhibit_manager_v1 =>
    some ({ r with
            global_names :=
              { r.global_names with WAYLAND_GLOBAL_KEYBOARD_SHORTCUTS_INHIBITOR := name }
            kb_shortcuts_inhibit_manager := some proxy },
          [RegistryCall.wl_registry_bind name interface
            (min version v.WL_KEYBOARD_SHORTCUTS_INHIBITOR_INTERFACE_VERSION)])
  | wl_interface.wl_shm =>
    some ({ r with
            global_names := { r.global_names with WAYLAND_GLOBAL_SHM := name }
            shm := some proxy },
          [RegistryCall.wl_registry_bind name interface
            (min version v.WL_SHM_INTERFACE_VERSION)])
  | wl_interface.wl_seat =>
    if version < v.WL_SEAT_INTERFACE_MIN_VERSION then none
    else
      some ({ r with
              seats := r.seats ++ [{ zero_seat with global_name := name, seat := proxy }] },
            [RegistryCall.wl_registry_bind name interface
              (min version v.WL_SEAT_INTERFACE_MAX_VERSION),
             RegistryCall.wl_seat_add_listener proxy])
  | wl_interface.wl_output =>
    if version < v.WL_OUTPUT_INTERFACE_MIN_VERSION then none
    else
      some ({ r with outputs := r.outputs ++ [new_output name proxy] },
            [RegistryCall.wl_registry_bind name interface
              (min version v.WL_OUTPUT_INTERFACE_MAX_VERSION),
             RegistryCall.wl_output_add_listener proxy])
  | wl_interface.wl_data_device_manager =>
    some ({ r with data_device_manager := some proxy },
          [RegistryCall.wl_registry_bind name interface 3])
  | wl_interface.zwp_primary_selection_device_manager_v1 =>
    some ({ r with primary_selection_device_manager := some proxy },
          [RegistryCall.wl_registry_bind name interface 1])
  | wl_interface.wp_cursor_shape_manager_v1 =>
    if have_cursor_shape then
      some ({ r with
              global_names := { r.global_names with WAYLAND_GLOBAL_CURSOR_SHAPE := name }
              cursor_shape_manager := some proxy },
            [RegistryCall.wl_registry_bind name interface 1])
    else some (r, [])
  | wl_interface.other => some (r, [])

/-- The version of the first `wl_registry_bind` among the calls, if there is one. -/
def bind_version : List RegistryCall → Option Nat
  | [] => none
  | RegistryCall.wl_registry_bind _ _ version :: _ => some version
  | _ :: cs => bind_version cs

/-- The function `wayland_seat_release`: the calls made before the seat is taken out of
the table and freed. -/
def wayland_seat_release (have_cursor_shape : Bool) (self : wayland_seat) : List SeatCall :=
  let r1 := wayland_keyboard_release self
  let r2 := wayland_pointer_release have_cursor_shape r1.1
  r1.2 ++ r2.2 ++ [SeatCall.wl_seat_release r2.1.seat]

/-- The function `wayland_output_release`: the call made before the output is taken out of
the table and freed; `wl_output_get_version` is the answer of the library. -/
def wayland_output_release (wl_output_get_version : Nat → Nat) (self : wayland_output) :
    List RegistryCall :=
  if wl_output_get_version self.output ≥ WL_OUTPUT_RELEASE_SINCE_VERSION then
    [RegistryCall.wl_output_release self.output]
  else [RegistryCall.wl_output_destroy self.output]

/-- The block of `wayland_registry_handle_global_remove` that follows the loop over the
singletons: the cursor is torn down when a theme is loaded and the compositor or the
shared memory is gone. -/
def global_remove_cursor (r : wayland_registry) : wayland_registry × List RegistryCall :=
  if r.cursor.theme ≠ none ∧ (r.compositor = none ∨ r.shm = none) then
    ({ r with
       cursor := { theme := none, cursor := none, image := none, surface := none,
                   frame_cb := none, scale := 0 } },
     (match r.cursor.frame_cb with
      | some callback => [RegistryCall.wl_callback_destroy callback]
      | none => []) ++
     [RegistryCall.wl_surface_destroy r.cursor.surface,
      RegistryCall.wl_cursor_theme_destroy r.cursor.theme])
  else (r, [])

/-- The two loops of `wayland_registry_handle_global_remove` over the seats and the
outputs: the first seat with the global name is taken out and released, else the first
such output. -/
def global_remove_instance (have_cursor_shape : Bool) (wl_output_get_version : Nat → Nat)
    (r : wayland_registry) (name : Nat) : wayland_registry × List RegistryCall :=
  match r.seats.find? fun seat => seat.global_name = name with
  | some seat =>
    ({ r with seats := r.seats.eraseP fun seat => seat.global_name = name },
     (wayland_seat_release have_cursor_shape seat).map RegistryCall.seat)
  | none =>
    match r.outputs.find? fun output => output.global_name = name with
    | some output =>
      ({ r with outputs := r.outputs.eraseP fun output => output.global_name = name },
       wayland_output_release wl_output_get_version output)
    | none => (r, [])

/-- The listener `wayland_registry_handle_global_remove`. The loop over the singletons is
unrolled in the order of the enumerators; a slot that holds `name` is cleared, its proxy
destroyed, and the function returns. Only when no slot holds `name` does it go on to the
cursor block and the loops over seats and outputs. -/
def wayland_registry_handle_global_remove (have_cursor_shape : Bool)
    (wl_output_get_version : Nat → Nat) (r : wayland_registry) (name : Nat) :
    wayland_registry × List RegistryCall :=
  if r.global_names.WAYLAND_GLOBAL_COMPOSITOR = name then
    ({ r with
       global_names := { r.global_names with WAYLAND_GLOBAL_COMPOSITOR := 0 }
       compositor := none },
     [RegistryCall.wl_compositor_destroy r.compositor])
  else if r.global_names.WAYLAND_GLOBAL_SHM = name then
    ({ r with
       global_names := { r.global_names with WAYLAND_GLOBAL_SHM := 0 }
       shm := none },
     [RegistryCall.wl_shm_destroy r.shm])
  else if r.global_names.WAYLAND_GLOBAL_LAYER_SHELL = name then
    ({ r with
       global_names := { r.global_names with WAYLAND_GLOBAL_LAYER_SHELL := 0 }
       layer_shell := none },
     [RegistryCall.zwlr_layer_shell_v1_destroy r.layer_shell])
  else if r.global_names.WAYLAND_GLOBAL_KEYBOARD_SHORTCUTS_INHIBITOR = name then
    ({ r with
       global_names :=
         { r.global_names with WAYLAND_GLOBAL_KEYBOARD_SHORTCUTS_INHIBITOR := 0 }
       kb_shortcuts_inhibit_manager := none },
     [RegistryCall.zwp_keyboard_shortcuts_inhibit_manager_v1_destroy
       r.kb_shortcuts_inhibit_manager])
  else if r.global_names.WAYLAND_GLOBAL_CURSOR_SHAPE = name then
    if have_cursor_shape then
      ({ r with
         global_names := { r.global_names with WAYLAND_GLOBAL_CURSOR_SHAPE := 0 }
         cursor_shape_manager := none },
       [RegistryCall.wp_cursor_shape_manager_v1_destroy r.cursor_shape_manager])
    else
      ({ r with global_names := { r.global_names with WAYLAND_GLOBAL_CURSOR_SHAPE := 0 } },
       [])
  else
    let c := global_remove_cursor r
    let i := global_remove_instance have_cursor_shape wl_output_get_version c.1 name
    (i.1, c.2 ++ i.2)

/-- Whether `name` is recorded: in a singleton slot, as the global name of a seat, or as
that of an output. -/
def name_known (r : wayland_registry) (name : Nat) : Bool :=
  r.global_names.WAYLAND_GLOBAL_COMPOSITOR = name ||
  r.global_names.WAYLAND_GLOBAL_SHM = name ||
  r.global_names.WAYLAND_GLOBAL_LAYER_SHELL = name ||
  r.global_names.WAYLAND_GLOBAL_KEYBOARD_SHORTCUTS_INHIBITOR = name ||
  r.global_names.WAYLAND_GLOBAL_CURSOR_SHAPE = name ||
  r.seats.any (fun seat => seat.global_name = name) ||
  r.outputs.any (fun output => output.global_name = name)

/-- The example values of the version constants. -/
def example_versions : interface_versions :=
  { WL_COMPOSITOR_INTERFACE_VERSION := 3, WL_SHM_INTERFACE_VERSION := 1,
    WL_SEAT_INTERFACE_MIN_VERSION := 5, WL_SEAT_INTERFACE_MAX_VERSION := 8,
    WL_OUTPUT_INTERFACE_MIN_VERSION := 2, WL_OUTPUT_INTERFACE_MAX_VERSION := 4,
    WL_LAYER_SHELL_INTERFACE_VERSION := 1,
    WL_KEYBOARD_SHORTCUTS_INHIBITOR_INTERFACE_VERSION := 1 }

/-- The context before any global is advertised: nothing bound, no cursor loaded. -/
def empty_registry : wayland_registry :=
  { global_names :=
      { WAYLAND_GLOBAL_COMPOSITOR := 0, WAYLAND_GLOBAL_SHM := 0,
        WAYLAND_GLOBAL_LAYER_SHELL := 0, WAYLAND_GLOBAL_KEYBOARD_SHORTCUTS_INHIBITOR := 0,
        WAYLAND_GLOBAL_CURSOR_SHAPE := 0 }
    compositor := none, shm := none, layer_shell := none
    kb_shortcuts_inhibit_manager := none, cursor_shape_manager := none
    data_device_manager := none, primary_selection_device_manager := none
    cursor := { theme := none, cursor := none, image := none, surface := none,
                frame_cb := none, scale := 0 }
    seats := [], outputs := [] }

/-- A context with compositor (global 1, proxy 101), shared memory (global 2, proxy 102),
layer shell (global 3, proxy 103), one seat (global 4) and one output (global 5), and a
loaded cursor: theme 201, cursor 202, image 203, surface 204, frame callback 205. -/
def example_registry : wayland_registry :=
  { global_names :=
      { WAYLAND_GLOBAL_COMPOSITOR := 1, WAYLAND_GLOBAL_SHM := 2,
        WAYLAND_GLOBAL_LAYER_SHELL := 3, WAYLAND_GLOBAL_KEYBOARD_SHORTCUTS_INHIBITOR := 0,
        WAYLAND_GLOBAL_CURSOR_SHAPE := 0 }
    compositor := some 101, shm := some 102, layer_shell := some 103
    kb_shortcuts_inhibit_manager := none, cursor_shape_manager := none
    data_device_manager := none, primary_selection_device_manager := none
    cursor := { theme := some 201, cursor := some 202, image := some 203,
                surface := some 204, frame_cb := some 205, scale := 1 }
    seats := [{ zero_seat with global_name := 4, seat := 104 }]
    outputs := [new_output 5 105] }

/-! ## Layer surface: configure, teardown and dimensions -/

/-- The listener `wayland_layer_shell_surface_configure`; `surface` is the layer surface
the event arrived on, `serial`, `width` and `height` are the `uint32_t` of the event. -/
def wayland_layer_shell_surface_configure (w : wayland_stuff) (surface serial width
    height : Nat) : wayland_stuff × List LayerCall :=
  ({ w with layer_width := width, layer_height := height },
   [LayerCall.zwlr_layer_surface_v1_ack_configure (some surface) serial])

/-- The function `wayland_surface_destroy`. -/
def wayland_surface_destroy (w : wayland_stuff) : wayland_stuff × List LayerCall :=
  let r : wayland_stuff × List LayerCall :=
    match w.wlr_surface with
    | some wlr_surface =>
      ({ w with wlr_surface := none }, [LayerCall.zwlr_layer_surface_v1_destroy wlr_surface])
    | none => (w, [])
  match r.1.surface with
  | some surface =>
    ({ r.1 with surface := none }, r.2 ++ [LayerCall.wl_surface_destroy surface])
  | none => r

/-- The function `display_get_surface_dimensions`. `width` and `height` are the `int`
objects the two arguments point to, `none` for a `NULL` argument; the result is the return
value and the two objects afterwards. The assignment of a `uint32_t` member to an `int`
is the conversion `to_int32`. -/
def display_get_surface_dimensions (w : wayland_stuff) (width height : Option Int) :
    Bool × Option Int × Option Int :=
  if w.layer_width ≠ 0 then
    (true, width.map (fun _ => to_int32 w.layer_width),
     height.map (fun _ => to_int32 w.layer_height))
  else (false, width, height)

/-- A context with layer surface 2 on base surface 1, not yet configured. -/
def layer_wayland : wayland_stuff := { example_wayland with wlr_surface := some 2 }

/-! ## Event classes of the buffer pool and the pointer -/

/-- The event is the presentation of a drawable. -/
def is_surface_commit : pool_event → Bool
  | pool_event.surface_commit _ => true
  | _ => false

/-- The event is a pointer motion. -/
def is_motion : pointer_event → Bool
  | pointer_event.motion _ _ _ => true
  | _ => false

/-- The event is a pointer frame handled while a view is active. -/
def is_active_frame : pointer_event → Bool
  | pointer_event.frame (some _) => true
  | _ => false

/-- The seat made by the `wl_seat` branch of `wayland_registry_handle_global` for the
global 4 bound as proxy 104. -/
def new_seat : wayland_seat := { zero_seat with global_name := 4, seat := 104 }

/-! ## Clipboard -/

/-- The constant `CLIPBOARD_READ_INCREMENT`, a `#define` of `display.c`. -/
def CLIPBOARD_READ_INCREMENT : Nat := 1024

/-- The `struct clipboard_read_info`. `buffer` is the allocated block, one entry per
byte, `none` for a byte that was never written; `callback` and `user_data` are the
identities of the caller's callback and argument. -/
structure clipboard_read_info where
  buffer : List (Option Nat)
  size : Nat
  fd : Int
  callback : Nat
  user_data : Nat
deriving DecidableEq, Repr

/-- What `g_io_channel_read_chars` answers: the status and, with `G_IO_STATUS_NORMAL`, the
bytes it has stored at the address it was given; their number is `read`. -/
inductive GIOStatus where
  | G_IO_STATUS_ERROR
  | G_IO_STATUS_NORMAL (chunk : List Nat)
  | G_IO_STATUS_EOF
  | G_IO_STATUS_AGAIN
deriving DecidableEq, Repr

/-- Modelled from the spec: the two values of `enum clipboard_type`, which is declared in
`display.h`, not among the sources. -/
inductive clipboard_type where
  | CLIPBOARD_DEFAULT
  | CLIPBOARD_PRIMARY
deriving DecidableEq, Repr

/-- The calls of the clipboard code; `callback` is the call of the caller's callback with
the block `buffer` points to. -/
inductive ClipboardCall where
  | wl_data_offer_receive (offer : Nat) (mime_type : String) (fd : Int)
  | zwp_primary_selection_offer_v1_receive (offer : Nat) (mime_type : String) (fd : Int)
  | close (fd : Int)
  | g_io_channel_unix_new (fd : Int)
  | g_io_add_watch
  | callback (callback : Nat) (buffer : List (Option Nat)) (user_data : Nat)
  | g_warning
  | g_free_buffer
  | g_io_channel_shutdown
  | g_io_channel_unref
  | g_free_info
deriving DecidableEq, Repr

/-- A store of the bytes `data` at offset `offset` of a block; `none` when the store does
not lie within the block. -/
def block_store (block : List (Option Nat)) (offset : Nat) (data : List Nat) :
    Option (List (Option Nat)) :=
  if offset + data.length ≤ block.length then
    some (block.take offset ++ data.map some ++ block.drop (offset + data.length))
  else none

/-- The library function `g_realloc`: `NULL` for the size 0, and else a block of `n_bytes`
bytes that keeps the content up to the lesser of the old and the new size. GLib ends the
process when memory is short, so there is no other `NULL`. -/
def g_realloc (block : List (Option Nat)) (n_bytes : Nat) : Option (List (Option Nat)) :=
  if n_bytes = 0 then none
  else some (block.take n_bytes ++ List.replicate (n_bytes - block.length) none)

/-- The `default:` branch of `clipboard_read_glib_callback`: the NUL store at index `size`,
the delivery on end of stream or the warning and the release of the buffer on an error,
and the end of the watch. `none` when the NUL store is outside the buffer. -/
def clipboard_read_finish (info : clipboard_read_info) (eof : Bool) :
    Option (Option clipboard_read_info × List ClipboardCall × Bool) :=
  match block_store info.buffer info.size [0] with
  | none => none
  | some buffer =>
    some (none,
      (if eof then [ClipboardCall.callback info.callback buffer info.user_data]
       else [ClipboardCall.g_warning, ClipboardCall.g_free_buffer]) ++
      [ClipboardCall.g_io_channel_shutdown, ClipboardCall.g_io_channel_unref,
       ClipboardCall.close info.fd, ClipboardCall.g_free_info],
      false)

/-- The watch callback `clipboard_read_glib_callback` for one answer of
`g_io_channel_read_chars`, which was given the address `info->buffer + info->size` and the
count `CLIPBOARD_READ_INCREMENT`. The result is the info afterwards (`none` once it is
freed), the calls made and the return value; it is `none` when a store is outside the
buffer. `info->size` is a `size_t`. -/
def clipboard_read_glib_callback (info : clipboard_read_info) (status : GIOStatus) :
    Option (Option clipboard_read_info × List ClipboardCall × Bool) :=
  match status with
  | GIOStatus.G_IO_STATUS_AGAIN => some (some info, [], true)
  | GIOStatus.G_IO_STATUS_NORMAL chunk =>
    match block_store info.buffer info.size chunk with
    | none => none
    | some stored =>
      let size := (info.size + chunk.length) % 2 ^ 64
      match g_realloc stored ((size + CLIPBOARD_READ_INCREMENT) % 2 ^ 64) with
      | none =>
        some (none,
          [ClipboardCall.g_io_channel_shutdown, ClipboardCall.g_io_channel_unref,
           ClipboardCall.close info.fd, ClipboardCall.g_free_info],
          false)
      | some buffer => some (some { info with buffer := buffer, size := size }, [], true)
  | GIOStatus.G_IO_STATUS_EOF => clipboard_read_finish info true
  | GIOStatus.G_IO_STATUS_ERROR => clipboard_read_finish info false

/-- The function `clipboard_read_data`. The two Booleans tell whether `g_malloc` returned
a block for the info and for the buffer; the result is the info handed to the watch
(`none` when none is installed), the calls made and the return value. -/
def clipboard_read_data (info_allocated buffer_allocated : Bool) (fd : Int)
    (callback user_data : Nat) : Option clipboard_read_info × List ClipboardCall × Bool :=
  if !info_allocated then
    (none,
     [ClipboardCall.g_io_channel_unix_new fd, ClipboardCall.g_io_channel_unref,
      ClipboardCall.close fd],
     false)
  else if !buffer_allocated then
    (none,
     [ClipboardCall.g_io_channel_unix_new fd, ClipboardCall.g_io_channel_unref,
      ClipboardCall.close fd, ClipboardCall.g_free_info],
     false)
  else
    (some { buffer := List.replicate CLIPBOARD_READ_INCREMENT none, size := 0, fd := fd,
            callback := callback, user_data := user_data },
     [ClipboardCall.g_io_channel_unix_new fd, ClipboardCall.g_io_add_watch],
     true)

/-- The function `wayland_get_clipboard_data`. `offer` is `clipboard->offer` of the
clipboard `cb_type`, `pipe` the two descriptors of a successful `pipe()` (`none` when it
fails); the Booleans are those of `clipboard_read_data`. -/
def wayland_get_clipboard_data (offer : Option Nat) (pipe : Option (Int × Int))
    (info_allocated buffer_allocated : Bool) (cb_type : clipboard_type)
    (callback user_data : Nat) : Option clipboard_read_info × List ClipboardCall :=
  match offer with
  | none => (none, [])
  | some offer =>
    match pipe with
    | none => (none, [])
    | some fds =>
      let r := clipboard_read_data info_allocated buffer_allocated fds.1 callback user_data
      (r.1,
       [if cb_type = clipboard_type.CLIPBOARD_DEFAULT then
          ClipboardCall.wl_data_offer_receive offer "text/plain" fds.2
        else ClipboardCall.zwp_primary_selection_offer_v1_receive offer "text/plain" fds.2,
        ClipboardCall.close fds.2] ++ r.2.1)

/-- A clipboard read in the main loop: the info of the installed watch, `none` when no
watch is installed, and the calls made so far, oldest first. -/
structure clipboard_state where
  info : Option clipboard_read_info
  calls : List ClipboardCall
deriving DecidableEq, Repr

/-- One answer of `g_io_channel_read_chars` in the main loop: the watch callback runs only
while the watch is installed, and the watch ends when the callback returns `FALSE`. The
result is `none` when the callback stores outside the buffer. -/
def clipboard_step (s : clipboard_state) (status : GIOStatus) : Option clipboard_state :=
  match s.info with
  | none => some s
  | some info =>
    match clipboard_read_glib_callback info status with
    | none => none
    | some r => some { info := if r.2.2 then r.1 else none, calls := s.calls ++ r.2.1 }

/-- A sequence of answers of `g_io_channel_read_chars`. -/
def clipboard_run (s : clipboard_state) : List GIOStatus → Option clipboard_state
  | [] => some s
  | status :: rest =>
    match clipboard_step s status with
    | none => none
    | some t => clipboard_run t rest

/-- The answer is a would-block, or a successful read of at most
`CLIPBOARD_READ_INCREMENT` bytes, the count `g_io_channel_read_chars` was given. -/
def is_read : GIOStatus → Bool
  | GIOStatus.G_IO_STATUS_AGAIN => true
  | GIOStatus.G_IO_STATUS_NORMAL chunk => decide (chunk.length ≤ CLIPBOARD_READ_INCREMENT)
  | _ => false

/-- The bytes read by a sequence of answers, in order. -/
def chunks : List GIOStatus → List Nat
  | [] => []
  | GIOStatus.G_IO_STATUS_NORMAL chunk :: rest => chunk ++ chunks rest
  | _ :: rest => chunks rest

/-- The calls of the caller's callback among a list of calls. -/
def callback_calls (calls : List ClipboardCall) : List ClipboardCall :=
  calls.filter fun c => match c with
    | ClipboardCall.callback _ _ _ => true
    | _ => false

/-- What holds of the info before each invocation of the watch callback, `data` being the
bytes read so far: `size` is their number, the buffer has `size + 1024` bytes and starts
with `data`. -/
def clipboard_inv (data : List Nat) (info : clipboard_read_info) : Prop :=
  info.size = data.length ∧
  info.buffer.length = info.size + CLIPBOARD_READ_INCREMENT ∧
  info.buffer.take info.size = data.map some

/-- The state of the main loop after `wayland_get_clipboard_data` on a clipboard that has
the offer `offer`, when `pipe()` succeeds with the descriptors `fds` and both allocations
succeed. -/
def clipboard_begin (offer : Nat) (fds : Int × Int) (cb_type : clipboard_type)
    (callback user_data : Nat) : clipboard_state :=
  { info := (wayland_get_clipboard_data (some offer) (some fds) true true cb_type callback
      user_data).1,
    calls := (wayland_get_clipboard_data (some offer) (some fds) true true cb_type callback
      user_data).2 }

/-- The state after `wayland_get_clipboard_data` for the default clipboard with offer 300
and the pipe (5, 6), callback 9 with argument 8. -/
def clipboard_start : clipboard_state :=
  clipboard_begin 300 (5, 6) clipboard_type.CLIPBOARD_DEFAULT 9 8

/-! ## Buffer pool: properties -/

theorem cleanup_loop_fst (bs : List wayland_buffer) :
    (wayland_buffer_cleanup_loop bs).1 = bs.map fun b => (wayland_buffer_cleanup_buffer b).1 := by
  induction bs with
  | nil => rfl
  | cons b bs ih => simp [wayland_buffer_cleanup_loop, ih]

theorem cleanup_loop_count_le (bs : List wayland_buffer) :
    (wayland_buffer_cleanup_loop bs).2.2 ≤ bs.length := by
  induction bs with
  | nil => simp [wayland_buffer_cleanup_loop]
  | cons b bs ih =>
    simp only [wayland_buffer_cleanup_loop, List.length_cons]
    split <;> omega

theorem cleanup_loop_count_eq (bs : List wayland_buffer) :
    (wayland_buffer_cleanup_loop bs).2.2 = bs.length ↔
      ∀ b ∈ (wayland_buffer_cleanup_loop bs).1, b.buffer = none := by
  induction bs with
  | nil => simp [wayland_buffer_cleanup_loop]
  | cons b bs ih =>
    have hle := cleanup_loop_count_le bs
    simp only [wayland_buffer_cleanup_loop, List.length_cons, List.mem_cons, forall_eq_or_imp]
    rw [← ih]
    split
    · rename_i h
      simp [h]; omega
    · rename_i h
      simp [h]; omega

theorem cleanup_loop_calls (bs : List wayland_buffer) :
    ∀ c ∈ (wayland_buffer_cleanup_loop bs).2.1, ∃ h, c = PoolCall.wl_buffer_destroy h := by
  induction bs with
  | nil => simp [wayland_buffer_cleanup_loop]
  | cons b bs ih =>
    intro c hc
    simp only [wayland_buffer_cleanup_loop, List.mem_append] at hc
    rcases hc with hc | hc
    · unfold wayland_buffer_cleanup_buffer at hc
      split at hc
      · simp at hc; exact ⟨_, hc⟩
      · simp at hc
    · exact ih c hc

theorem cleanup_buffer_fst (b : wayland_buffer) :
    (wayland_buffer_cleanup_buffer b).1 =
      if b.released = true then { b with buffer := none } else b := by
  unfold wayland_buffer_cleanup_buffer
  rcases b with ⟨_ | h, d, _ | _⟩ <;> simp

theorem munmap_called_append (a b : List PoolCall) :
    munmap_called (a ++ b) = (munmap_called a || munmap_called b) := by
  simp [munmap_called]

theorem munmap_called_iff (cs : List PoolCall) :
    munmap_called cs = true ↔ ∃ a l, PoolCall.munmap a l ∈ cs := by
  unfold munmap_called
  rw [List.any_eq_true]
  constructor
  · rintro ⟨c, hc, h⟩
    cases c <;> simp at h
    exact ⟨_, _, hc⟩
  · rintro ⟨a, l, h⟩
    exact ⟨_, h, rfl⟩

theorem region_unmapped_munmap_called (cs : List PoolCall) (addr len : Nat)
    (h : region_unmapped cs addr len = true) : munmap_called cs = true := by
  unfold region_unmapped at h
  rw [List.any_eq_true] at h
  obtain ⟨c, hc, h⟩ := h
  rw [munmap_called_iff]
  cases c <;> simp at h
  exact ⟨_, _, hc⟩

theorem cleanup_loop_no_munmap (bs : List wayland_buffer) :
    munmap_called (wayland_buffer_cleanup_loop bs).2.1 = false := by
  rw [Bool.eq_false_iff]
  intro h
  rw [munmap_called_iff] at h
  obtain ⟨a, l, h⟩ := h
  obtain ⟨_, h2⟩ := cleanup_loop_calls bs _ h
  cases h2

theorem cleanup_loop_no_g_free (bs : List wayland_buffer) :
    PoolCall.g_free_pool ∉ (wayland_buffer_cleanup_loop bs).2.1 := by
  intro h
  obtain ⟨_, h2⟩ := cleanup_loop_calls bs _ h
  cases h2

/-- The pool `wayland_buffer_cleanup` leaves behind. -/
theorem cleanup_pool (w : wayland_stuff) (p : wayland_buffer_pool) :
    (wayland_buffer_cleanup w p).1 =
      { p with buffers :=
          if p.to_free = true then p.buffers.map fun b => (wayland_buffer_cleanup_buffer b).1
          else p.buffers } := by
  unfold wayland_buffer_cleanup
  rcases p with ⟨d, sz, wd, ht, tf, bs⟩
  cases tf
  · simp
  · simp only [Bool.not_true, Bool.false_eq_true, if_false, if_true]
    split <;> simp [cleanup_loop_fst]

/-- The calls `wayland_buffer_cleanup` makes on a pool of `buffer_count` buffers. -/
theorem cleanup_calls (w : wayland_stuff) (p : wayland_buffer_pool)
    (hlen : p.buffers.length = w.buffer_count) :
    (munmap_called (wayland_buffer_cleanup w p).2 = true ↔
        p.to_free = true ∧ ∀ b ∈ (wayland_buffer_cleanup w p).1.buffers, b.buffer = none) ∧
    (PoolCall.g_free_pool ∈ (wayland_buffer_cleanup w p).2 ↔
        munmap_called (wayland_buffer_cleanup w p).2 = true) ∧
    (∀ a l, PoolCall.munmap a l ∈ (wayland_buffer_cleanup w p).2 →
      a = p.data ∧ l = p.size) := by
  have hle := cleanup_loop_count_le p.buffers
  have heq := cleanup_loop_count_eq p.buffers
  have hnm := cleanup_loop_no_munmap p.buffers
  have hng := cleanup_loop_no_g_free p.buffers
  have hcalls := cleanup_loop_calls p.buffers
  unfold wayland_buffer_cleanup
  cases hf : p.to_free
  · simp [munmap_called]
  · simp only [Bool.not_true, Bool.false_eq_true, if_false]
    split
    · rename_i hlt
      have hne : ¬ (wayland_buffer_cleanup_loop p.buffers).2.2 = p.buffers.length := by omega
      rw [heq] at hne
      refine ⟨?_, ?_, ?_⟩
      · simp only [hnm, Bool.false_eq_true, true_and, false_iff]
        exact hne
      · simp [hnm, hng]
      · intro a l h
        obtain ⟨_, h2⟩ := hcalls _ h
        cases h2
    · rename_i hlt
      have he : (wayland_buffer_cleanup_loop p.buffers).2.2 = p.buffers.length := by omega
      rw [heq] at he
      refine ⟨?_, ?_, ?_⟩
      · simp only [munmap_called_append, true_and]
        simp [munmap_called, he]
        exact he
      · simp [munmap_called_append, munmap_called]
      · intro a l h
        rw [List.mem_append] at h
        rcases h with h | h
        · obtain ⟨_, h2⟩ := hcalls _ h
          cases h2
        · simp at h
          exact ⟨h.1, h.2⟩

/-- What a successful `display_buffer_pool_new` returned. -/
theorem new_some (w : wayland_stuff) (env : shm_env) (width height : Int)
    (pool : wayland_buffer_pool) (calls : List PoolCall)
    (hnew : display_buffer_pool_new w env width height = (some pool, calls)) :
    ∃ data : Nat,
      let stride := env.cairo_format_stride_for_width (width * w.scale)
      let size := to_size_t (stride * (height * w.scale))
      let pool_size := (size * w.buffer_count) % 2 ^ 64
      0 ≤ stride ∧ 0 ≤ env.g_open ∧ 0 ≤ env.fcntl ∧ 0 ≤ env.ftruncate pool_size ∧
      env.mmap pool_size = some data ∧
      pool =
        { data := 0, size := 0, width := width * w.scale, height := height * w.scale,
          to_free := false,
          buffers := (List.range w.buffer_count).map fun i =>
            { buffer := some (env.wl_shm_pool_create_buffer i),
              data := data + (size * i) % 2 ^ 64, released := true } } ∧
      calls =
        [PoolCall.mmap pool_size data, PoolCall.wl_shm_create_pool (to_int32 pool_size)] ++
          (List.range w.buffer_count).map fun i =>
            PoolCall.wl_shm_pool_create_buffer (to_int32 ((size * i) % 2 ^ 64))
              (width * w.scale) (height * w.scale) stride (env.wl_shm_pool_create_buffer i) := by
  unfold display_buffer_pool_new at hnew
  simp only at hnew
  split at hnew
  · simp at hnew
  · rename_i h1
    split at hnew
    · simp at hnew
    · rename_i h2
      split at hnew
      · simp at hnew
      · rename_i h3
        split at hnew
        · simp at hnew
        · rename_i h4
          split at hnew
          · simp at hnew
          · rename_i data hm
            refine ⟨data, ?_⟩
            simp only [Prod.mk.injEq, Option.some.injEq] at hnew
            refine ⟨by omega, by omega, by omega, by omega, hm, hnew.1.symm, hnew.2.symm⟩

theorem new_inv (w : wayland_stuff) (env : shm_env) (width height : Int)
    (pool : wayland_buffer_pool) (calls : List PoolCall)
    (hnew : display_buffer_pool_new w env width height = (some pool, calls)) :
    pool_inv w ⟨pool, calls⟩ ∧ pool.to_free = false ∧
      (∀ b ∈ pool.buffers, b.buffer ≠ none ∧ b.released = true) ∧
      munmap_called calls = false := by
  obtain ⟨data, -, -, -, -, -, hp, hc⟩ := new_some w env width height pool calls hnew
  have hnm : munmap_called calls = false := by
    subst hc
    simp [munmap_called]
  have hnf : PoolCall.g_free_pool ∉ calls := by
    subst hc
    simp
  refine ⟨⟨?_, ?_, ?_, ?_, ?_, ?_⟩, ?_, ?_, hnm⟩
  · subst hp; simp
  · subst hp; rfl
  · subst hp; rfl
  · simp [pool_state.freed, hnm, hnf]
  · simp [hnm]
  · intro a l h
    have := (munmap_called_iff calls).2 ⟨a, l, h⟩
    simp [hnm] at this
  · subst hp; rfl
  · subst hp
    intro b hb
    simp only [List.mem_map, List.mem_range] at hb
    obtain ⟨i, -, rfl⟩ := hb
    simp

theorem map_buffer_set (bs : List wayland_buffer) (i : Nat) (b : wayland_buffer)
    (h : bs[i]? = some b) (r : Bool) :
    (bs.set i { b with released := r }).map (fun x => x.buffer) = bs.map fun x => x.buffer := by
  induction bs generalizing i with
  | nil => simp
  | cons x xs ih =>
    cases i with
    | zero =>
      simp at h
      subst h
      simp
    | succ i =>
      simp at h
      simp [ih i h]

/-- The function `display_surface_commit` touches no protocol object of a buffer and unmaps
nothing. -/
theorem commit_frame (w : wayland_stuff) (p : wayland_buffer_pool)
    (surface : Option cairo_surface_t) :
    (display_surface_commit w p surface).1.buffers.length = p.buffers.length ∧
    (display_surface_commit w p surface).1.data = p.data ∧
    (display_surface_commit w p surface).1.size = p.size ∧
    (display_surface_commit w p surface).1.to_free = p.to_free ∧
    (display_surface_commit w p surface).1.buffers.map (fun x => x.buffer) =
      p.buffers.map (fun x => x.buffer) ∧
    munmap_called (display_surface_commit w p surface).2 = false ∧
    PoolCall.g_free_pool ∉ (display_surface_commit w p surface).2 := by
  unfold display_surface_commit
  split
  · split
    · simp [munmap_called]
    · rename_i b hb
      simp [munmap_called, map_buffer_set _ _ _ hb]
  · simp [munmap_called]

theorem mem_of_map_buffer_eq {bs cs : List wayland_buffer}
    (h : bs.map (fun x => x.buffer) = cs.map fun x => x.buffer)
    (hall : ∀ b ∈ cs, b.buffer = none) : ∀ b ∈ bs, b.buffer = none := by
  intro b hb
  have : b.buffer ∈ bs.map fun x => x.buffer := List.mem_map_of_mem _ hb
  rw [h, List.mem_map] at this
  obtain ⟨c, hc, hcb⟩ := this
  rw [← hcb]
  exact hall c hc

theorem cleanup_step_inv (w : wayland_stuff) (s : pool_state) (p : wayland_buffer_pool)
    (hnf : s.freed = false)
    (hinv : pool_inv w s) (hlen : p.buffers.length = s.pool.buffers.length)
    (hd : p.data = s.pool.data) (hs : p.size = s.pool.size) :
    pool_inv w ⟨(wayland_buffer_cleanup w p).1, s.calls ++ (wayland_buffer_cleanup w p).2⟩ := by
  obtain ⟨h1, h2, h3, h4, h5, h6⟩ := hinv
  have hlen2 : p.buffers.length = w.buffer_count := by omega
  obtain ⟨c1, c2, c3⟩ := cleanup_calls w p hlen2
  have hm : munmap_called s.calls = false := by rw [← h4]; exact hnf
  have hg : PoolCall.g_free_pool ∉ s.calls := by
    simpa [pool_state.freed] using hnf
  have hp := cleanup_pool w p
  refine ⟨?_, ?_, ?_, ?_, ?_, ?_⟩
  · rw [hp]
    simp only
    split <;> simp [hlen2]
  · rw [hp]; simp [hd, h2]
  · rw [hp]; simp [hs, h3]
  · simp only [pool_state.freed, munmap_called_append, hm, Bool.false_or, List.mem_append, hg,
      false_or]
    by_cases hc : munmap_called (wayland_buffer_cleanup w p).2 = true
    · simp [hc, c2.2 hc]
    · have : PoolCall.g_free_pool ∉ (wayland_buffer_cleanup w p).2 := fun h => hc (c2.1 h)
      simp [hc, this]
  · simp only [munmap_called_append, hm, Bool.false_or]
    intro hc
    have := c1.1 hc
    refine ⟨?_, this.2⟩
    rw [hp]
    exact this.1
  · intro a l h
    rw [List.mem_append] at h
    rcases h with h | h
    · exact h6 a l h
    · have := c3 a l h
      omega

theorem pool_step_inv (w : wayland_stuff) (s : pool_state) (e : pool_event)
    (hinv : pool_inv w s) : pool_inv w (pool_step w s e) := by
  unfold pool_step
  cases hf : s.freed
  · simp only [Bool.false_eq_true, if_false]
    cases e with
    | get_next_buffer => exact hinv
    | surface_commit surface =>
      obtain ⟨h1, h2, h3, h4, h5, h6⟩ := hinv
      obtain ⟨f1, f2, f3, f4, f5, f6, f7⟩ := commit_frame w s.pool surface
      have hm : munmap_called s.calls = false := by rw [← h4]; exact hf
      have hg : PoolCall.g_free_pool ∉ s.calls := by
        simpa [pool_state.freed] using hf
      refine ⟨by simp only; omega, by simp only; omega, by simp only; omega, ?_, ?_, ?_⟩
      · simp [pool_state.freed, munmap_called_append, hm, f6, hg, f7]
      · simp [munmap_called_append, hm, f6]
      · intro a l h
        simp only [List.mem_append] at h
        rcases h with h | h
        · exact h6 a l h
        · have := (munmap_called_iff _).2 ⟨a, l, h⟩
          simp [f6] at this
    | buffer_release buffer =>
      exact cleanup_step_inv w s _ hf hinv (by simp) rfl rfl
    | pool_free =>
      exact cleanup_step_inv w s _ hf hinv rfl rfl rfl
  · simpa using hinv

theorem pool_run_inv (w : wayland_stuff) (s : pool_state) (es : List pool_event)
    (hinv : pool_inv w s) : pool_inv w (pool_run w s es) := by
  induction es generalizing s with
  | nil => exact hinv
  | cons e es ih => exact ih _ (pool_step_inv w s e hinv)

theorem release_buffer_handle (buffer : Nat) (b : wayland_buffer) :
    (wayland_buffer_release_buffer buffer b).buffer = b.buffer ∧
      (wayland_buffer_release_buffer buffer b).data = b.data := by
  unfold wayland_buffer_release_buffer
  split <;> simp

/-- With `to_free` clear a release notification only marks buffers: nothing is destroyed,
nothing unmapped. -/
theorem release_not_to_free (w : wayland_stuff) (p : wayland_buffer_pool) (buffer : Nat)
    (h : p.to_free = false) :
    wayland_buffer_release w p buffer =
      ({ p with buffers := p.buffers.map (wayland_buffer_release_buffer buffer) }, []) := by
  simp [wayland_buffer_release, wayland_buffer_cleanup, h]

theorem release_not_to_free_handles (w : wayland_stuff) (p : wayland_buffer_pool) (buffer : Nat)
    (h : p.to_free = false) :
    (wayland_buffer_release w p buffer).1.buffers.map (fun b => b.buffer) =
      p.buffers.map fun b => b.buffer := by
  rw [release_not_to_free w p buffer h]
  simp only [List.map_map]
  apply List.map_congr_left
  intro b _
  exact (release_buffer_handle buffer b).1

/-- A protocol object is destroyed by `wayland_buffer_cleanup` only for a released buffer. -/
theorem cleanup_destroys_released (w : wayland_stuff) (p : wayland_buffer_pool) (i : Nat)
    (b c : wayland_buffer) (hb : p.buffers[i]? = some b)
    (hc : (wayland_buffer_cleanup w p).1.buffers[i]? = some c) :
    c.released = b.released ∧ c.data = b.data ∧
      (c.buffer = b.buffer ∨ (c.buffer = none ∧ b.released = true ∧ p.to_free = true)) := by
  rw [cleanup_pool] at hc
  simp only at hc
  split at hc
  · rename_i hf
    rw [List.getElem?_map, hb] at hc
    simp only [Option.map_some', Option.some.injEq] at hc
    subst hc
    rw [cleanup_buffer_fst]
    split
    · rename_i hr
      simp [hr, hf]
    · simp
  · rw [hb] at hc
    simp only [Option.some.injEq] at hc
    subst hc
    simp

theorem step_destroys_released (w : wayland_stuff) (s : pool_state) (e : pool_event) (i : Nat)
    (b c : wayland_buffer) (hb : s.pool.buffers[i]? = some b)
    (hc : (pool_step w s e).pool.buffers[i]? = some c)
    (hlive : b.buffer ≠ none) (hdead : c.buffer = none) :
    c.released = true ∧ (pool_step w s e).pool.to_free = true := by
  unfold pool_step at hc ⊢
  cases hf : s.freed
  · simp only [hf, Bool.false_eq_true, if_false] at hc ⊢
    cases e with
    | get_next_buffer =>
      simp only at hc
      rw [hb] at hc
      simp only [Option.some.injEq] at hc
      subst hc
      exact absurd hdead hlive
    | surface_commit surface =>
      simp only at hc
      have h5 := (commit_frame w s.pool surface).2.2.2.2.1
      have := congrArg (fun l => l[i]?) h5
      simp only [List.getElem?_map, hb, hc, Option.map_some', Option.some.injEq] at this
      rw [this] at hdead
      exact absurd hdead hlive
    | buffer_release buffer =>
      simp only at hc ⊢
      unfold wayland_buffer_release at hc ⊢
      have hm : (s.pool.buffers.map (wayland_buffer_release_buffer buffer))[i]? =
          some (wayland_buffer_release_buffer buffer b) := by
        simp [List.getElem?_map, hb]
      obtain ⟨h1, -, h3⟩ := cleanup_destroys_released w _ i _ c hm hc
      rcases h3 with h3 | ⟨-, h3, h4⟩
      · rw [hdead, (release_buffer_handle buffer b).1] at h3
        exact absurd h3.symm hlive
      · rw [cleanup_pool]
        exact ⟨h1.trans h3, h4⟩
    | pool_free =>
      simp only at hc ⊢
      unfold display_buffer_pool_free at hc ⊢
      have hm : ({ s.pool with to_free := true } : wayland_buffer_pool).buffers[i]? = some b := hb
      obtain ⟨h1, -, h3⟩ := cleanup_destroys_released w _ i _ c hm hc
      rcases h3 with h3 | ⟨-, h3, h4⟩
      · rw [hdead] at h3
        exact absurd h3.symm hlive
      · rw [cleanup_pool]
        exact ⟨h1.trans h3, h4⟩
  · simp only [hf, if_true] at hc ⊢
    rw [hb] at hc
    simp only [Option.some.injEq] at hc
    subst hc
    exact absurd hdead hlive

theorem cleanup_release_buffer_iff (buffer : Nat) (b : wayland_buffer)
    (h : b.buffer = none ↔ b.released = true) :
    (wayland_buffer_cleanup_buffer (wayland_buffer_release_buffer buffer b)).1.buffer = none ↔
      (wayland_buffer_cleanup_buffer (wayland_buffer_release_buffer buffer b)).1.released =
        true := by
  rw [cleanup_buffer_fst]
  unfold wayland_buffer_release_buffer
  rcases b with ⟨_ | x, d, _ | _⟩ <;> simp at h ⊢
  split <;> simp

theorem cleanup_buffer_iff (b : wayland_buffer) (h : b.buffer ≠ none) :
    (wayland_buffer_cleanup_buffer b).1.buffer = none ↔
      (wayland_buffer_cleanup_buffer b).1.released = true := by
  rw [cleanup_buffer_fst]
  rcases b with ⟨_ | x, d, _ | _⟩ <;> simp at h ⊢

theorem free_inv_of_cleanup (w : wayland_stuff) (s : pool_state) (p : wayland_buffer_pool)
    (hnf : s.freed = false) (hnm : munmap_called s.calls = false)
    (hlen : p.buffers.length = w.buffer_count) (htf : p.to_free = true)
    (hiff : ∀ b ∈ p.buffers, (wayland_buffer_cleanup_buffer b).1.buffer = none ↔
      (wayland_buffer_cleanup_buffer b).1.released = true) :
    free_inv w ⟨(wayland_buffer_cleanup w p).1, s.calls ++ (wayland_buffer_cleanup w p).2⟩ := by
  obtain ⟨c1, c2, -⟩ := cleanup_calls w p hlen
  have hp := cleanup_pool w p
  have hg : PoolCall.g_free_pool ∉ s.calls := by
    simpa [pool_state.freed] using hnf
  have hbufs : (wayland_buffer_cleanup w p).1.buffers =
      p.buffers.map fun b => (wayland_buffer_cleanup_buffer b).1 := by
    rw [hp]; simp [htf]
  have hiff2 : ∀ b ∈ (wayland_buffer_cleanup w p).1.buffers,
      b.buffer = none ↔ b.released = true := by
    intro b hb
    rw [hbufs, List.mem_map] at hb
    obtain ⟨a, ha, rfl⟩ := hb
    exact hiff a ha
  refine ⟨?_, ?_, hiff2, ?_, ?_⟩
  · rw [hbufs]; simp [hlen]
  · rw [hp]; exact htf
  · simp only [pool_state.freed, munmap_called_append, hnm, Bool.false_or, List.mem_append, hg,
      false_or]
    by_cases hc : munmap_called (wayland_buffer_cleanup w p).2 = true
    · simp [hc, c2.2 hc]
    · have : PoolCall.g_free_pool ∉ (wayland_buffer_cleanup w p).2 := fun h => hc (c2.1 h)
      simp [hc, this]
  · simp only [munmap_called_append, hnm, Bool.false_or]
    rw [c1]
    simp only [htf, true_and]
    constructor
    · intro h b hb
      exact (hiff2 b hb).1 (h b hb)
    · intro h b hb
      exact (hiff2 b hb).2 (h b hb)

theorem free_inv_step (w : wayland_stuff) (s : pool_state) (buffer : Nat)
    (hinv : free_inv w s) : free_inv w (pool_step w s (pool_event.buffer_release buffer)) := by
  unfold pool_step
  cases hf : s.freed
  · simp only [Bool.false_eq_true, if_false]
    obtain ⟨h1, h2, h3, h4, h5⟩ := hinv
    have hm : munmap_called s.calls = false := by rw [← h4]; exact hf
    unfold wayland_buffer_release
    apply free_inv_of_cleanup w s _ hf hm
    · simp [h1]
    · exact h2
    · intro b hb
      simp only [List.mem_map] at hb
      obtain ⟨a, ha, rfl⟩ := hb
      exact cleanup_release_buffer_iff buffer a (h3 a ha)
  · simpa using hinv

theorem free_inv_run (w : wayland_stuff) (s : pool_state) (es : List pool_event)
    (hes : ∀ e ∈ es, is_buffer_release e = true)
    (hinv : free_inv w s) : free_inv w (pool_run w s es) := by
  induction es generalizing s with
  | nil => exact hinv
  | cons e es ih =>
    have he := hes e (List.mem_cons_self _ _)
    cases e <;> simp [is_buffer_release] at he
    exact ih _ (fun e h => hes e (List.mem_cons_of_mem _ h)) (free_inv_step w s _ hinv)

/-- After `display_buffer_pool_free` on a pool whose buffers all have their protocol
object, and any release notifications, `munmap` has been called if and only if every
buffer is released. -/
theorem free_then_releases_munmap_iff (w : wayland_stuff) (p : wayland_buffer_pool)
    (calls : List PoolCall) (es : List pool_event)
    (hlen : p.buffers.length = w.buffer_count)
    (hlive : ∀ b ∈ p.buffers, b.buffer ≠ none)
    (hnm : munmap_called calls = false) (hnf : PoolCall.g_free_pool ∉ calls)
    (hes : ∀ e ∈ es, is_buffer_release e = true) :
    munmap_called (pool_run w ⟨p, calls⟩ (pool_event.pool_free :: es)).calls = true ↔
      ∀ b ∈ (pool_run w ⟨p, calls⟩ (pool_event.pool_free :: es)).pool.buffers,
        b.released = true := by
  have h0 : free_inv w (pool_step w ⟨p, calls⟩ pool_event.pool_free) := by
    have hf : (⟨p, calls⟩ : pool_state).freed = false := by
      simp [pool_state.freed, hnf]
    unfold pool_step
    simp only [hf, Bool.false_eq_true, if_false]
    unfold display_buffer_pool_free
    exact free_inv_of_cleanup w ⟨p, calls⟩ _ hf hnm hlen rfl
      (fun b hb => cleanup_buffer_iff b (hlive b hb))
  exact (free_inv_run w _ es hes h0).2.2.2.2

theorem scan_none (bs : List wayland_buffer) (i : Nat) :
    get_next_buffer_scan bs i = none ↔ ∀ b ∈ bs, b.released = false := by
  induction bs generalizing i with
  | nil => simp [get_next_buffer_scan]
  | cons b bs ih =>
    simp only [get_next_buffer_scan, List.mem_cons, forall_eq_or_imp]
    cases hb : b.released
    · simp [ih]
    · simp

theorem scan_some (bs : List wayland_buffer) (i j : Nat)
    (h : get_next_buffer_scan bs i = some j) :
    ∃ k b, j = i + k ∧ bs[k]? = some b ∧ b.released = true ∧
      ∀ m, m < k → ∀ c, bs[m]? = some c → c.released = false := by
  induction bs generalizing i with
  | nil => simp [get_next_buffer_scan] at h
  | cons b bs ih =>
    simp only [get_next_buffer_scan] at h
    cases hb : b.released
    · simp only [hb, Bool.false_eq_true, if_false] at h
      obtain ⟨k, b', hj, hk, hr, hmin⟩ := ih (i + 1) h
      refine ⟨k + 1, b', by omega, by simpa using hk, hr, ?_⟩
      intro m hm c hc
      cases m with
      | zero =>
        simp at hc
        subst hc
        exact hb
      | succ m =>
        simp at hc
        exact hmin m (by omega) c hc
    · simp only [hb, if_true, Option.some.injEq] at h
      exact ⟨0, b, by omega, by simp, hb, by intro m hm; omega⟩

/-- C3: `display_buffer_pool_get_next_buffer` returns `NULL` exactly when no buffer of the
pool is released, and otherwise a drawable over the released buffer of smallest index:
the drawable carries that buffer as user data, uses its slice and the pool's pixel size,
and every buffer before it is not released. -/
theorem get_next_buffer_first_released (env : shm_env) (pool : wayland_buffer_pool) :
    (display_buffer_pool_get_next_buffer env pool = none ↔
        ∀ b ∈ pool.buffers, b.released = false) ∧
    ∀ s, display_buffer_pool_get_next_buffer env pool = some s →
      ∃ b, pool.buffers[s.user_data]? = some b ∧ b.released = true ∧
        s.data = b.data ∧ s.width = pool.width ∧ s.height = pool.height ∧
        s.stride = env.cairo_format_stride_for_width pool.width ∧
        ∀ k, k < s.user_data → ∀ c, pool.buffers[k]? = some c → c.released = false := by
  constructor
  · unfold display_buffer_pool_get_next_buffer
    cases hs : get_next_buffer_scan pool.buffers 0 with
    | none => simpa using (scan_none _ _).1 hs
    | some j =>
      obtain ⟨k, b, hj, hk, hr, -⟩ := scan_some _ _ _ hs
      have hjk : j = k := by omega
      subst hjk
      simp only [hk]
      constructor
      · intro h
        cases h
      · intro hall
        have := hall b (List.getElem?_mem hk)
        simp [hr] at this
  · intro s hs
    unfold display_buffer_pool_get_next_buffer at hs
    cases hsc : get_next_buffer_scan pool.buffers 0 with
    | none => simp [hsc] at hs
    | some j =>
      obtain ⟨k, b, hj, hk, hr, hmin⟩ := scan_some _ _ _ hsc
      have hjk : j = k := by omega
      subst hjk
      simp only [hsc, hk, Option.some.injEq] at hs
      subst hs
      exact ⟨b, hk, hr, rfl, rfl, rfl, rfl, hmin⟩

/-- C6: with a surface, `display_surface_commit` on a drawable of buffer `b` clears `b.released`,
keeps `b`'s protocol object and slice, leaves every other buffer and all other fields of the
pool as they were, and makes exactly these requests: damage of the whole pool area, attach of
`b`'s protocol object, the buffer scale, and one `wl_surface_commit`. Without a drawable or
without a surface it changes nothing and requests nothing. -/
theorem surface_commit_effect (w : wayland_stuff) (pool : wayland_buffer_pool) :
    (∀ (s : cairo_surface_t) (wl_surface : Nat) (b : wayland_buffer),
      w.surface = some wl_surface → pool.buffers[s.user_data]? = some b →
        (display_surface_commit w pool (some s)).1.buffers[s.user_data]? =
            some { b with released := false } ∧
        (∀ j, j ≠ s.user_data →
          (display_surface_commit w pool (some s)).1.buffers[j]? = pool.buffers[j]?) ∧
        (display_surface_commit w pool (some s)).1.buffers.length = pool.buffers.length ∧
        (display_surface_commit w pool (some s)).1.to_free = pool.to_free ∧
        (display_surface_commit w pool (some s)).1.width = pool.width ∧
        (display_surface_commit w pool (some s)).1.height = pool.height ∧
        (display_surface_commit w pool (some s)).2 =
          [PoolCall.cairo_surface_destroy,
           PoolCall.wl_surface_damage wl_surface 0 0 pool.width pool.height,
           PoolCall.wl_surface_attach wl_surface b.buffer 0 0,
           PoolCall.wl_surface_set_buffer_scale wl_surface w.scale,
           PoolCall.wl_surface_commit wl_surface] ∧
        ((display_surface_commit w pool (some s)).2.filter fun c =>
          match c with
          | PoolCall.wl_surface_commit _ => true
          | _ => false).length = 1) ∧
    display_surface_commit w pool none = (pool, []) ∧
    (∀ surface, w.surface = none → display_surface_commit w pool surface = (pool, [])) := by
  refine ⟨?_, ?_, ?_⟩
  · intro s wl_surface b hw hb
    have hlt : s.user_data < pool.buffers.length := by
      rcases Nat.lt_or_ge s.user_data pool.buffers.length with h | h
      · exact h
      · rw [List.getElem?_eq_none h] at hb
        cases hb
    simp only [display_surface_commit, hw, hb]
    refine ⟨?_, ?_, ?_, ?_⟩
    · simp [List.getElem?_set, hlt]
    · intro j hj
      simp [List.getElem?_set, Ne.symm hj]
    · simp
    · simp
  · cases hw : w.surface <;> simp [display_surface_commit]
  · intro surface hw
    cases surface <;> simp [display_surface_commit, hw]

/-- C2: in every state reached from a pool made by `display_buffer_pool_new` through
acquire, present, release notifications and free: `munmap` has been called (so, a fortiori,
the backing region unmapped) only if `to_free` is set and every buffer's protocol object is
`NULL`; a step that takes a buffer's protocol object from live to `NULL` leaves that
buffer's `released` flag set and happens only with `to_free` set; and while `to_free` is
clear a release notification makes no call at all (no destroy, no unmap) and leaves every
protocol object in place. -/
theorem pool_unmap_destroy_discipline (w : wayland_stuff) (env : shm_env) (width height : Int)
    (pool : wayland_buffer_pool) (calls : List PoolCall)
    (hnew : display_buffer_pool_new w env width height = (some pool, calls))
    (es : List pool_event) :
    (munmap_called (pool_run w ⟨pool, calls⟩ es).calls = true →
      (pool_run w ⟨pool, calls⟩ es).pool.to_free = true ∧
        ∀ b ∈ (pool_run w ⟨pool, calls⟩ es).pool.buffers, b.buffer = none) ∧
    (∀ addr length, region_unmapped (pool_run w ⟨pool, calls⟩ es).calls addr length = true →
      (pool_run w ⟨pool, calls⟩ es).pool.to_free = true ∧
        ∀ b ∈ (pool_run w ⟨pool, calls⟩ es).pool.buffers, b.buffer = none) ∧
    (∀ (e : pool_event) (i : Nat) (b c : wayland_buffer),
      (pool_run w ⟨pool, calls⟩ es).pool.buffers[i]? = some b →
      (pool_step w (pool_run w ⟨pool, calls⟩ es) e).pool.buffers[i]? = some c →
      b.buffer ≠ none → c.buffer = none →
        c.released = true ∧
          (pool_step w (pool_run w ⟨pool, calls⟩ es) e).pool.to_free = true) ∧
    ((pool_run w ⟨pool, calls⟩ es).pool.to_free = false →
      ∀ buffer,
        (pool_step w (pool_run w ⟨pool, calls⟩ es) (pool_event.buffer_release buffer)).calls =
          (pool_run w ⟨pool, calls⟩ es).calls ∧
        (pool_step w (pool_run w ⟨pool, calls⟩ es)
            (pool_event.buffer_release buffer)).pool.buffers.map (fun b => b.buffer) =
          (pool_run w ⟨pool, calls⟩ es).pool.buffers.map fun b => b.buffer) := by
  have hinv := pool_run_inv w ⟨pool, calls⟩ es (new_inv w env width height pool calls hnew).1
  obtain ⟨h1, h2, h3, h4, h5, h6⟩ := hinv
  refine ⟨h5, ?_, ?_, ?_⟩
  · intro addr length h
    exact h5 (region_unmapped_munmap_called _ _ _ h)
  · intro e i b c hb hc hl hd
    exact step_destroys_released w _ e i b c hb hc hl hd
  · intro htf buffer
    have hm : munmap_called (pool_run w ⟨pool, calls⟩ es).calls = false := by
      rw [Bool.eq_false_iff]
      intro h
      have := (h5 h).1
      rw [htf] at this
      cases this
    have hf : (pool_run w ⟨pool, calls⟩ es).freed = false := by rw [h4]; exact hm
    unfold pool_step
    simp only [hf, Bool.false_eq_true, if_false]
    constructor
    · rw [release_not_to_free w _ buffer htf]
      simp
    · exact release_not_to_free_handles w _ buffer htf

/-- Every `munmap` call made on behalf of a pool created by `display_buffer_pool_new` is
`munmap(NULL, 0)`: the pool's `data` and `size` are never assigned. No region of positive
length is ever unmapped. -/
theorem pool_munmap_null (w : wayland_stuff) (env : shm_env) (width height : Int)
    (pool : wayland_buffer_pool) (calls : List PoolCall)
    (hnew : display_buffer_pool_new w env width height = (some pool, calls))
    (es : List pool_event) :
    (∀ a l, PoolCall.munmap a l ∈ (pool_run w ⟨pool, calls⟩ es).calls →
      a = 0 ∧ l = 0) ∧
    ∀ addr length,
      region_unmapped (pool_run w ⟨pool, calls⟩ es).calls addr length = false := by
  have hinv := pool_run_inv w ⟨pool, calls⟩ es (new_inv w env width height pool calls hnew).1
  obtain ⟨h1, h2, h3, h4, h5, h6⟩ := hinv
  refine ⟨h6, ?_⟩
  intro addr length
  rw [Bool.eq_false_iff]
  intro h
  unfold region_unmapped at h
  rw [List.any_eq_true] at h
  obtain ⟨c, hc, h⟩ := h
  cases c <;> simp at h
  have := h6 _ _ hc
  omega

/-- C1 (where the code departs from the claim): the pool of the end-to-end scenario maps
96000 bytes at address 4096; all three buffers are released, so `display_buffer_pool_free`
destroys the three protocol objects and reaches its `munmap` call at once, but the call is
`munmap(NULL, 0)` and the mapped region is not unmapped. -/
theorem free_released_pool_leaves_region_mapped :
    ∃ pool calls,
      display_buffer_pool_new example_wayland example_env 100 20 = (some pool, calls) ∧
      PoolCall.mmap 96000 4096 ∈ calls ∧
      (∀ b ∈ pool.buffers, b.released = true) ∧
      (display_buffer_pool_free example_wayland pool).2 =
        [PoolCall.wl_buffer_destroy 10, PoolCall.wl_buffer_destroy 11,
         PoolCall.wl_buffer_destroy 12, PoolCall.munmap 0 0, PoolCall.g_free_pool] ∧
      region_unmapped (calls ++ (display_buffer_pool_free example_wayland pool).2) 4096 96000 =
        false := by
  refine ⟨_, _, rfl, by decide, by decide, by decide, by decide⟩

theorem to_int32_of_lt (n : Nat) (hn : n < 2 ^ 31) : to_int32 n = (n : Int) := by
  unfold to_int32
  omega

/-- The end-to-end scenario on any pool of three released buffers with distinct protocol
objects. -/
theorem three_buffers_scenario (w : wayland_stuff) (env : shm_env) (pool : wayland_buffer_pool)
    (wl_surface h0 h1 h2 a0 a1 a2 : Nat)
    (hsurf : w.surface = some wl_surface)
    (hfree : pool.to_free = false)
    (h01 : h0 ≠ h1) (h02 : h0 ≠ h2) (h12 : h1 ≠ h2)
    (hb : pool.buffers =
      [{ buffer := some h0, data := a0, released := true },
       { buffer := some h1, data := a1, released := true },
       { buffer := some h2, data := a2, released := true }]) :
    ∃ d1 d2 d3 : cairo_surface_t,
      display_buffer_pool_get_next_buffer env pool = some d1 ∧
      display_buffer_pool_get_next_buffer env (display_surface_commit w pool (some d1)).1 =
        some d2 ∧
      display_buffer_pool_get_next_buffer env
        (display_surface_commit w (display_surface_commit w pool (some d1)).1 (some d2)).1 =
        some d3 ∧
      d1.user_data = 0 ∧ d2.user_data = 1 ∧ d3.user_data = 2 ∧
      display_buffer_pool_get_next_buffer env
        (display_surface_commit w
          (display_surface_commit w (display_surface_commit w pool (some d1)).1 (some d2)).1
          (some d3)).1 = none ∧
      ∀ h, (h = h0 ∨ h = h1 ∨ h = h2) → ∃ d,
        display_buffer_pool_get_next_buffer env
          (wayland_buffer_release w
            (display_surface_commit w
              (display_surface_commit w (display_surface_commit w pool (some d1)).1 (some d2)).1
              (some d3)).1 h).1 = some d ∧
        (h = h0 → d.user_data = 0) ∧ (h = h1 → d.user_data = 1) ∧
        (h = h2 → d.user_data = 2) := by
  rcases pool with ⟨pd, ps, pw, ph, tf, bs⟩
  simp only at hb hfree
  subst hb hfree
  refine ⟨⟨a0, pw, ph, env.cairo_format_stride_for_width pw, 0⟩,
    ⟨a1, pw, ph, env.cairo_format_stride_for_width pw, 1⟩,
    ⟨a2, pw, ph, env.cairo_format_stride_for_width pw, 2⟩, ?_, ?_, ?_, rfl, rfl, rfl, ?_, ?_⟩
  · simp [display_buffer_pool_get_next_buffer, get_next_buffer_scan]
  · simp [display_surface_commit, hsurf, display_buffer_pool_get_next_buffer,
      get_next_buffer_scan]
  · simp [display_surface_commit, hsurf, display_buffer_pool_get_next_buffer,
      get_next_buffer_scan]
  · simp [display_surface_commit, hsurf, display_buffer_pool_get_next_buffer,
      get_next_buffer_scan]
  · intro h hh
    rcases hh with rfl | rfl | rfl
    · simp [display_surface_commit, hsurf, display_buffer_pool_get_next_buffer,
        get_next_buffer_scan, wayland_buffer_release, wayland_buffer_release_buffer,
        wayland_buffer_cleanup, h01, h02, h12, h01.symm, h02.symm, h12.symm]
    · simp [display_surface_commit, hsurf, display_buffer_pool_get_next_buffer,
        get_next_buffer_scan, wayland_buffer_release, wayland_buffer_release_buffer,
        wayland_buffer_cleanup, h01, h02, h12, h01.symm, h02.symm, h12.symm]
    · simp [display_surface_commit, hsurf, display_buffer_pool_get_next_buffer,
        get_next_buffer_scan, wayland_buffer_release, wayland_buffer_release_buffer,
        wayland_buffer_cleanup, h01, h02, h12, h01.symm, h02.symm, h12.symm]

/-- C4: a pool requested as 100x20 at scale 2 with three buffers has pixel size 200x40;
acquiring and presenting works three times in a row and takes buffers 0, 1 and 2; a fourth
acquire returns `NULL`; after the release notification for the protocol object of any one
of the three buffers, acquire succeeds again and returns that buffer. -/
theorem pool_scenario (w : wayland_stuff) (env : shm_env) (pool : wayland_buffer_pool)
    (calls : List PoolCall) (wl_surface : Nat)
    (hcount : w.buffer_count = 3) (hscale : w.scale = 2) (hsurf : w.surface = some wl_surface)
    (hinj : Function.Injective env.wl_shm_pool_create_buffer)
    (hnew : display_buffer_pool_new w env 100 20 = (some pool, calls)) :
    pool.width = 200 ∧ pool.height = 40 ∧ pool.buffers.length = 3 ∧
    ∃ d1 d2 d3 : cairo_surface_t,
      display_buffer_pool_get_next_buffer env pool = some d1 ∧
      display_buffer_pool_get_next_buffer env (display_surface_commit w pool (some d1)).1 =
        some d2 ∧
      display_buffer_pool_get_next_buffer env
        (display_surface_commit w (display_surface_commit w pool (some d1)).1 (some d2)).1 =
        some d3 ∧
      d1.user_data = 0 ∧ d2.user_data = 1 ∧ d3.user_data = 2 ∧
      display_buffer_pool_get_next_buffer env
        (display_surface_commit w
          (display_surface_commit w (display_surface_commit w pool (some d1)).1 (some d2)).1
          (some d3)).1 = none ∧
      ∀ j, j < 3 → ∃ d,
        display_buffer_pool_get_next_buffer env
          (wayland_buffer_release w
            (display_surface_commit w
              (display_surface_commit w (display_surface_commit w pool (some d1)).1 (some d2)).1
              (some d3)).1 (env.wl_shm_pool_create_buffer j)).1 = some d ∧
        d.user_data = j := by
  obtain ⟨data, -, -, -, -, -, hp, -⟩ := new_some w env 100 20 pool calls hnew
  simp only [hcount, hscale] at hp
  have h01 : env.wl_shm_pool_create_buffer 0 ≠ env.wl_shm_pool_create_buffer 1 :=
    fun h => by simpa using hinj h
  have h02 : env.wl_shm_pool_create_buffer 0 ≠ env.wl_shm_pool_create_buffer 2 :=
    fun h => by simpa using hinj h
  have h12 : env.wl_shm_pool_create_buffer 1 ≠ env.wl_shm_pool_create_buffer 2 :=
    fun h => by simpa using hinj h
  have hb : pool.buffers =
      [{ buffer := some (env.wl_shm_pool_create_buffer 0),
         data := data + to_size_t (env.cairo_format_stride_for_width (100 * 2) * (20 * 2)) * 0
           % 2 ^ 64, released := true },
       { buffer := some (env.wl_shm_pool_create_buffer 1),
         data := data + to_size_t (env.cairo_format_stride_for_width (100 * 2) * (20 * 2)) * 1
           % 2 ^ 64, released := true },
       { buffer := some (env.wl_shm_pool_create_buffer 2),
         data := data + to_size_t (env.cairo_format_stride_for_width (100 * 2) * (20 * 2)) * 2
           % 2 ^ 64, released := true }] := by
    rw [hp]
    rfl
  obtain ⟨d1, d2, d3, e1, e2, e3, u1, u2, u3, e4, e5⟩ :=
    three_buffers_scenario w env pool wl_surface _ _ _ _ _ _ hsurf (by rw [hp]) h01 h02 h12
      hb
  refine ⟨by rw [hp]; norm_num, by rw [hp]; norm_num, by rw [hb]; rfl,
    d1, d2, d3, e1, e2, e3, u1, u2, u3, e4, ?_⟩
  intro j hj
  have hj3 : j = 0 ∨ j = 1 ∨ j = 2 := by omega
  rcases hj3 with rfl | rfl | rfl
  · obtain ⟨d, hd, hd0, -, -⟩ := e5 _ (Or.inl rfl)
    exact ⟨d, hd, hd0 rfl⟩
  · obtain ⟨d, hd, -, hd1, -⟩ := e5 _ (Or.inr (Or.inl rfl))
    exact ⟨d, hd, hd1 rfl⟩
  · obtain ⟨d, hd, -, -, hd2⟩ := e5 _ (Or.inr (Or.inr rfl))
    exact ⟨d, hd, hd2 rfl⟩

/-- The end-to-end scenario in the example environment: the pool is created there, its
buffer proxies are distinct, and it has pixel size 200x40 and three buffers. -/
theorem pool_scenario_witness :
    display_buffer_pool_new example_wayland example_env 100 20 =
      (some example_pool, example_new_calls) ∧
    Function.Injective example_env.wl_shm_pool_create_buffer ∧
    example_pool.width = 200 ∧ example_pool.height = 40 ∧ example_pool.buffers.length = 3 :=
  have hinj : Function.Injective example_env.wl_shm_pool_create_buffer :=
    fun a b h => by simpa [example_env] using h
  have h := pool_scenario example_wayland example_env example_pool example_new_calls 1
    rfl rfl rfl hinj rfl
  ⟨rfl, hinj, h.1, h.2.1, h.2.2.1⟩

/-- The unmap discipline in the example environment, on a run that presents the first
buffer, frees the pool and then sees the release of that buffer: `munmap` has been called
and indeed `to_free` is set. -/
theorem pool_unmap_destroy_discipline_witness :
    display_buffer_pool_new example_wayland example_env 100 20 =
      (some example_pool, example_new_calls) ∧
    munmap_called (pool_run example_wayland ⟨example_pool, example_new_calls⟩
      [pool_event.surface_commit (display_buffer_pool_get_next_buffer example_env example_pool),
       pool_event.pool_free, pool_event.buffer_release 10]).calls = true ∧
    (pool_run example_wayland ⟨example_pool, example_new_calls⟩
      [pool_event.surface_commit (display_buffer_pool_get_next_buffer example_env example_pool),
       pool_event.pool_free, pool_event.buffer_release 10]).pool.to_free = true :=
  ⟨rfl, by decide,
   ((pool_unmap_destroy_discipline example_wayland example_env 100 20 example_pool
      example_new_calls rfl
      [pool_event.surface_commit (display_buffer_pool_get_next_buffer example_env example_pool),
       pool_event.pool_free, pool_event.buffer_release 10]).1 (by decide)).1⟩

/-- The example pool after its first buffer has been presented: the next buffer is
buffer 1, and it is released. -/
theorem get_next_buffer_first_released_witness :
    ∃ s, display_buffer_pool_get_next_buffer example_env
        (display_surface_commit example_wayland example_pool
          (display_buffer_pool_get_next_buffer example_env example_pool)).1 = some s ∧
      s.user_data = 1 ∧
      ∃ b, (display_surface_commit example_wayland example_pool
          (display_buffer_pool_get_next_buffer example_env example_pool)).1.buffers[s.user_data]? =
            some b ∧ b.released = true :=
  ⟨⟨36096, 200, 40, 800, 1⟩, by decide, rfl,
   by
    obtain ⟨b, h1, h2, -⟩ := (get_next_buffer_first_released example_env
      (display_surface_commit example_wayland example_pool
        (display_buffer_pool_get_next_buffer example_env example_pool)).1).2
        ⟨36096, 200, 40, 800, 1⟩ (by decide)
    exact ⟨b, h1, h2⟩⟩

/-- On the example pool, presenting the drawable of buffer 0 clears its `released` flag
and requests one commit. -/
theorem surface_commit_effect_witness :
    (display_surface_commit example_wayland example_pool
        (some ⟨4096, 200, 40, 800, 0⟩)).1.buffers[0]? = some ⟨some 10, 4096, false⟩ ∧
    (display_surface_commit example_wayland example_pool (some ⟨4096, 200, 40, 800, 0⟩)).2 =
      [PoolCall.cairo_surface_destroy, PoolCall.wl_surface_damage 1 0 0 200 40,
       PoolCall.wl_surface_attach 1 (some 10) 0 0, PoolCall.wl_surface_set_buffer_scale 1 2,
       PoolCall.wl_surface_commit 1] :=
  have h := (surface_commit_effect example_wayland example_pool).1 ⟨4096, 200, 40, 800, 0⟩ 1
    ⟨some 10, 4096, true⟩ rfl rfl
  ⟨h.1, h.2.2.2.2.2.2.1⟩

/-! ## Pointer input: properties -/

theorem send_events_scroll_pos (axis : NkBindingsScrollAxis) (v : Int) (h : 120 ≤ v) :
    send_events_scroll axis v =
      (v % 120, [InputCall.nk_bindings_seat_handle_scroll axis (v / 120)]) := by
  have hd : Int.tdiv v 120 = v / 120 := Int.tdiv_eq_ediv (by omega) (by omega)
  have hm : Int.tmod v 120 = v % 120 := Int.tmod_eq_emod (by omega) (by omega)
  have h1 : v.natAbs ≥ 120 := by omega
  have h2 : v > 0 := by omega
  unfold send_events_scroll
  rw [if_pos h1, if_pos h2, hd, hm]

theorem send_events_scroll_neg (axis : NkBindingsScrollAxis) (v : Int) (h : v ≤ -120) :
    send_events_scroll axis v =
      (-((-v) % 120), [InputCall.nk_bindings_seat_handle_scroll axis (-((-v) / 120))]) := by
  have hd : Int.tdiv v 120 = -((-v) / 120) := by
    have := Int.neg_tdiv (-v) 120
    rw [neg_neg] at this
    rw [this, Int.tdiv_eq_ediv (by omega) (by omega)]
  have hm : Int.tmod (-v) 120 = (-v) % 120 := Int.tmod_eq_emod (by omega) (by omega)
  have h1 : v.natAbs ≥ 120 := by omega
  have h2 : ¬ v > 0 := by omega
  unfold send_events_scroll
  rw [if_pos h1, if_neg h2, hd, hm]

theorem send_events_scroll_small (axis : NkBindingsScrollAxis) (v : Int) (h : v.natAbs < 120) :
    send_events_scroll axis v = (v, []) := by
  unfold send_events_scroll
  rw [if_neg (by omega)]

/-- The scroll block on one accumulator: one call with `v120 / 120` steps when the
magnitude reaches 120, none below; the retained value is smaller than 120 in magnitude,
has the sign of the accumulator or is zero, and nothing is lost. -/
theorem send_events_scroll_spec (axis : NkBindingsScrollAxis) (v : Int) :
    (send_events_scroll axis v).2 =
        (if v.natAbs ≥ 120 then
          [InputCall.nk_bindings_seat_handle_scroll axis (v.sign * ((v.natAbs / 120 : Nat) : Int))]
        else []) ∧
    (send_events_scroll axis v).1.natAbs < 120 ∧
    v = v.sign * ((v.natAbs / 120 : Nat) : Int) * 120 + (send_events_scroll axis v).1 ∧
    (0 < (send_events_scroll axis v).1 → 0 < v) ∧
    ((send_events_scroll axis v).1 < 0 → v < 0) := by
  by_cases h : v.natAbs ≥ 120
  · rw [if_pos h]
    by_cases hp : v > 0
    · have hs : v.sign = 1 := Int.sign_eq_one_of_pos hp
      have e1 : ((v.natAbs / 120 : Nat) : Int) = v / 120 := by omega
      rw [send_events_scroll_pos axis v (by omega), hs, e1]
      refine ⟨by simp, ?_, ?_, ?_, ?_⟩
      · simp only; omega
      · simp only; omega
      · intro _; exact hp
      · simp only; intro h2; omega
    · have hn : v < 0 := by omega
      have hs : v.sign = -1 := Int.sign_eq_neg_one_of_neg hn
      have e1 : ((v.natAbs / 120 : Nat) : Int) = (-v) / 120 := by omega
      rw [send_events_scroll_neg axis v (by omega), hs, e1]
      refine ⟨by simp, ?_, ?_, ?_, ?_⟩
      · simp only; omega
      · simp only; omega
      · simp only; intro h2; omega
      · intro _; exact hn
  · rw [if_neg h, send_events_scroll_small axis v (by omega)]
    refine ⟨rfl, by simp only; omega, ?_, fun h => h, fun h => h⟩
    have : v.natAbs / 120 = 0 := by omega
    simp [this]

theorem scroll_steps_append (axis : NkBindingsScrollAxis) (a b : List InputCall) :
    scroll_steps axis (a ++ b) = scroll_steps axis a ++ scroll_steps axis b := by
  induction a with
  | nil => rfl
  | cons c cs ih =>
    cases c with
    | nk_bindings_seat_handle_scroll a steps =>
      simp only [List.cons_append, scroll_steps]
      split <;> simp [ih]
    | rofi_view_handle_mouse_motion x y hs => simpa only [List.cons_append, scroll_steps] using ih
    | nk_bindings_seat_handle_button b st t =>
      simpa only [List.cons_append, scroll_steps] using ih
    | rofi_view_maybe_update => simpa only [List.cons_append, scroll_steps] using ih

theorem scroll_steps_motion (axis : NkBindingsScrollAxis) (hover_select : Bool)
    (self : wayland_seat) : scroll_steps axis (send_events_motion hover_select self).2 = [] := by
  unfold send_events_motion
  split <;> rfl

theorem scroll_steps_button (axis : NkBindingsScrollAxis) (self : wayland_seat) :
    scroll_steps axis (send_events_button self).2 = [] := by
  unfold send_events_button
  simp only
  split
  · split <;> rfl
  · rfl

theorem scroll_steps_other (axis other : NkBindingsScrollAxis) (h : other ≠ axis) (v : Int) :
    scroll_steps axis (send_events_scroll other v).2 = [] := by
  unfold send_events_scroll
  split
  · simp [scroll_steps, h]
  · rfl

theorem scroll_steps_same (axis : NkBindingsScrollAxis) (v : Int) :
    scroll_steps axis (send_events_scroll axis v).2 =
      if v.natAbs ≥ 120 then [v.sign * ((v.natAbs / 120 : Nat) : Int)] else [] := by
  rw [(send_events_scroll_spec axis v).1]
  split <;> simp [scroll_steps]

theorem add_continuous_zero (wheel : Int) : add_continuous wheel 0 = wheel := by
  unfold add_continuous
  simp only [mul_zero, add_zero]
  exact Int.mul_tdiv_cancel_left wheel (by decide)

/-- The blocks before the scroll blocks leave the wheel state of the seat alone. -/
theorem send_events_prefix (hover_select : Bool) (self : wayland_seat) :
    (send_events_button (send_events_motion hover_select self).1).1.wheel = self.wheel ∧
    (send_events_button (send_events_motion hover_select self).1).1.wheel_continuous =
      self.wheel_continuous ∧
    (send_events_button (send_events_motion hover_select self).1).1.axis_source =
      self.axis_source := by
  unfold send_events_button send_events_motion
  simp only
  split <;> split <;> simp

/-- The accumulator the scroll block of `axis` sees: the staged one, unless a finger or
continuous source contributes. -/
theorem send_events_continuous_axis (axis : NkBindingsScrollAxis) (self : wayland_seat)
    (hsrc : (self.axis_source ≠ WL_POINTER_AXIS_SOURCE_FINGER ∧
        self.axis_source ≠ WL_POINTER_AXIS_SOURCE_CONTINUOUS) ∨
      wheel_continuous_axis axis self = 0) :
    wheel_axis axis (send_events_continuous self) = wheel_axis axis self := by
  unfold send_events_continuous
  split
  · rename_i h
    rcases hsrc with hsrc | hsrc
    · exact absurd h (by omega)
    · cases axis <;> simp only [wheel_axis, wheel_continuous_axis] at hsrc ⊢ <;>
        rw [hsrc, add_continuous_zero]
  · rfl

theorem wheel_axis_congr (axis : NkBindingsScrollAxis) (a b : wayland_seat)
    (h : a.wheel = b.wheel) : wheel_axis axis a = wheel_axis axis b := by
  cases axis <;> simp [wheel_axis, h]

theorem wheel_continuous_axis_congr (axis : NkBindingsScrollAxis) (a b : wayland_seat)
    (h : a.wheel_continuous = b.wheel_continuous) :
    wheel_continuous_axis axis a = wheel_continuous_axis axis b := by
  cases axis <;> simp [wheel_continuous_axis, h]

/-- A frame handled with an active view, seen from one axis on which no continuous
contribution is staged: the scroll block of that axis runs on the staged accumulator. -/
theorem send_events_axis (axis : NkBindingsScrollAxis) (view : Nat) (hover_select : Bool)
    (self : wayland_seat)
    (hsrc : (self.axis_source ≠ WL_POINTER_AXIS_SOURCE_FINGER ∧
        self.axis_source ≠ WL_POINTER_AXIS_SOURCE_CONTINUOUS) ∨
      wheel_continuous_axis axis self = 0) :
    wheel_axis axis (wayland_pointer_send_events (some view) hover_select self).1 =
      (send_events_scroll axis (wheel_axis axis self)).1 ∧
    scroll_steps axis (wayland_pointer_send_events (some view) hover_select self).2 =
      scroll_steps axis (send_events_scroll axis (wheel_axis axis self)).2 ∧
    (wayland_pointer_send_events (some view) hover_select self).1.axis_source = 0 := by
  obtain ⟨p1, p2, p3⟩ := send_events_prefix hover_select self
  have hc : wheel_axis axis
      (send_events_continuous (send_events_button (send_events_motion hover_select self).1).1) =
      wheel_axis axis self := by
    rw [send_events_continuous_axis axis _ (by
      rw [p3, wheel_continuous_axis_congr axis _ self p2]; exact hsrc)]
    exact wheel_axis_congr axis _ _ p1
  unfold wayland_pointer_send_events
  simp only [scroll_steps_append, scroll_steps_motion, scroll_steps_button, List.nil_append]
  refine ⟨?_, ?_, by first | rfl | trivial⟩
  · cases axis
    · simp only [wheel_axis] at hc ⊢
      rw [hc]
    · simp only [wheel_axis] at hc ⊢
      rw [hc]
  · cases axis
    · simp only [wheel_axis] at hc ⊢
      rw [hc, scroll_steps_other NkBindingsScrollAxis.VERTICAL NkBindingsScrollAxis.HORIZONTAL
        (by decide)]
      simp [scroll_steps]
    · simp only [wheel_axis] at hc ⊢
      rw [hc, scroll_steps_other NkBindingsScrollAxis.HORIZONTAL NkBindingsScrollAxis.VERTICAL
        (by decide)]
      simp [scroll_steps]

/-- Nothing is lost by the scroll block: steps times 120 plus the retained value is the
accumulator. -/
theorem send_events_scroll_conserves (axis : NkBindingsScrollAxis) (v : Int) :
    (scroll_steps axis (send_events_scroll axis v).2).sum * 120 + (send_events_scroll axis v).1 =
      v := by
  obtain ⟨-, -, h3, -, -⟩ := send_events_scroll_spec axis v
  rw [scroll_steps_same]
  split
  · simp only [List.sum_cons, List.sum_nil, add_zero]
    exact h3.symm
  · rename_i h
    have h0 : v.natAbs / 120 = 0 := by omega
    rw [h0] at h3
    simp only [List.sum_nil, zero_mul, zero_add]
    simpa using h3.symm

theorem axis_discrete_spec (self : wayland_seat) (ax : Nat) (d : Int) :
    (wayland_pointer_axis_discrete self ax d).axis_source = self.axis_source ∧
    (wayland_pointer_axis_discrete self ax d).wheel_continuous = self.wheel_continuous ∧
    ∀ axis, wheel_axis axis (wayland_pointer_axis_discrete self ax d) =
      wheel_axis axis self + wheel_delta_axis axis (pointer_event.axis_discrete ax d) := by
  unfold wayland_pointer_axis_discrete
  simp only [WL_POINTER_AXIS_VERTICAL_SCROLL, WL_POINTER_AXIS_HORIZONTAL_SCROLL]
  split
  · rename_i h0
    refine ⟨rfl, rfl, fun axis => ?_⟩
    cases axis <;>
      simp [wheel_axis, wheel_delta_axis, wheel_delta, WL_POINTER_AXIS_VERTICAL_SCROLL,
        WL_POINTER_AXIS_HORIZONTAL_SCROLL, h0]
  · rename_i h0
    split
    · rename_i h1
      refine ⟨rfl, rfl, fun axis => ?_⟩
      cases axis <;>
        simp [wheel_axis, wheel_delta_axis, wheel_delta, WL_POINTER_AXIS_VERTICAL_SCROLL,
          WL_POINTER_AXIS_HORIZONTAL_SCROLL, h1]
    · rename_i h1
      refine ⟨rfl, rfl, fun axis => ?_⟩
      cases axis <;>
        simp [wheel_axis, wheel_delta_axis, wheel_delta, WL_POINTER_AXIS_VERTICAL_SCROLL,
          WL_POINTER_AXIS_HORIZONTAL_SCROLL, h0, h1]

theorem axis120_spec (self : wayland_seat) (ax : Nat) (d : Int) :
    (wayland_pointer_axis120 self ax d).axis_source = self.axis_source ∧
    (wayland_pointer_axis120 self ax d).wheel_continuous = self.wheel_continuous ∧
    ∀ axis, wheel_axis axis (wayland_pointer_axis120 self ax d) =
      wheel_axis axis self + wheel_delta_axis axis (pointer_event.axis_value120 ax d) := by
  unfold wayland_pointer_axis120
  simp only [WL_POINTER_AXIS_VERTICAL_SCROLL, WL_POINTER_AXIS_HORIZONTAL_SCROLL]
  split
  · rename_i h0
    refine ⟨rfl, rfl, fun axis => ?_⟩
    cases axis <;>
      simp [wheel_axis, wheel_delta_axis, wheel_delta, WL_POINTER_AXIS_VERTICAL_SCROLL,
        WL_POINTER_AXIS_HORIZONTAL_SCROLL, h0]
  · rename_i h0
    split
    · rename_i h1
      refine ⟨rfl, rfl, fun axis => ?_⟩
      cases axis <;>
        simp [wheel_axis, wheel_delta_axis, wheel_delta, WL_POINTER_AXIS_VERTICAL_SCROLL,
          WL_POINTER_AXIS_HORIZONTAL_SCROLL, h1]
    · rename_i h1
      refine ⟨rfl, rfl, fun axis => ?_⟩
      cases axis <;>
        simp [wheel_axis, wheel_delta_axis, wheel_delta, WL_POINTER_AXIS_VERTICAL_SCROLL,
          WL_POINTER_AXIS_HORIZONTAL_SCROLL, h0, h1]

/-- A discrete or value120 event only adds its delta to the wheel accumulators. -/
theorem wheel_event_step (hover_select : Bool) (s : pointer_state) (e : pointer_event)
    (he : is_wheel_event e = true) :
    (wayland_pointer_listener hover_select s e).calls = s.calls ∧
    (wayland_pointer_listener hover_select s e).wayland = s.wayland ∧
    (wayland_pointer_listener hover_select s e).self.axis_source = s.self.axis_source ∧
    (wayland_pointer_listener hover_select s e).self.wheel_continuous =
      s.self.wheel_continuous ∧
    ∀ axis, wheel_axis axis (wayland_pointer_listener hover_select s e).self =
      wheel_axis axis s.self + wheel_delta_axis axis e := by
  cases e with
  | axis_discrete ax d =>
    obtain ⟨h1, h2, h3⟩ := axis_discrete_spec s.self ax d
    exact ⟨rfl, rfl, h1, h2, h3⟩
  | axis_value120 ax d =>
    obtain ⟨h1, h2, h3⟩ := axis120_spec s.self ax d
    exact ⟨rfl, rfl, h1, h2, h3⟩
  | motion _ _ _ => simp [is_wheel_event] at he
  | button _ _ _ _ => simp [is_wheel_event] at he
  | axis _ _ _ => simp [is_wheel_event] at he
  | frame _ => simp [is_wheel_event] at he
  | axis_source _ => simp [is_wheel_event] at he
  | axis_stop _ _ => simp [is_wheel_event] at he

theorem wheel_sum_cons (axis : NkBindingsScrollAxis) (e : pointer_event)
    (es : List pointer_event) :
    wheel_sum axis (e :: es) = wheel_delta_axis axis e + wheel_sum axis es := by
  simp [wheel_sum]

theorem wheel_sum_append (axis : NkBindingsScrollAxis) (es fs : List pointer_event) :
    wheel_sum axis (es ++ fs) = wheel_sum axis es + wheel_sum axis fs := by
  simp [wheel_sum]

theorem pointer_run_append (hover_select : Bool) (s : pointer_state)
    (es fs : List pointer_event) :
    pointer_run hover_select s (es ++ fs) =
      pointer_run hover_select (pointer_run hover_select s es) fs := by
  simp [pointer_run]

theorem pointer_run_snoc (hover_select : Bool) (s : pointer_state)
    (es : List pointer_event) (e : pointer_event) :
    pointer_run hover_select s (es ++ [e]) =
      wayland_pointer_listener hover_select (pointer_run hover_select s es) e := by
  simp [pointer_run]

/-- A run of discrete and value120 events dispatches nothing and adds up the deltas. -/
theorem wheel_events_run (hover_select : Bool) (s : pointer_state) (es : List pointer_event)
    (hes : ∀ e ∈ es, is_wheel_event e = true) :
    (pointer_run hover_select s es).calls = s.calls ∧
    (pointer_run hover_select s es).self.axis_source = s.self.axis_source ∧
    (pointer_run hover_select s es).self.wheel_continuous = s.self.wheel_continuous ∧
    ∀ axis, wheel_axis axis (pointer_run hover_select s es).self =
      wheel_axis axis s.self + wheel_sum axis es := by
  induction es generalizing s with
  | nil => simp [pointer_run, wheel_sum]
  | cons e es ih =>
    obtain ⟨h1, -, h3, h4, h5⟩ :=
      wheel_event_step hover_select s e (hes e (List.mem_cons_self _ _))
    obtain ⟨i1, i3, i4, i5⟩ := ih (wayland_pointer_listener hover_select s e)
      (fun x hx => hes x (List.mem_cons_of_mem _ hx))
    refine ⟨?_, ?_, ?_, ?_⟩
    · simpa [pointer_run, h1] using i1
    · simpa [pointer_run, h3] using i3
    · simpa [pointer_run, h4] using i4
    · intro axis
      have := i5 axis
      rw [h5 axis] at this
      rw [wheel_sum_cons]
      simp only [pointer_run, List.foldl_cons] at this ⊢
      rw [this]
      ring

/-- C7 (amended): take a seat whose accumulator on `axis` is 0 and on which no continuous
delta is staged for the coming frame (the axis source is neither finger nor continuous,
or the staged continuous delta on `axis` is 0), and any sequence of discrete-step and
value120 events whose deltas on `axis` sum to `v`. The events dispatch nothing; the next
frame handled with an active view makes one scroll call on `axis` with
`sign v * floor(|v| / 120)` steps when `|v| ≥ 120` and none otherwise, and the retained
accumulator `r` satisfies `|r| < 120` and `v = steps * 120 + r`. -/
theorem wheel_frame_steps (hover_select : Bool) (w : wayland_stuff) (self : wayland_seat)
    (es : List pointer_event) (view : Nat) (axis : NkBindingsScrollAxis)
    (hes : ∀ e ∈ es, is_wheel_event e = true)
    (h0 : wheel_axis axis self = 0)
    (hsrc : (self.axis_source ≠ WL_POINTER_AXIS_SOURCE_FINGER ∧
        self.axis_source ≠ WL_POINTER_AXIS_SOURCE_CONTINUOUS) ∨
      wheel_continuous_axis axis self = 0) :
    (pointer_run hover_select ⟨w, self, []⟩ es).calls = [] ∧
    scroll_steps axis
        (pointer_run hover_select ⟨w, self, []⟩
          (es ++ [pointer_event.frame (some view)])).calls =
      (if (wheel_sum axis es).natAbs ≥ 120 then
        [(wheel_sum axis es).sign * (((wheel_sum axis es).natAbs / 120 : Nat) : Int)]
      else []) ∧
    (wheel_axis axis
      (pointer_run hover_select ⟨w, self, []⟩
        (es ++ [pointer_event.frame (some view)])).self).natAbs < 120 ∧
    wheel_sum axis es =
      (wheel_sum axis es).sign * (((wheel_sum axis es).natAbs / 120 : Nat) : Int) * 120 +
        wheel_axis axis
          (pointer_run hover_select ⟨w, self, []⟩
            (es ++ [pointer_event.frame (some view)])).self := by
  obtain ⟨r1, r2, r3, r4⟩ := wheel_events_run hover_select ⟨w, self, []⟩ es hes
  have hv : wheel_axis axis (pointer_run hover_select ⟨w, self, []⟩ es).self =
      wheel_sum axis es := by
    rw [r4 axis]
    simp only at h0 ⊢
    omega
  have hsrc2 : ((pointer_run hover_select ⟨w, self, []⟩ es).self.axis_source ≠
        WL_POINTER_AXIS_SOURCE_FINGER ∧
      (pointer_run hover_select ⟨w, self, []⟩ es).self.axis_source ≠
        WL_POINTER_AXIS_SOURCE_CONTINUOUS) ∨
      wheel_continuous_axis axis (pointer_run hover_select ⟨w, self, []⟩ es).self = 0 := by
    rw [r2, wheel_continuous_axis_congr axis _ self r3]
    exact hsrc
  obtain ⟨f1, f2, -⟩ := send_events_axis axis view hover_select _ hsrc2
  obtain ⟨-, s2, s3, -, -⟩ := send_events_scroll_spec axis (wheel_sum axis es)
  rw [hv] at f1 f2
  rw [pointer_run_snoc]
  simp only [wayland_pointer_listener]
  refine ⟨r1, ?_, ?_, ?_⟩
  · rw [r1, List.nil_append, f2, scroll_steps_same]
  · rw [f1]; exact s2
  · rw [f1]; exact s3

/-- C7 (the claim as stated fails): the seat `finger_seat` has a zero vertical accumulator,
and a single value120 event of 30 sums to `v = 30`, below 120; yet the next frame makes a
scroll call of one step, because the frame adds the staged finger delta (20 * 6.0 = 120)
to the accumulator first. -/
theorem wheel_frame_steps_fails_with_finger :
    wheel_axis NkBindingsScrollAxis.VERTICAL finger_seat = 0 ∧
    wheel_sum NkBindingsScrollAxis.VERTICAL
      [pointer_event.axis_value120 WL_POINTER_AXIS_VERTICAL_SCROLL 30] = 30 ∧
    scroll_steps NkBindingsScrollAxis.VERTICAL
      (pointer_run false ⟨example_wayland, finger_seat, []⟩
        [pointer_event.axis_value120 WL_POINTER_AXIS_VERTICAL_SCROLL 30,
         pointer_event.frame (some 0)]).calls = [1] ∧
    wheel_axis NkBindingsScrollAxis.VERTICAL
      (pointer_run false ⟨example_wayland, finger_seat, []⟩
        [pointer_event.axis_value120 WL_POINTER_AXIS_VERTICAL_SCROLL 30,
         pointer_event.frame (some 0)]).self = 30 := by
  refine ⟨by decide, by decide, by decide, by decide⟩

/-- On the idle seat, a value120 event of -100, a discrete step of -1 and a value120 event
of -30 sum to -250; the frame emits -2 steps and retains -10. -/
theorem wheel_frame_steps_witness :
    (∀ e ∈ [pointer_event.axis_value120 0 (-100), pointer_event.axis_discrete 0 (-1),
        pointer_event.axis_value120 0 (-30)], is_wheel_event e = true) ∧
    wheel_axis NkBindingsScrollAxis.VERTICAL idle_seat = 0 ∧
    scroll_steps NkBindingsScrollAxis.VERTICAL
        (pointer_run true ⟨example_wayland, idle_seat, []⟩
          ([pointer_event.axis_value120 0 (-100), pointer_event.axis_discrete 0 (-1),
            pointer_event.axis_value120 0 (-30)] ++ [pointer_event.frame (some 0)])).calls =
      [-2] ∧
    wheel_axis NkBindingsScrollAxis.VERTICAL
        (pointer_run true ⟨example_wayland, idle_seat, []⟩
          ([pointer_event.axis_value120 0 (-100), pointer_event.axis_discrete 0 (-1),
            pointer_event.axis_value120 0 (-30)] ++ [pointer_event.frame (some 0)])).self =
      -10 :=
  have h := wheel_frame_steps true example_wayland idle_seat
    [pointer_event.axis_value120 0 (-100), pointer_event.axis_discrete 0 (-1),
      pointer_event.axis_value120 0 (-30)] 0 NkBindingsScrollAxis.VERTICAL
    (by decide) (by decide) (Or.inl (by decide))
  ⟨by decide, by decide, h.2.1.trans (by decide), by decide⟩

/-- One frame handled with an active view on a seat without continuous source, seen from
one axis. -/
theorem active_frame_step (hover_select : Bool) (s : pointer_state) (view : Nat)
    (axis : NkBindingsScrollAxis)
    (hsrc : s.self.axis_source ≠ WL_POINTER_AXIS_SOURCE_FINGER ∧
      s.self.axis_source ≠ WL_POINTER_AXIS_SOURCE_CONTINUOUS) :
    (wayland_pointer_listener hover_select s (pointer_event.frame (some view))).self.axis_source
      = 0 ∧
    (scroll_steps axis
      (wayland_pointer_listener hover_select s (pointer_event.frame (some view))).calls).sum * 120
      + wheel_axis axis
        (wayland_pointer_listener hover_select s (pointer_event.frame (some view))).self =
      (scroll_steps axis s.calls).sum * 120 + wheel_axis axis s.self ∧
    (wheel_axis axis
      (wayland_pointer_listener hover_select s (pointer_event.frame (some view))).self).natAbs
      < 120 ∧
    (0 < wheel_axis axis
        (wayland_pointer_listener hover_select s (pointer_event.frame (some view))).self →
      0 < wheel_axis axis s.self) ∧
    (wheel_axis axis
        (wayland_pointer_listener hover_select s (pointer_event.frame (some view))).self < 0 →
      wheel_axis axis s.self < 0) := by
  obtain ⟨f1, f2, f3⟩ := send_events_axis axis view hover_select s.self (Or.inl hsrc)
  obtain ⟨-, s2, -, s4, s5⟩ := send_events_scroll_spec axis (wheel_axis axis s.self)
  have hc := send_events_scroll_conserves axis (wheel_axis axis s.self)
  simp only [wayland_pointer_listener]
  refine ⟨f3, ?_, ?_, ?_, ?_⟩
  · rw [scroll_steps_append, List.sum_append, f1, f2]
    linarith
  · rw [f1]; exact s2
  · rw [f1]; exact s4
  · rw [f1]; exact s5

/-- Conservation along a run of wheel events and frames handled with an active view. -/
theorem conservation_run (hover_select : Bool) (s : pointer_state) (es : List pointer_event)
    (hes : ∀ e ∈ es, is_wheel_or_active_frame e = true)
    (hsrc : s.self.axis_source ≠ WL_POINTER_AXIS_SOURCE_FINGER ∧
      s.self.axis_source ≠ WL_POINTER_AXIS_SOURCE_CONTINUOUS) :
    ((pointer_run hover_select s es).self.axis_source ≠ WL_POINTER_AXIS_SOURCE_FINGER ∧
      (pointer_run hover_select s es).self.axis_source ≠ WL_POINTER_AXIS_SOURCE_CONTINUOUS) ∧
    ∀ axis,
      (scroll_steps axis (pointer_run hover_select s es).calls).sum * 120 +
          wheel_axis axis (pointer_run hover_select s es).self =
        (scroll_steps axis s.calls).sum * 120 + wheel_axis axis s.self + wheel_sum axis es := by
  induction es generalizing s with
  | nil => simp [pointer_run, wheel_sum, hsrc]
  | cons e es ih =>
    have he := hes e (List.mem_cons_self _ _)
    have hrest : ∀ x ∈ es, is_wheel_or_active_frame x = true :=
      fun x hx => hes x (List.mem_cons_of_mem _ hx)
    have hrun : pointer_run hover_select s (e :: es) =
        pointer_run hover_select (wayland_pointer_listener hover_select s e) es := rfl
    rw [hrun]
    by_cases hw : is_wheel_event e = true
    · obtain ⟨h1, -, h3, -, h5⟩ := wheel_event_step hover_select s e hw
      obtain ⟨i1, i2⟩ := ih (wayland_pointer_listener hover_select s e) hrest
        (by rw [h3]; exact hsrc)
      refine ⟨i1, fun axis => ?_⟩
      rw [i2 axis, h1, h5 axis, wheel_sum_cons]
      ring
    · cases e with
      | frame state =>
        cases state with
        | none => simp [is_wheel_or_active_frame, is_wheel_event] at he
        | some view =>
          have hstep := fun axis => active_frame_step hover_select s view axis hsrc
          have h0 := (hstep NkBindingsScrollAxis.VERTICAL).1
          obtain ⟨i1, i2⟩ := ih (wayland_pointer_listener hover_select s
            (pointer_event.frame (some view))) hrest (by
              rw [h0]
              exact ⟨by decide, by decide⟩)
          refine ⟨i1, fun axis => ?_⟩
          rw [i2 axis, (hstep axis).2.1, wheel_sum_cons]
          simp [wheel_delta_axis, wheel_delta]
          cases axis <;> simp
      | motion _ _ _ => simp [is_wheel_or_active_frame, is_wheel_event] at he
      | button _ _ _ _ => simp [is_wheel_or_active_frame, is_wheel_event] at he
      | axis _ _ _ => simp [is_wheel_or_active_frame, is_wheel_event] at he
      | axis_source _ => simp [is_wheel_or_active_frame, is_wheel_event] at he
      | axis_stop _ _ => simp [is_wheel_or_active_frame, is_wheel_event] at he
      | axis_discrete _ _ => simp [is_wheel_event] at hw
      | axis_value120 _ _ => simp [is_wheel_event] at hw

/-- C8: start from zero wheel accumulators and a non-continuous axis source, and take any
interleaving `es` of discrete-step events, value120 events and frames handled with an active
view. On each axis, the deltas received so far equal 120 times the steps emitted so far
plus the accumulator; and after a frame handled next the accumulator `r` has `|r| < 120`,
is zero or has the sign of the accumulator before that frame, and the same conservation
law holds. -/
theorem scroll_conservation (hover_select : Bool) (w : wayland_stuff) (self : wayland_seat)
    (es : List pointer_event) (axis : NkBindingsScrollAxis)
    (hes : ∀ e ∈ es, is_wheel_or_active_frame e = true)
    (hzero : wheel_axis axis self = 0)
    (hsrc : self.axis_source ≠ WL_POINTER_AXIS_SOURCE_FINGER ∧
      self.axis_source ≠ WL_POINTER_AXIS_SOURCE_CONTINUOUS) :
    wheel_sum axis es =
      120 * (scroll_steps axis (pointer_run hover_select ⟨w, self, []⟩ es).calls).sum +
        wheel_axis axis (pointer_run hover_select ⟨w, self, []⟩ es).self ∧
    ∀ view : Nat,
      (wheel_axis axis (pointer_run hover_select ⟨w, self, []⟩
        (es ++ [pointer_event.frame (some view)])).self).natAbs < 120 ∧
      (0 < wheel_axis axis (pointer_run hover_select ⟨w, self, []⟩
          (es ++ [pointer_event.frame (some view)])).self →
        0 < wheel_axis axis (pointer_run hover_select ⟨w, self, []⟩ es).self) ∧
      (wheel_axis axis (pointer_run hover_select ⟨w, self, []⟩
          (es ++ [pointer_event.frame (some view)])).self < 0 →
        wheel_axis axis (pointer_run hover_select ⟨w, self, []⟩ es).self < 0) ∧
      wheel_sum axis es =
        120 * (scroll_steps axis (pointer_run hover_select ⟨w, self, []⟩
            (es ++ [pointer_event.frame (some view)])).calls).sum +
          wheel_axis axis (pointer_run hover_select ⟨w, self, []⟩
            (es ++ [pointer_event.frame (some view)])).self := by
  obtain ⟨c1, c2⟩ := conservation_run hover_select ⟨w, self, []⟩ es hes hsrc
  have hw0 : wheel_axis axis
      ({ wayland := w, self := self, calls := [] } : pointer_state).self = 0 := hzero
  have hmain := c2 axis
  simp only [scroll_steps, List.sum_nil, zero_mul, zero_add, hw0] at hmain
  refine ⟨by linarith, fun view => ?_⟩
  obtain ⟨-, a2, a3, a4, a5⟩ := active_frame_step hover_select
    (pointer_run hover_select ⟨w, self, []⟩ es) view axis c1
  rw [pointer_run_snoc]
  exact ⟨a3, a4, a5, by linarith⟩

/-- On the idle seat: -100, then a frame (nothing emitted, -100 retained), then -150 and a
frame: -2 steps emitted in all and -10 retained; -250 = 120 * (-2) + (-10). -/
theorem scroll_conservation_witness :
    (∀ e ∈ [pointer_event.axis_value120 0 (-100), pointer_event.frame (some 0),
        pointer_event.axis_value120 0 (-150), pointer_event.frame (some 0)],
      is_wheel_or_active_frame e = true) ∧
    scroll_steps NkBindingsScrollAxis.VERTICAL
      (pointer_run true ⟨example_wayland, idle_seat, []⟩
        [pointer_event.axis_value120 0 (-100), pointer_event.frame (some 0),
         pointer_event.axis_value120 0 (-150), pointer_event.frame (some 0)]).calls = [-2] ∧
    wheel_sum NkBindingsScrollAxis.VERTICAL
        [pointer_event.axis_value120 0 (-100), pointer_event.frame (some 0),
         pointer_event.axis_value120 0 (-150), pointer_event.frame (some 0)] =
      120 * (scroll_steps NkBindingsScrollAxis.VERTICAL
        (pointer_run true ⟨example_wayland, idle_seat, []⟩
          [pointer_event.axis_value120 0 (-100), pointer_event.frame (some 0),
           pointer_event.axis_value120 0 (-150), pointer_event.frame (some 0)]).calls).sum +
        wheel_axis NkBindingsScrollAxis.VERTICAL
          (pointer_run true ⟨example_wayland, idle_seat, []⟩
            [pointer_event.axis_value120 0 (-100), pointer_event.frame (some 0),
             pointer_event.axis_value120 0 (-150), pointer_event.frame (some 0)]).self :=
  ⟨by decide, by decide,
   (scroll_conservation true example_wayland idle_seat
      [pointer_event.axis_value120 0 (-100), pointer_event.frame (some 0),
       pointer_event.axis_value120 0 (-150), pointer_event.frame (some 0)]
      NkBindingsScrollAxis.VERTICAL (by decide) rfl ⟨by decide, by decide⟩).1⟩

/-- C9: a motion, button, axis, axis-source, axis-stop, axis-discrete or axis-value120
event dispatches nothing: the list of calls made to the view and the bindings is unchanged.
It leaves every field of the seat other than the staged pointer fields alone, except that a
button event records its serial; the context is unchanged except that a button event
records the seat as `last_seat`. Hence the calls change only in the handler of a frame
event. -/
theorem pointer_dispatch_only_on_frame (hover_select : Bool) (s : pointer_state)
    (e : pointer_event) :
    (is_frame e = false →
      (wayland_pointer_listener hover_select s e).calls = s.calls ∧
      seat_other_fields (wayland_pointer_listener hover_select s e).self =
        seat_other_fields s.self ∧
      (wayland_pointer_listener hover_select s e).self.serial =
        (match e with
          | pointer_event.button serial _ _ _ => serial
          | _ => s.self.serial) ∧
      (wayland_pointer_listener hover_select s e).wayland =
        (match e with
          | pointer_event.button _ _ _ _ => { s.wayland with last_seat := some s.self.seat }
          | _ => s.wayland)) ∧
    ((wayland_pointer_listener hover_select s e).calls ≠ s.calls → is_frame e = true) := by
  have key : is_frame e = false →
      (wayland_pointer_listener hover_select s e).calls = s.calls ∧
      seat_other_fields (wayland_pointer_listener hover_select s e).self =
        seat_other_fields s.self ∧
      (wayland_pointer_listener hover_select s e).self.serial =
        (match e with
          | pointer_event.button serial _ _ _ => serial
          | _ => s.self.serial) ∧
      (wayland_pointer_listener hover_select s e).wayland =
        (match e with
          | pointer_event.button _ _ _ _ => { s.wayland with last_seat := some s.self.seat }
          | _ => s.wayland) := by
    intro hf
    cases e with
    | frame state => simp [is_frame] at hf
    | motion time x y => exact ⟨rfl, rfl, rfl, rfl⟩
    | button serial time button state => exact ⟨rfl, rfl, rfl, rfl⟩
    | axis time axis value =>
      refine ⟨rfl, ?_, ?_, rfl⟩ <;>
        (simp only [wayland_pointer_listener, wayland_pointer_axis]
         split
         · rfl
         · split <;> rfl)
    | axis_source axis_source => exact ⟨rfl, rfl, rfl, rfl⟩
    | axis_stop time axis => exact ⟨rfl, rfl, rfl, rfl⟩
    | axis_discrete axis discrete =>
      refine ⟨rfl, ?_, ?_, rfl⟩ <;>
        (simp only [wayland_pointer_listener, wayland_pointer_axis_discrete]
         split
         · rfl
         · split <;> rfl)
    | axis_value120 axis value120 =>
      refine ⟨rfl, ?_, ?_, rfl⟩ <;>
        (simp only [wayland_pointer_listener, wayland_pointer_axis120]
         split
         · rfl
         · split <;> rfl)
  refine ⟨key, ?_⟩
  intro hne
  cases hf : is_frame e
  · exact absurd (key hf).1 hne
  · rfl

/-- On the idle seat, a button press dispatches nothing, records serial and last seat,
and the frame that follows does dispatch. -/
theorem pointer_dispatch_only_on_frame_witness :
    (wayland_pointer_listener false ⟨example_wayland, idle_seat, []⟩
      (pointer_event.button 31 101 BTN_LEFT WL_POINTER_BUTTON_STATE_PRESSED)).calls = [] ∧
    (wayland_pointer_listener false ⟨example_wayland, idle_seat, []⟩
      (pointer_event.button 31 101 BTN_LEFT WL_POINTER_BUTTON_STATE_PRESSED)).wayland.last_seat =
        some 7 ∧
    (pointer_run false ⟨example_wayland, idle_seat, []⟩
      [pointer_event.button 31 101 BTN_LEFT WL_POINTER_BUTTON_STATE_PRESSED,
       pointer_event.frame (some 0)]).calls ≠ [] :=
  have h := (pointer_dispatch_only_on_frame false ⟨example_wayland, idle_seat, []⟩
    (pointer_event.button 31 101 BTN_LEFT WL_POINTER_BUTTON_STATE_PRESSED)).1 rfl
  ⟨h.1, by rw [h.2.2.2]; rfl, by decide⟩

theorem motion_calls_append (a b : List InputCall) :
    motion_calls (a ++ b) = motion_calls a + motion_calls b := by
  induction a with
  | nil => simp [motion_calls]
  | cons c cs ih => cases c <;> simp [motion_calls, ih]; omega

theorem button_calls_append (a b : List InputCall) :
    button_calls (a ++ b) = button_calls a + button_calls b := by
  induction a with
  | nil => simp [button_calls]
  | cons c cs ih => cases c <;> simp [button_calls, ih]; omega

theorem scroll_block_no_motion_button (axis : NkBindingsScrollAxis) (v : Int) :
    motion_calls (send_events_scroll axis v).2 = 0 ∧
      button_calls (send_events_scroll axis v).2 = 0 := by
  unfold send_events_scroll
  split <;> simp [motion_calls, button_calls]

/-- C10 (amended): a frame handled while no view is active dispatches nothing and leaves
the seat as it is. A frame handled with an active view makes one mouse-motion call for the
staged motion, if one is staged, and one more for the position of a staged button press, so
at most two; it hands at most one button transition to the bindings; afterwards the staged
button is 0, and the staged motion is (-1, -1) if a motion was staged and is unchanged (both
coordinates at most -1) otherwise. -/
theorem frame_dispatch_bounds (state : Option Nat) (hover_select : Bool) (self : wayland_seat) :
    motion_calls (wayland_pointer_send_events state hover_select self).2 ≤ 2 ∧
    button_calls (wayland_pointer_send_events state hover_select self).2 ≤ 1 ∧
    (state = none → wayland_pointer_send_events state hover_select self = (self, [])) ∧
    (state ≠ none →
      motion_calls (wayland_pointer_send_events state hover_select self).2 =
        (if self.motion.x > -1 ∨ self.motion.y > -1 then 1 else 0) +
          (if self.button.button > 0 ∧ self.button.pressed = true then 1 else 0) ∧
      button_calls (wayland_pointer_send_events state hover_select self).2 =
        (if self.button.button > 0 then 1 else 0) ∧
      (wayland_pointer_send_events state hover_select self).1.button.button = 0 ∧
      ((self.motion.x > -1 ∨ self.motion.y > -1) →
        (wayland_pointer_send_events state hover_select self).1.motion.x = -1 ∧
        (wayland_pointer_send_events state hover_select self).1.motion.y = -1) ∧
      (¬ (self.motion.x > -1 ∨ self.motion.y > -1) →
        (wayland_pointer_send_events state hover_select self).1.motion = self.motion)) := by
  cases state with
  | none => simp [wayland_pointer_send_events, motion_calls, button_calls]
  | some view =>
    have hm : motion_calls (send_events_motion hover_select self).2 =
          (if self.motion.x > -1 ∨ self.motion.y > -1 then 1 else 0) ∧
        button_calls (send_events_motion hover_select self).2 = 0 ∧
        (send_events_motion hover_select self).1.button = self.button ∧
        ((self.motion.x > -1 ∨ self.motion.y > -1) →
          (send_events_motion hover_select self).1.motion.x = -1 ∧
          (send_events_motion hover_select self).1.motion.y = -1) ∧
        (¬ (self.motion.x > -1 ∨ self.motion.y > -1) →
          (send_events_motion hover_select self).1.motion = self.motion) := by
      unfold send_events_motion
      split
      · rename_i h
        simp [motion_calls, button_calls, h]
      · rename_i h
        simp [motion_calls, button_calls, h]
    have hb : ∀ t : wayland_seat,
        motion_calls (send_events_button t).2 =
          (if t.button.button > 0 ∧ t.button.pressed = true then 1 else 0) ∧
        button_calls (send_events_button t).2 = (if t.button.button > 0 then 1 else 0) ∧
        (send_events_button t).1.button.button = 0 ∧
        (send_events_button t).1.motion = t.motion := by
      intro t
      unfold send_events_button
      simp only
      split
      · rename_i h
        cases hp : t.button.pressed <;> simp [motion_calls, button_calls, h]
      · rename_i h
        have h0 : t.button.button = 0 := by omega
        simp [motion_calls, button_calls, h0]
    obtain ⟨m1, m2, m3, m4, m5⟩ := hm
    obtain ⟨b1, b2, b3, b4⟩ := hb (send_events_motion hover_select self).1
    rw [m3] at b1 b2
    have sv := fun v => scroll_block_no_motion_button NkBindingsScrollAxis.VERTICAL v
    have sh := fun v => scroll_block_no_motion_button NkBindingsScrollAxis.HORIZONTAL v
    have hmot : motion_calls (wayland_pointer_send_events (some view) hover_select self).2 =
        (if self.motion.x > -1 ∨ self.motion.y > -1 then 1 else 0) +
          (if self.button.button > 0 ∧ self.button.pressed = true then 1 else 0) := by
      simp only [wayland_pointer_send_events, motion_calls_append, m1, b1, (sv _).1, (sh _).1,
        motion_calls]
      omega
    have hbut : button_calls (wayland_pointer_send_events (some view) hover_select self).2 =
        (if self.button.button > 0 then 1 else 0) := by
      simp only [wayland_pointer_send_events, button_calls_append, m2, b2, (sv _).2, (sh _).2,
        button_calls]
      omega
    have hcont : ∀ t : wayland_seat, (send_events_continuous t).button = t.button ∧
        (send_events_continuous t).motion = t.motion := by
      intro t
      unfold send_events_continuous
      split <;> exact ⟨rfl, rfl⟩
    have hbtn :
        (wayland_pointer_send_events (some view) hover_select self).1.button.button = 0 := by
      simp only [wayland_pointer_send_events]
      rw [(hcont _).1]
      exact b3
    have hmo : (wayland_pointer_send_events (some view) hover_select self).1.motion =
        (send_events_motion hover_select self).1.motion := by
      simp only [wayland_pointer_send_events]
      rw [(hcont _).2]
      exact b4
    refine ⟨?_, ?_, ?_, ?_⟩
    · rw [hmot]
      split <;> split <;> omega
    · rw [hbut]
      split <;> omega
    · intro h
      cases h
    · intro _
      refine ⟨hmot, hbut, hbtn, ?_, ?_⟩
      · intro h
        rw [hmo]
        exact m4 h
      · intro h
        rw [hmo]
        exact m5 h

/-- C10 (the claim as stated fails): on a frame with a staged motion and a staged button
press the view receives two mouse-motion calls; on a frame handled while no view is active
the staged motion and button stay; and a staged motion at (-5, -5) is neither dispatched
nor replaced by (-1, -1). -/
theorem frame_dispatches_two_motions :
    motion_calls (wayland_pointer_send_events (some 0) true pressed_seat).2 = 2 ∧
    ((wayland_pointer_send_events none true pressed_seat).1.motion.x = 5 ∧
      (wayland_pointer_send_events none true pressed_seat).1.button.button = BTN_LEFT) ∧
    ((wayland_pointer_send_events (some 0) true outside_seat).1.motion.x = -5 ∧
      (wayland_pointer_send_events (some 0) true outside_seat).1.motion.y = -5) := by
  refine ⟨by decide, ⟨by decide, by decide⟩, ⟨by decide, by decide⟩⟩

/-- On the seat with a staged motion and button press: two motion calls,
one button transition, and both staged fields cleared. -/
theorem frame_dispatch_bounds_witness :
    motion_calls (wayland_pointer_send_events (some 0) true pressed_seat).2 = 2 ∧
    button_calls (wayland_pointer_send_events (some 0) true pressed_seat).2 = 1 ∧
    (wayland_pointer_send_events (some 0) true pressed_seat).1.button.button = 0 ∧
    (wayland_pointer_send_events (some 0) true pressed_seat).1.motion.x = -1 :=
  have h := (frame_dispatch_bounds (some 0) true pressed_seat).2.2.2 (by decide)
  ⟨h.1.trans (by decide), h.2.1.trans (by decide), h.2.2.1, (h.2.2.2.1 (by decide)).1⟩

/-! ## Outputs: properties -/

theorem output_run_append (self : wayland_output) (es fs : List output_event) :
    output_run self (es ++ fs) = output_run (output_run self es) fs := by
  simp [output_run]

/-- Every event but done leaves `current` alone. -/
theorem output_listener_current (self : wayland_output) (e : output_event)
    (he : is_done e = false) : (wayland_output_listener self e).current = self.current := by
  cases e with
  | done => simp [is_done] at he
  | geometry x y width height subpixel transform => rfl
  | mode flags width height refresh =>
    simp only [wayland_output_listener, wayland_output_mode]
    split <;> rfl
  | scale scale => rfl
  | name name => rfl
  | description name => rfl

theorem output_run_current (self : wayland_output) (es : List output_event)
    (hes : ∀ e ∈ es, is_done e = false) : (output_run self es).current = self.current := by
  induction es generalizing self with
  | nil => rfl
  | cons e es ih =>
    have h1 := output_listener_current self e (hes e (List.mem_cons_self _ _))
    have h2 := ih (wayland_output_listener self e) (fun x hx => hes x (List.mem_cons_of_mem _ hx))
    simp only [output_run, List.foldl_cons] at h2 ⊢
    rw [h2, h1]

/-- C15: geometry, mode and scale events change nothing of an output but its `pending`
geometry (a mode event without the CURRENT flag changes nothing at all), and no event but
done changes `current`; a done event makes `current` equal to `pending`, all eight fields
at once, and leaves everything else as it was. Hence after any sequence of events `current`
is the value `pending` had at the most recent done event, or the value from before the
sequence if it contains none, which for a newly bound output is scale 1 and 0 elsewhere. -/
theorem output_double_buffering (self : wayland_output) :
    (∀ x y width height subpixel transform,
      { wayland_output_geometry self x y width height subpixel transform with
          pending := self.pending } = self) ∧
    (∀ flags width height refresh,
      { wayland_output_mode self flags width height refresh with pending := self.pending } =
        self ∧
      (flags &&& WL_OUTPUT_MODE_CURRENT = 0 →
        wayland_output_mode self flags width height refresh = self)) ∧
    (∀ scale, { wayland_output_scale self scale with pending := self.pending } = self) ∧
    (∀ e, is_done e = false → (wayland_output_listener self e).current = self.current) ∧
    wayland_output_listener self output_event.done = { self with current := self.pending } ∧
    (∀ es, (∀ e ∈ es, is_done e = false) → (output_run self es).current = self.current) ∧
    (∀ pre post, (∀ e ∈ post, is_done e = false) →
      (output_run self (pre ++ output_event.done :: post)).current =
        (output_run self pre).pending) ∧
    (∀ name output, (new_output name output).current = initial_geometry ∧
      initial_geometry.scale = 1 ∧ initial_geometry.x = 0 ∧ initial_geometry.y = 0 ∧
      initial_geometry.width = 0 ∧ initial_geometry.height = 0 ∧
      initial_geometry.physical_width = 0 ∧ initial_geometry.physical_height = 0 ∧
      initial_geometry.transform = 0) := by
  refine ⟨?_, ?_, ?_, ?_, rfl, ?_, ?_, ?_⟩
  · intro x y width height subpixel transform
    rfl
  · intro flags width height refresh
    constructor
    · unfold wayland_output_mode
      split <;> rfl
    · intro h
      unfold wayland_output_mode
      rw [if_neg (by simp [h])]
  · intro scale
    rfl
  · exact fun e he => output_listener_current self e he
  · exact fun es hes => output_run_current self es hes
  · intro pre post hpost
    rw [output_run_append]
    have : output_run (output_run self pre) (output_event.done :: post) =
        output_run (wayland_output_done (output_run self pre)) post := rfl
    rw [this, output_run_current _ post hpost]
    rfl
  · intro name output
    exact ⟨rfl, rfl, rfl, rfl, rfl, rfl, rfl, rfl, rfl⟩

/-- A new output that receives a mode, a scale, done, and then another scale: `current`
has the size and scale from before the done event, not the later scale. -/
theorem output_double_buffering_witness :
    (output_run (new_output 5 40)
      [output_event.mode 1 1920 1080 60000, output_event.scale 2, output_event.done,
       output_event.scale 3]).current =
      { initial_geometry with width := 1920, height := 1080, scale := 2 } ∧
    (output_run (new_output 5 40)
      [output_event.mode 1 1920 1080 60000, output_event.scale 2, output_event.done,
       output_event.scale 3]).pending.scale = 3 :=
  ⟨((output_double_buffering (new_output 5 40)).2.2.2.2.2.2.1
      [output_event.mode 1 1920 1080 60000, output_event.scale 2] [output_event.scale 3]
      (by decide)).trans (by decide),
   by decide⟩

/-! ## Layer surface placement: properties -/

theorem testBit_lor_right (a b i : Nat) (h : b.testBit i = true) :
    (a ||| b).testBit i = true := by
  rw [Nat.testBit_lor, h, Bool.or_true]

theorem testBit_lor_left (a b i : Nat) (h : a.testBit i = true) :
    (a ||| b).testBit i = true := by
  rw [Nat.testBit_lor, h, Bool.true_or]

/-- The value of the `switch (loc)` for each of its nine labels, when these are pairwise
distinct, and for a code that is none of them. -/
theorem location_anchor_labels (c : WindowLocation) (hlabels : c.labels.Nodup) :
    location_anchor c c.WL_NORTH_WEST =
      ZWLR_LAYER_SURFACE_V1_ANCHOR_LEFT ||| ZWLR_LAYER_SURFACE_V1_ANCHOR_TOP ∧
    location_anchor c c.WL_NORTH = ZWLR_LAYER_SURFACE_V1_ANCHOR_TOP ∧
    location_anchor c c.WL_NORTH_EAST =
      ZWLR_LAYER_SURFACE_V1_ANCHOR_RIGHT ||| ZWLR_LAYER_SURFACE_V1_ANCHOR_TOP ∧
    location_anchor c c.WL_EAST = ZWLR_LAYER_SURFACE_V1_ANCHOR_RIGHT ∧
    location_anchor c c.WL_SOUTH_EAST =
      ZWLR_LAYER_SURFACE_V1_ANCHOR_RIGHT ||| ZWLR_LAYER_SURFACE_V1_ANCHOR_BOTTOM ∧
    location_anchor c c.WL_SOUTH = ZWLR_LAYER_SURFACE_V1_ANCHOR_BOTTOM ∧
    location_anchor c c.WL_SOUTH_WEST =
      ZWLR_LAYER_SURFACE_V1_ANCHOR_LEFT ||| ZWLR_LAYER_SURFACE_V1_ANCHOR_BOTTOM ∧
    location_anchor c c.WL_WEST = ZWLR_LAYER_SURFACE_V1_ANCHOR_LEFT ∧
    location_anchor c c.WL_CENTER = 0 ∧
    ∀ loc, loc ∉ c.labels → location_anchor c loc = 0 := by
  simp only [WindowLocation.labels, List.nodup_cons, List.mem_cons, List.mem_singleton,
    not_or, List.not_mem_nil, not_false_eq_true, List.nodup_nil, and_true] at hlabels
  obtain ⟨⟨a1, a2, a3, a4, a5, a6, a7, a8⟩, ⟨b2, b3, b4, b5, b6, b7, b8⟩,
    ⟨c3, c4, c5, c6, c7, c8⟩, ⟨d4, d5, d6, d7, d8⟩, ⟨e5, e6, e7, e8⟩, ⟨f6, f7, f8⟩,
    ⟨g7, g8⟩, h8⟩ := hlabels
  refine ⟨?_, ?_, ?_, ?_, ?_, ?_, ?_, ?_, ?_, ?_⟩
  · simp [location_anchor]
  · simp [location_anchor, Ne.symm a1]
  · simp [location_anchor, Ne.symm a2, Ne.symm b2]
  · simp [location_anchor, Ne.symm a3, Ne.symm b3, Ne.symm c3]
  · simp [location_anchor, Ne.symm a4, Ne.symm b4, Ne.symm c4, Ne.symm d4]
  · simp [location_anchor, Ne.symm a5, Ne.symm b5, Ne.symm c5, Ne.symm d5, Ne.symm e5]
  · simp [location_anchor, Ne.symm a6, Ne.symm b6, Ne.symm c6, Ne.symm d6, Ne.symm e6,
      Ne.symm f6]
  · simp [location_anchor, Ne.symm a7, Ne.symm b7, Ne.symm c7, Ne.symm d7, Ne.symm e7,
      Ne.symm f7, Ne.symm g7]
  · simp [location_anchor, Ne.symm a8, Ne.symm b8, Ne.symm c8, Ne.symm d8, Ne.symm e8,
      Ne.symm f8, Ne.symm g8, Ne.symm h8]
  · intro loc hloc
    simp only [WindowLocation.labels, List.mem_cons, List.mem_singleton, not_or,
      List.not_mem_nil, not_false_eq_true, and_true] at hloc
    obtain ⟨l1, l2, l3, l4, l5, l6, l7, l8, -⟩ := hloc
    simp [location_anchor, l1, l2, l3, l4, l5, l6, l7, l8]

/-- The anchor passed to `zwlr_layer_surface_v1_set_anchor` is the one call of that kind,
with the value of the `switch` or-ed with the two fills. -/
theorem requested_anchor_fill (c : WindowLocation) (w : wayland_stuff)
    (width height x_margin y_margin loc : Int) :
    requested_anchors (display_set_surface_dimensions c w width height x_margin y_margin loc).2 =
      [location_anchor c loc |||
        (if height = 0 then
          ZWLR_LAYER_SURFACE_V1_ANCHOR_TOP ||| ZWLR_LAYER_SURFACE_V1_ANCHOR_BOTTOM else 0) |||
        (if width = 0 then
          ZWLR_LAYER_SURFACE_V1_ANCHOR_LEFT ||| ZWLR_LAYER_SURFACE_V1_ANCHOR_RIGHT else 0)] := by
  simp only [display_set_surface_dimensions, requested_anchors, surface_anchor]
  by_cases hh : height = 0 <;> by_cases hw : width = 0 <;>
    simp [hh, hw, Nat.lor_comm ZWLR_LAYER_SURFACE_V1_ANCHOR_BOTTOM]

/-- C20: for every location code, recognised or not, and every width and height, the anchor
requested by `display_set_surface_dimensions` is the anchor of the location, or-ed with
TOP|BOTTOM when the height is 0 and with LEFT|RIGHT when the width is 0, and nothing else;
so a zero height always sets the top and bottom bits and a zero width the left and right
bits. The anchor of the location is, for pairwise distinct location codes: north-west
LEFT|TOP, north TOP, north-east RIGHT|TOP, east RIGHT, south-east RIGHT|BOTTOM, south
BOTTOM, south-west LEFT|BOTTOM, west LEFT, centre 0, and 0 for every other code. -/
theorem fill_anchors (c : WindowLocation) (w : wayland_stuff)
    (width height x_margin y_margin loc : Int) :
    requested_anchors (display_set_surface_dimensions c w width height x_margin y_margin loc).2 =
      [location_anchor c loc |||
        (if height = 0 then
          ZWLR_LAYER_SURFACE_V1_ANCHOR_TOP ||| ZWLR_LAYER_SURFACE_V1_ANCHOR_BOTTOM else 0) |||
        (if width = 0 then
          ZWLR_LAYER_SURFACE_V1_ANCHOR_LEFT ||| ZWLR_LAYER_SURFACE_V1_ANCHOR_RIGHT else 0)] ∧
    (height = 0 →
      (surface_anchor c width height loc).testBit 0 = true ∧
      (surface_anchor c width height loc).testBit 1 = true) ∧
    (width = 0 →
      (surface_anchor c width height loc).testBit 2 = true ∧
      (surface_anchor c width height loc).testBit 3 = true) ∧
    (c.labels.Nodup →
      (∀ base : Nat,
        (loc, base) ∈
          [(c.WL_NORTH_WEST,
              ZWLR_LAYER_SURFACE_V1_ANCHOR_LEFT ||| ZWLR_LAYER_SURFACE_V1_ANCHOR_TOP),
           (c.WL_NORTH, ZWLR_LAYER_SURFACE_V1_ANCHOR_TOP),
           (c.WL_NORTH_EAST,
              ZWLR_LAYER_SURFACE_V1_ANCHOR_RIGHT ||| ZWLR_LAYER_SURFACE_V1_ANCHOR_TOP),
           (c.WL_EAST, ZWLR_LAYER_SURFACE_V1_ANCHOR_RIGHT),
           (c.WL_SOUTH_EAST,
              ZWLR_LAYER_SURFACE_V1_ANCHOR_RIGHT ||| ZWLR_LAYER_SURFACE_V1_ANCHOR_BOTTOM),
           (c.WL_SOUTH, ZWLR_LAYER_SURFACE_V1_ANCHOR_BOTTOM),
           (c.WL_SOUTH_WEST,
              ZWLR_LAYER_SURFACE_V1_ANCHOR_LEFT ||| ZWLR_LAYER_SURFACE_V1_ANCHOR_BOTTOM),
           (c.WL_WEST, ZWLR_LAYER_SURFACE_V1_ANCHOR_LEFT),
           (c.WL_CENTER, 0)] →
        requested_anchors
            (display_set_surface_dimensions c w width height x_margin y_margin loc).2 =
          [base |||
            (if height = 0 then
              ZWLR_LAYER_SURFACE_V1_ANCHOR_TOP ||| ZWLR_LAYER_SURFACE_V1_ANCHOR_BOTTOM
             else 0) |||
            (if width = 0 then
              ZWLR_LAYER_SURFACE_V1_ANCHOR_LEFT ||| ZWLR_LAYER_SURFACE_V1_ANCHOR_RIGHT
             else 0)]) ∧
      (loc ∉ c.labels →
        requested_anchors
            (display_set_surface_dimensions c w width height x_margin y_margin loc).2 =
          [(if height = 0 then
              ZWLR_LAYER_SURFACE_V1_ANCHOR_TOP ||| ZWLR_LAYER_SURFACE_V1_ANCHOR_BOTTOM
            else 0) |||
            (if width = 0 then
              ZWLR_LAYER_SURFACE_V1_ANCHOR_LEFT ||| ZWLR_LAYER_SURFACE_V1_ANCHOR_RIGHT
             else 0)])) := by
  have hreq := requested_anchor_fill c w width height x_margin y_margin loc
  refine ⟨hreq, ?_, ?_, ?_⟩
  · intro hh
    have h0 : ∀ a : Nat, (a ||| (ZWLR_LAYER_SURFACE_V1_ANCHOR_BOTTOM |||
        ZWLR_LAYER_SURFACE_V1_ANCHOR_TOP)).testBit 0 = true :=
      fun a => testBit_lor_right a _ 0 (by decide)
    have h1 : ∀ a : Nat, (a ||| (ZWLR_LAYER_SURFACE_V1_ANCHOR_BOTTOM |||
        ZWLR_LAYER_SURFACE_V1_ANCHOR_TOP)).testBit 1 = true :=
      fun a => testBit_lor_right a _ 1 (by decide)
    simp only [surface_anchor, hh, if_true]
    split
    · exact ⟨testBit_lor_left _ _ 0 (h0 _), testBit_lor_left _ _ 1 (h1 _)⟩
    · exact ⟨h0 _, h1 _⟩
  · intro hw
    simp only [surface_anchor, hw, if_true]
    exact ⟨testBit_lor_right _ _ 2 (by decide), testBit_lor_right _ _ 3 (by decide)⟩
  · intro hlabels
    obtain ⟨t1, t2, t3, t4, t5, t6, t7, t8, t9, t10⟩ := location_anchor_labels c hlabels
    constructor
    · intro base hb
      rw [hreq]
      simp only [List.mem_cons, List.mem_singleton, Prod.mk.injEq, List.not_mem_nil,
        or_false] at hb
      rcases hb with h | h | h | h | h | h | h | h | h <;>
        (obtain ⟨h1, h2⟩ := h
         subst h1
         subst h2
         simp only [t1, t2, t3, t4, t5, t6, t7, t8, t9])
    · intro hloc
      rw [hreq, t10 loc hloc, Nat.zero_or]

/-- The anchor requested for a non-zero size is the anchor of the location. -/
theorem requested_anchor_nonzero (c : WindowLocation) (w : wayland_stuff)
    (width height x_margin y_margin loc : Int) (hw : width ≠ 0) (hh : height ≠ 0) :
    requested_anchors (display_set_surface_dimensions c w width height x_margin y_margin loc).2 =
      [location_anchor c loc] := by
  simp [display_set_surface_dimensions, requested_anchors, surface_anchor, hw, hh]

/-- C19: for a non-zero width and height, `display_set_surface_dimensions` requests these
anchors: north-west LEFT|TOP, north TOP, north-east RIGHT|TOP, east RIGHT, south-east
RIGHT|BOTTOM, south BOTTOM, south-west LEFT|BOTTOM, west LEFT, centre none. -/
theorem anchor_mapping (c : WindowLocation) (w : wayland_stuff)
    (width height x_margin y_margin : Int)
    (hlabels : c.labels.Nodup) (hw : width ≠ 0) (hh : height ≠ 0) :
    requested_anchors
        (display_set_surface_dimensions c w width height x_margin y_margin c.WL_NORTH_WEST).2 =
      [ZWLR_LAYER_SURFACE_V1_ANCHOR_LEFT ||| ZWLR_LAYER_SURFACE_V1_ANCHOR_TOP] ∧
    requested_anchors
        (display_set_surface_dimensions c w width height x_margin y_margin c.WL_NORTH).2 =
      [ZWLR_LAYER_SURFACE_V1_ANCHOR_TOP] ∧
    requested_anchors
        (display_set_surface_dimensions c w width height x_margin y_margin c.WL_NORTH_EAST).2 =
      [ZWLR_LAYER_SURFACE_V1_ANCHOR_RIGHT ||| ZWLR_LAYER_SURFACE_V1_ANCHOR_TOP] ∧
    requested_anchors
        (display_set_surface_dimensions c w width height x_margin y_margin c.WL_EAST).2 =
      [ZWLR_LAYER_SURFACE_V1_ANCHOR_RIGHT] ∧
    requested_anchors
        (display_set_surface_dimensions c w width height x_margin y_margin c.WL_SOUTH_EAST).2 =
      [ZWLR_LAYER_SURFACE_V1_ANCHOR_RIGHT ||| ZWLR_LAYER_SURFACE_V1_ANCHOR_BOTTOM] ∧
    requested_anchors
        (display_set_surface_dimensions c w width height x_margin y_margin c.WL_SOUTH).2 =
      [ZWLR_LAYER_SURFACE_V1_ANCHOR_BOTTOM] ∧
    requested_anchors
        (display_set_surface_dimensions c w width height x_margin y_margin c.WL_SOUTH_WEST).2 =
      [ZWLR_LAYER_SURFACE_V1_ANCHOR_LEFT ||| ZWLR_LAYER_SURFACE_V1_ANCHOR_BOTTOM] ∧
    requested_anchors
        (display_set_surface_dimensions c w width height x_margin y_margin c.WL_WEST).2 =
      [ZWLR_LAYER_SURFACE_V1_ANCHOR_LEFT] ∧
    requested_anchors
        (display_set_surface_dimensions c w width height x_margin y_margin c.WL_CENTER).2 =
      [0] := by
  simp only [requested_anchor_nonzero c w width height x_margin y_margin _ hw hh]
  simp only [WindowLocation.labels, List.nodup_cons, List.mem_cons, List.mem_singleton,
    not_or, List.not_mem_nil, not_false_eq_true, List.nodup_nil, and_true] at hlabels
  obtain ⟨⟨a1, a2, a3, a4, a5, a6, a7, a8⟩, ⟨b2, b3, b4, b5, b6, b7, b8⟩,
    ⟨c3, c4, c5, c6, c7, c8⟩, ⟨d4, d5, d6, d7, d8⟩, ⟨e5, e6, e7, e8⟩, ⟨f6, f7, f8⟩,
    ⟨g7, g8⟩, h8⟩ := hlabels
  refine ⟨?_, ?_, ?_, ?_, ?_, ?_, ?_, ?_, ?_⟩
  · simp [location_anchor]
  · simp [location_anchor, Ne.symm a1]
  · simp [location_anchor, Ne.symm a2, Ne.symm b2]
  · simp [location_anchor, Ne.symm a3, Ne.symm b3, Ne.symm c3]
  · simp [location_anchor, Ne.symm a4, Ne.symm b4, Ne.symm c4, Ne.symm d4]
  · simp [location_anchor, Ne.symm a5, Ne.symm b5, Ne.symm c5, Ne.symm d5, Ne.symm e5]
  · simp [location_anchor, Ne.symm a6, Ne.symm b6, Ne.symm c6, Ne.symm d6, Ne.symm e6,
      Ne.symm f6]
  · simp [location_anchor, Ne.symm a7, Ne.symm b7, Ne.symm c7, Ne.symm d7, Ne.symm e7,
      Ne.symm f7, Ne.symm g7]
  · simp [location_anchor, Ne.symm a8, Ne.symm b8, Ne.symm c8, Ne.symm d8, Ne.symm e8,
      Ne.symm f8, Ne.symm g8, Ne.symm h8]

/-- With rofi's location codes and a size of 800x30: north-west requests the anchor 5
(LEFT|TOP) and centre requests none. -/
theorem anchor_mapping_witness :
    rofi_locations.labels.Nodup ∧
    requested_anchors
        (display_set_surface_dimensions rofi_locations example_wayland 800 30 0 0 9).2 = [5] ∧
    requested_anchors
        (display_set_surface_dimensions rofi_locations example_wayland 800 30 0 0 0).2 = [0] :=
  have h := anchor_mapping rofi_locations example_wayland 800 30 0 0 (by decide) (by decide)
    (by decide)
  ⟨by decide, h.1, h.2.2.2.2.2.2.2.2⟩

/-- With rofi's location codes: a zero height at north-west requests LEFT|TOP|BOTTOM (7),
a zero width at east requests LEFT|RIGHT (12), the code 77, which is no location, requests
all four anchors (15) for a zero width and height and none (0) for 800x30. -/
theorem fill_anchors_witness :
    rofi_locations.labels.Nodup ∧
    requested_anchors
        (display_set_surface_dimensions rofi_locations example_wayland 800 0 0 0 9).2 = [7] ∧
    requested_anchors
        (display_set_surface_dimensions rofi_locations example_wayland 0 30 0 0 2).2 = [12] ∧
    requested_anchors
        (display_set_surface_dimensions rofi_locations example_wayland 0 0 0 0 77).2 = [15] ∧
    requested_anchors
        (display_set_surface_dimensions rofi_locations example_wayland 800 30 0 0 77).2 = [0] :=
  ⟨by decide,
   (((fill_anchors rofi_locations example_wayland 800 0 0 0 9).2.2.2 (by decide)).1
      (ZWLR_LAYER_SURFACE_V1_ANCHOR_LEFT ||| ZWLR_LAYER_SURFACE_V1_ANCHOR_TOP)
      (by decide)).trans (by decide),
   (((fill_anchors rofi_locations example_wayland 0 30 0 0 2).2.2.2 (by decide)).1
      ZWLR_LAYER_SURFACE_V1_ANCHOR_RIGHT (by decide)).trans (by decide),
   (((fill_anchors rofi_locations example_wayland 0 0 0 0 77).2.2.2 (by decide)).2
      (by decide)).trans (by decide),
   (((fill_anchors rofi_locations example_wayland 800 30 0 0 77).2.2.2 (by decide)).2
      (by decide)).trans (by decide)⟩

/-! ## Seat capabilities: properties -/

theorem repeat_source_destroy_frame (self : wayland_seat) :
    (repeat_source_destroy self).1.pointer = self.pointer ∧
    (repeat_source_destroy self).1.keyboard = self.keyboard ∧
    (repeat_source_destroy self).1.cursor_shape_device = self.cursor_shape_device ∧
    (repeat_source_destroy self).1.repeat_.key = self.repeat_.key ∧
    (repeat_source_destroy self).1.repeat_.source = none := by
  unfold repeat_source_destroy
  split
  · rename_i h
    exact ⟨rfl, rfl, rfl, rfl, h⟩
  · exact ⟨rfl, rfl, rfl, rfl, rfl⟩

theorem keyboard_release_frame (self : wayland_seat) :
    (wayland_keyboard_release self).1.pointer = self.pointer ∧
    (wayland_keyboard_release self).1.keyboard = none := by
  unfold wayland_keyboard_release
  split
  · rename_i h
    exact ⟨rfl, h⟩
  · refine ⟨?_, rfl⟩
    exact (repeat_source_destroy_frame _).1

/-- The data device statements of `wayland_seat_capabilities` leave keyboard and pointer
alone. -/
theorem seat_capabilities_devices_frame (ddm psdm : Option Nat) (env : seat_env)
    (self : wayland_seat) :
    (seat_capabilities_devices ddm psdm env self).1.pointer = self.pointer ∧
    (seat_capabilities_devices ddm psdm env self).1.keyboard = self.keyboard := by
  unfold seat_capabilities_devices
  cases ddm <;> cases psdm <;> exact ⟨rfl, rfl⟩

theorem pointer_release_spec (have_cursor_shape : Bool) (self : wayland_seat) (pointer : Nat)
    (h : self.pointer = some pointer) :
    (wayland_pointer_release have_cursor_shape self).1.pointer = none ∧
    (wayland_pointer_release have_cursor_shape self).1.keyboard = self.keyboard ∧
    SeatCall.wl_pointer_release pointer ∈ (wayland_pointer_release have_cursor_shape self).2 := by
  cases have_cursor_shape <;> cases hc : self.cursor_shape_device <;>
    simp [wayland_pointer_release, h, hc]

/-- What `wayland_seat_capabilities` does to the keyboard: the release branch tests the
POINTER bit, so the seat holds a keyboard afterwards exactly when it held none and KEYBOARD
is advertised, or it held one and POINTER is advertised. -/
theorem keyboard_capability_actual (have_cursor_shape : Bool) (ddm psdm : Option Nat)
    (env : seat_env) (self : wayland_seat) (capabilities : Nat) :
    (wayland_seat_capabilities have_cursor_shape ddm psdm env self capabilities).1.keyboard ≠
        none ↔
      (self.keyboard = none ∧ capabilities &&& WL_SEAT_CAPABILITY_KEYBOARD ≠ 0) ∨
      (self.keyboard ≠ none ∧ capabilities &&& WL_SEAT_CAPABILITY_POINTER ≠ 0) := by
  have hk : (wayland_seat_capabilities have_cursor_shape ddm psdm env self
      capabilities).1.keyboard = (seat_capabilities_keyboard env self capabilities).1.keyboard := by
    simp only [wayland_seat_capabilities]
    rw [(seat_capabilities_devices_frame ddm psdm env _).2]
    unfold seat_capabilities_pointer
    split
    · rfl
    · split
      · rename_i h
        cases hp : (seat_capabilities_keyboard env self capabilities).1.pointer with
        | none => exact absurd hp h.2
        | some pointer => exact (pointer_release_spec have_cursor_shape _ pointer hp).2.1
      · rfl
  rw [hk]
  unfold seat_capabilities_keyboard
  by_cases h1 : self.keyboard = none <;>
    by_cases h2 : capabilities &&& WL_SEAT_CAPABILITY_KEYBOARD = 0 <;>
    by_cases h3 : capabilities &&& WL_SEAT_CAPABILITY_POINTER = 0 <;>
    simp [h1, h2, h3, (keyboard_release_frame self).2]

/-- C11 (where the code departs from the claim): a seat holds keyboard 50. A notification
that advertises KEYBOARD alone releases that keyboard, and a notification that advertises
POINTER alone keeps it: the release branch tests the POINTER bit. -/
theorem keyboard_released_although_advertised :
    keyboard_seat.keyboard = some 50 ∧
    (wayland_seat_capabilities true none none example_seat_env keyboard_seat
      WL_SEAT_CAPABILITY_KEYBOARD).1.keyboard = none ∧
    SeatCall.wl_keyboard_release 50 ∈
      (wayland_seat_capabilities true none none example_seat_env keyboard_seat
        WL_SEAT_CAPABILITY_KEYBOARD).2 ∧
    (wayland_seat_capabilities true none none example_seat_env keyboard_seat
      WL_SEAT_CAPABILITY_POINTER).1.keyboard = some 50 := by
  refine ⟨rfl, by decide, by decide, by decide⟩

/-! ## Key repeat: properties -/

theorem timeout_adds_append (a b : List SeatCall) :
    timeout_adds (a ++ b) = timeout_adds a + timeout_adds b := by
  induction a with
  | nil => simp [timeout_adds]
  | cons c cs ih => cases c <;> simp [timeout_adds, ih]; omega

theorem key_presses_append (a b : List SeatCall) :
    key_presses (a ++ b) = key_presses a ++ key_presses b := by
  induction a with
  | nil => rfl
  | cons c cs ih =>
    cases c with
    | nk_bindings_seat_handle_key keycode st => cases st <;> simp [key_presses, ih]
    | _ => simp [key_presses, ih]

/-- What `repeat_source_destroy` returns: the source member cleared, and the destruction
of the stored source if there was one. -/
theorem repeat_source_destroy_eq (self : wayland_seat) :
    repeat_source_destroy self =
      ({ self with repeat_ := { self.repeat_ with source := none } },
       match self.repeat_.source with
       | some source => [SeatCall.g_source_destroy source]
       | none => []) := by
  obtain ⟨gn, seat, name, ⟨key, source, rate, delay⟩, serial, ps, kb, ptr, dd, psd, csd,
    button, motion, wheel, wc, axs⟩ := self
  cases source <;> rfl

/-- The three shapes of a state that satisfies `keyboard_inv`: nothing stored and nothing
attached; a freed source stored and nothing attached; the stored source attached alone. -/
theorem keyboard_inv_cases (s : keyboard_state) (hinv : keyboard_inv s) :
    (s.self.repeat_.source = none ∧ s.timers = []) ∨
    (∃ source, s.self.repeat_.source = some source ∧ s.timers = []) ∨
    (∃ source cb, s.self.repeat_.source = some source ∧ s.timers = [(source, cb)] ∧
      source < s.next_id) := by
  obtain ⟨i1, i2⟩ := hinv
  match hs : s.timers, i1, i2 with
  | [], _, _ =>
    cases hsrc : s.self.repeat_.source with
    | none => exact Or.inl ⟨rfl, rfl⟩
    | some source => exact Or.inr (Or.inl ⟨source, rfl, rfl⟩)
  | [(id, cb)], _, i2 =>
    have h := i2 (id, cb) (List.mem_singleton.2 rfl)
    exact Or.inr (Or.inr ⟨id, cb, h.1, rfl, h.2⟩)
  | _ :: _ :: _, i1, _ => simp at i1

theorem keyboard_inv_of_outcome (s t : keyboard_state) (hinv : keyboard_inv s)
    (h : timers_outcome s t) : keyboard_inv t := by
  rcases h with h | ⟨cb, h1, h2, h3⟩ | ⟨h1, h2, h3⟩
  · simp [keyboard_inv, h]
  · simp [keyboard_inv, h1, h2, h3]
  · obtain ⟨i1, i2⟩ := hinv
    refine ⟨by rw [h1]; exact i1, ?_⟩
    intro x hx
    rw [h1] at hx
    have := i2 x hx
    exact ⟨by rw [h2]; exact this.1, by omega⟩

/-- The press handler destroys the stored source before it arms. -/
theorem key_cancels_before_arming (w : wayland_stuff) (state : Option Nat)
    (text : Option String) (source : Nat) (self : wayland_seat) (serial time key kstate : Nat) :
    cancelled_before_armed self.repeat_.source
      (wayland_keyboard_key w state text source self serial time key kstate).2.2 = true := by
  simp only [wayland_keyboard_key, repeat_source_destroy]
  by_cases hr : kstate = WL_KEYBOARD_KEY_STATE_RELEASED
  · by_cases hk : (key + 8) % 4294967296 = self.repeat_.key <;>
      cases hs : self.repeat_.source <;> cases state <;>
      simp [hr, hk, hs, cancelled_before_armed]
  · by_cases hp : kstate = WL_KEYBOARD_KEY_STATE_PRESSED
    · cases hs : self.repeat_.source <;> cases state <;> cases text <;>
        simp [hr, hp, hs, cancelled_before_armed]
    · cases state <;> simp [hr, hp, cancelled_before_armed]

/-- A key event on a state that satisfies `keyboard_inv`, when it is defined, leaves the
timers in one of the three ways of `timers_outcome`. -/
theorem key_outcome (s : keyboard_state) (hinv : keyboard_inv s) (state : Option Nat)
    (text : Option String) (serial time key kstate : Nat) (t : keyboard_state)
    (h : keyboard_step s (keyboard_event.key state text serial time key kstate) = some t) :
    timers_outcome s t := by
  have hc := keyboard_inv_cases s hinv
  obtain ⟨w, ⟨gn, seat, name, ⟨rkey, source, rate, delay⟩, serial0, ps, kb, ptr, dd, psd, csd,
    button, motion, wheel, wc, axs⟩, timers, n, calls⟩ := s
  simp only at hc
  simp only [keyboard_step, wayland_keyboard_key, repeat_source_destroy_eq] at h
  have h10 : WL_KEYBOARD_KEY_STATE_PRESSED ≠ WL_KEYBOARD_KEY_STATE_RELEASED := by decide
  by_cases hr : kstate = WL_KEYBOARD_KEY_STATE_RELEASED
  · by_cases hk : (key + 8) % 4294967296 = rkey
    · rcases hc with ⟨h1, h2⟩ | ⟨src, h1, h2⟩ | ⟨src, cb, h1, h2, h3⟩ <;>
        subst h1 <;> subst h2 <;> cases state <;>
        simp [hr, hk, apply_timer_calls, timeout_adds] at h <;>
        subst h <;> simp [timers_outcome, hr, hk]
    · rcases hc with ⟨h1, h2⟩ | ⟨src, h1, h2⟩ | ⟨src, cb, h1, h2, h3⟩ <;>
        subst h1 <;> subst h2 <;> cases state <;>
        simp [hr, hk, apply_timer_calls, timeout_adds] at h <;>
        subst h <;> simp [timers_outcome, hr, hk]
  · by_cases hp : kstate = WL_KEYBOARD_KEY_STATE_PRESSED
    · subst hp
      rcases hc with ⟨h1, h2⟩ | ⟨src, h1, h2⟩ | ⟨src, cb, h1, h2, h3⟩ <;>
        subst h1 <;> subst h2 <;> cases state <;> cases text <;>
        simp [h10, apply_timer_calls, timeout_adds] at h <;>
        subst h <;> simp [timers_outcome, h10]
    · rcases hc with ⟨h1, h2⟩ | ⟨src, h1, h2⟩ | ⟨src, cb, h1, h2, h3⟩ <;>
        subst h1 <;> subst h2 <;> cases state <;>
        simp [hr, hp, apply_timer_calls, timeout_adds] at h <;>
        subst h <;> simp [timers_outcome, hr, hp]

/-- A press handled with an active view, on a state whose stored source is attached: the
stored timer is destroyed and the delay timer armed as the only attached one. -/
theorem key_press_view (s : keyboard_state) (hinv : keyboard_inv s)
    (hatt : source_attached s = true) (view : Nat) (text : Option String)
    (serial time key : Nat) :
    ∃ t, keyboard_step s
        (keyboard_event.key (some view) text serial time key WL_KEYBOARD_KEY_STATE_PRESSED) =
        some t ∧
      t.timers = [(s.next_id, repeat_callback.wayland_key_repeat_delay)] ∧
      t.self.repeat_.key = (key + 8) % 2 ^ 32 ∧
      t.self.repeat_.source = some s.next_id ∧
      t.next_id = s.next_id + 1 ∧
      key_presses t.calls = key_presses s.calls ++ [(key + 8) % 2 ^ 32] := by
  have hc := keyboard_inv_cases s hinv
  obtain ⟨w, ⟨gn, seat, name, ⟨rkey, source, rate, delay⟩, serial0, ps, kb, ptr, dd, psd, csd,
    button, motion, wheel, wc, axs⟩, timers, n, calls⟩ := s
  simp only at hc
  have h10 : WL_KEYBOARD_KEY_STATE_PRESSED ≠ WL_KEYBOARD_KEY_STATE_RELEASED := by decide
  simp only [keyboard_step, wayland_keyboard_key, repeat_source_destroy_eq]
  rcases hc with ⟨h1, h2⟩ | ⟨src, h1, h2⟩ | ⟨src, cb, h1, h2, h3⟩ <;>
    subst h1 <;> subst h2 <;> cases text <;>
    simp [source_attached] at hatt <;>
    simp [h10, apply_timer_calls, timeout_adds, key_presses_append, key_presses]

/-- The release of the repeating key, on a state whose stored source is attached: the
stored timer is destroyed, none is attached, key and source are cleared. -/
theorem key_release_match (s : keyboard_state) (hinv : keyboard_inv s)
    (hatt : source_attached s = true) (state : Option Nat) (text : Option String)
    (serial time key : Nat) (hk : (key + 8) % 2 ^ 32 = s.self.repeat_.key) :
    ∃ t, keyboard_step s
        (keyboard_event.key state text serial time key WL_KEYBOARD_KEY_STATE_RELEASED) =
        some t ∧
      t.timers = [] ∧ t.self.repeat_.key = 0 ∧ t.self.repeat_.source = none ∧
      t.next_id = s.next_id ∧ key_presses t.calls = key_presses s.calls := by
  have hc := keyboard_inv_cases s hinv
  obtain ⟨w, ⟨gn, seat, name, ⟨rkey, source, rate, delay⟩, serial0, ps, kb, ptr, dd, psd, csd,
    button, motion, wheel, wc, axs⟩, timers, n, calls⟩ := s
  simp only at hc hk
  have hk2 : (key + 8) % 4294967296 = rkey := hk
  simp only [keyboard_step, wayland_keyboard_key, repeat_source_destroy_eq]
  rcases hc with ⟨h1, h2⟩ | ⟨src, h1, h2⟩ | ⟨src, cb, h1, h2, h3⟩ <;>
    subst h1 <;> subst h2 <;> cases state <;>
    simp [source_attached] at hatt <;>
    simp [hk2, apply_timer_calls, timeout_adds, key_presses_append, key_presses]

/-- On a state whose stored source has been freed, a key press and the release of the
repeating key destroy the freed source. -/
theorem key_destroys_freed (s : keyboard_state) (hatt : source_attached s = false)
    (state : Option Nat) (text : Option String) (serial time key : Nat) :
    keyboard_step s
      (keyboard_event.key state text serial time key WL_KEYBOARD_KEY_STATE_PRESSED) = none ∧
    ((key + 8) % 2 ^ 32 = s.self.repeat_.key →
      keyboard_step s
        (keyboard_event.key state text serial time key WL_KEYBOARD_KEY_STATE_RELEASED) =
        none) := by
  obtain ⟨w, ⟨gn, seat, name, ⟨rkey, source, rate, delay⟩, serial0, ps, kb, ptr, dd, psd, csd,
    button, motion, wheel, wc, axs⟩, timers, n, calls⟩ := s
  have h10 : WL_KEYBOARD_KEY_STATE_PRESSED ≠ WL_KEYBOARD_KEY_STATE_RELEASED := by decide
  cases source with
  | none => simp [source_attached] at hatt
  | some src =>
    simp only [source_attached, List.any_eq_false, decide_eq_true_eq] at hatt
    have hany : (timers.any fun t => decide (t.1 = src)) = false := by
      rw [List.any_eq_false]
      intro x hx
      simpa using hatt x hx
    simp only [keyboard_step, wayland_keyboard_key, repeat_source_destroy_eq]
    constructor
    · cases state <;> simp [h10, apply_timer_calls, hany]
    · intro hk
      have hk2 : (key + 8) % 4294967296 = rkey := hk
      cases state <;> simp [hk2, apply_timer_calls, hany]

/-- The repeat-info event, in full: with the stored source attached (or none stored) rate
and delay are stored, key and source cleared, the stored source destroyed and none left
attached; with a freed source stored, the handler destroys the freed source. -/
theorem repeat_info_result (s : keyboard_state) (hinv : keyboard_inv s) (rate delay : Int) :
    keyboard_step s (keyboard_event.repeat_info rate delay) =
      if source_attached s = true then
        some { s with
          self := { s.self with
            repeat_ := { key := 0, source := none, rate := rate, delay := delay } }
          timers := []
          calls := s.calls ++ (match s.self.repeat_.source with
            | some source => [SeatCall.g_source_destroy source]
            | none => []) }
      else none := by
  have hc := keyboard_inv_cases s hinv
  obtain ⟨w, ⟨gn, seat, name, ⟨rkey, source, rate0, delay0⟩, serial0, ps, kb, ptr, dd, psd, csd,
    button, motion, wheel, wc, axs⟩, timers, n, calls⟩ := s
  simp only at hc
  simp only [keyboard_step, wayland_keyboard_repeat_info, repeat_source_destroy_eq]
  rcases hc with ⟨h1, h2⟩ | ⟨src, h1, h2⟩ | ⟨src, cb, h1, h2, h3⟩ <;>
    subst h1 <;> subst h2 <;>
    simp [source_attached, apply_timer_calls]

/-- The release of the keyboard, in full: nothing without a keyboard; with keyboard `k` and
the stored source attached (or none stored) `k` is released, key, source and keyboard are
cleared, the stored source destroyed and none left attached; with a freed source stored,
the handler destroys the freed source. -/
theorem keyboard_release_result (s : keyboard_state) (hinv : keyboard_inv s) :
    (s.self.keyboard = none → keyboard_step s keyboard_event.keyboard_release = some s) ∧
    (∀ k, s.self.keyboard = some k →
      keyboard_step s keyboard_event.keyboard_release =
        if source_attached s = true then
          some { s with
            self := { s.self with
              repeat_ := { s.self.repeat_ with key := 0, source := none }
              keyboard := none }
            timers := []
            calls := s.calls ++ [SeatCall.wl_keyboard_release k] ++
              (match s.self.repeat_.source with
                | some source => [SeatCall.g_source_destroy source]
                | none => []) }
        else none) := by
  have hc := keyboard_inv_cases s hinv
  obtain ⟨w, ⟨gn, seat, name, ⟨rkey, source, rate0, delay0⟩, serial0, ps, kb, ptr, dd, psd, csd,
    button, motion, wheel, wc, axs⟩, timers, n, calls⟩ := s
  simp only at hc
  constructor
  · intro h
    simp only at h
    subst h
    simp [keyboard_step, wayland_keyboard_release, apply_timer_calls]
  · intro k h
    simp only at h
    subst h
    simp only [keyboard_step, wayland_keyboard_release, repeat_source_destroy_eq]
    rcases hc with ⟨h1, h2⟩ | ⟨src, h1, h2⟩ | ⟨src, cb, h1, h2, h3⟩ <;>
      subst h1 <;> subst h2 <;>
      simp [source_attached, apply_timer_calls]

/-- A timer expiry is always defined: the callbacks destroy no source. On a state that
satisfies `keyboard_inv` it leaves the timers in one of the ways of `timers_outcome`. -/
theorem timer_outcome (s : keyboard_state) (hinv : keyboard_inv s) (source : Nat)
    (state : Option Nat) (text : Option String) :
    ∃ t, keyboard_step s (keyboard_event.timer source state text) = some t ∧
      timers_outcome s t := by
  have hc := keyboard_inv_cases s hinv
  obtain ⟨w, ⟨gn, seat, name, ⟨rkey, src0, rate, delay⟩, serial0, ps, kb, ptr, dd, psd, csd,
    button, motion, wheel, wc, axs⟩, timers, n, calls⟩ := s
  simp only at hc
  rcases hc with ⟨h1, h2⟩ | ⟨src, h1, h2⟩ | ⟨src, cb, h1, h2, h3⟩
  · subst h1; subst h2
    exact ⟨_, rfl, Or.inr (Or.inr ⟨rfl, rfl, le_refl _⟩)⟩
  · subst h1; subst h2
    exact ⟨_, rfl, Or.inr (Or.inr ⟨rfl, rfl, le_refl _⟩)⟩
  · subst h1; subst h2
    have hne : src ≠ n := by omega
    by_cases hid : src = source
    · subst hid
      by_cases hk : rkey = 0
      · cases cb <;> cases state <;>
          simp [keyboard_step, List.find?, wayland_key_repeat_delay, wayland_key_repeat, hk,
            apply_timer_calls, timeout_adds, timers_outcome]
      · cases cb <;> cases state <;> cases text <;>
          simp [keyboard_step, List.find?, wayland_key_repeat_delay, wayland_key_repeat, hk,
            apply_timer_calls, timeout_adds, timers_outcome, hne, Ne.symm hne]
    · refine ⟨_, ?_, Or.inr (Or.inr ⟨rfl, rfl, le_refl _⟩)⟩
      simp [keyboard_step, List.find?, hid]

/-- Every keyboard event that is defined on a state that satisfies `keyboard_inv` leaves
the timers in one of the ways of `timers_outcome`. -/
theorem keyboard_step_outcome (s : keyboard_state) (hinv : keyboard_inv s)
    (e : keyboard_event) (t : keyboard_state) (h : keyboard_step s e = some t) :
    timers_outcome s t := by
  cases e with
  | key state text serial time key kstate =>
    exact key_outcome s hinv state text serial time key kstate t h
  | repeat_info rate delay =>
    rw [repeat_info_result s hinv] at h
    split at h
    · simp only [Option.some.injEq] at h
      subst h
      exact Or.inl rfl
    · cases h
  | keyboard_release =>
    cases hk : s.self.keyboard with
    | none =>
      rw [(keyboard_release_result s hinv).1 hk] at h
      simp only [Option.some.injEq] at h
      subst h
      exact Or.inr (Or.inr ⟨rfl, rfl, le_refl _⟩)
    | some k =>
      rw [(keyboard_release_result s hinv).2 k hk] at h
      split at h
      · simp only [Option.some.injEq] at h
        subst h
        exact Or.inl rfl
      · cases h
  | timer source state text =>
    obtain ⟨t2, h2, ho⟩ := timer_outcome s hinv source state text
    rw [h2] at h
    simp only [Option.some.injEq] at h
    subst h
    exact ho

/-- Every keyboard event that is defined keeps `keyboard_inv`. -/
theorem keyboard_step_inv (s : keyboard_state) (hinv : keyboard_inv s) (e : keyboard_event)
    (t : keyboard_state) (h : keyboard_step s e = some t) : keyboard_inv t :=
  keyboard_inv_of_outcome s t hinv (keyboard_step_outcome s hinv e t h)

/-- Every sequence of keyboard events that is defined keeps `keyboard_inv`. -/
theorem keyboard_run_inv (es : List keyboard_event) (s : keyboard_state)
    (hinv : keyboard_inv s) (t : keyboard_state) (h : keyboard_run s es = some t) :
    keyboard_inv t := by
  induction es generalizing s with
  | nil =>
    simp only [keyboard_run, Option.some.injEq] at h
    subst h
    exact hinv
  | cons e es ih =>
    simp only [keyboard_run] at h
    cases hs : keyboard_step s e with
    | none => simp [hs] at h
    | some u =>
      simp only [hs] at h
      exact ih u (keyboard_step_inv s hinv e u hs) h

/-- On a state that satisfies `keyboard_inv` and whose stored source is attached every
keyboard event is defined: no handler destroys a freed source. -/
theorem keyboard_step_defined (s : keyboard_state) (hinv : keyboard_inv s)
    (hatt : source_attached s = true) (e : keyboard_event) :
    ∃ t, keyboard_step s e = some t := by
  cases e with
  | key state text serial time key kstate =>
    have hc := keyboard_inv_cases s hinv
    obtain ⟨w, ⟨gn, seat, name, ⟨rkey, source, rate, delay⟩, serial0, ps, kb, ptr, dd, psd,
      csd, button, motion, wheel, wc, axs⟩, timers, n, calls⟩ := s
    simp only at hc
    simp only [keyboard_step, wayland_keyboard_key, repeat_source_destroy_eq]
    by_cases hr : kstate = WL_KEYBOARD_KEY_STATE_RELEASED
    · by_cases hk : (key + 8) % 4294967296 = rkey <;>
        rcases hc with ⟨h1, h2⟩ | ⟨src, h1, h2⟩ | ⟨src, cb, h1, h2, h3⟩ <;>
        subst h1 <;> subst h2 <;> cases state <;>
        simp [source_attached] at hatt <;>
        simp [hr, hk, apply_timer_calls]
    · by_cases hp : kstate = WL_KEYBOARD_KEY_STATE_PRESSED <;>
        rcases hc with ⟨h1, h2⟩ | ⟨src, h1, h2⟩ | ⟨src, cb, h1, h2, h3⟩ <;>
        subst h1 <;> subst h2 <;> cases state <;> cases text <;>
        simp [source_attached] at hatt <;>
        simp [hr, hp, apply_timer_calls]
  | repeat_info rate delay =>
    rw [repeat_info_result s hinv, if_pos hatt]
    exact ⟨_, rfl⟩
  | keyboard_release =>
    cases hk : s.self.keyboard with
    | none => exact ⟨_, (keyboard_release_result s hinv).1 hk⟩
    | some k =>
      rw [(keyboard_release_result s hinv).2 k hk, if_pos hatt]
      exact ⟨_, rfl⟩
  | timer source state text =>
    obtain ⟨t, h, -⟩ := timer_outcome s hinv source state text
    exact ⟨t, h⟩

theorem keyboard_run_append (s : keyboard_state) (a b : List keyboard_event) :
    keyboard_run s (a ++ b) = (keyboard_run s a).bind fun t => keyboard_run t b := by
  induction a generalizing s with
  | nil => rfl
  | cons e es ih =>
    simp only [List.cons_append, keyboard_run]
    cases keyboard_step s e with
    | none => rfl
    | some t => exact ih t

/-- Timer expiries change nothing while no timer is attached. -/
theorem timer_run_idle (es : List keyboard_event) (s : keyboard_state)
    (h : s.timers = []) (hes : ∀ e ∈ es, is_timer e = true) :
    keyboard_run s es = some s := by
  induction es with
  | nil => rfl
  | cons e es ih =>
    have he := hes e (List.mem_cons_self _ _)
    cases e with
    | timer source state text =>
      have hstep : keyboard_step s (keyboard_event.timer source state text) = some s := by
        simp [keyboard_step, h]
      simp only [keyboard_run, hstep]
      exact ih (fun e he => hes e (List.mem_cons_of_mem _ he))
    | key _ _ _ _ _ _ => simp [is_timer] at he
    | repeat_info _ _ => simp [is_timer] at he
    | keyboard_release => simp [is_timer] at he

/-- The delay callback that arms the rate timer destroys no source; its own source is
removed on return, which leaves the new timer as the only attached one. -/
theorem delay_expiry_arms (s : keyboard_state) (hinv : keyboard_inv s) (source view : Nat)
    (text : Option String)
    (hlive : (source, repeat_callback.wayland_key_repeat_delay) ∈ s.timers)
    (hkey : s.self.repeat_.key ≠ 0) :
    (∀ x, SeatCall.g_source_destroy x ∉
      (wayland_key_repeat_delay (some view) text s.next_id s.self).2.1) ∧
    cancelled_before_armed s.self.repeat_.source
      (wayland_key_repeat_delay (some view) text s.next_id s.self).2.1 = false ∧
    (wayland_key_repeat_delay (some view) text s.next_id s.self).2.2 = false ∧
    ∃ t, keyboard_step s (keyboard_event.timer source (some view) text) = some t ∧
      t.timers = [(s.next_id, repeat_callback.wayland_key_repeat)] ∧
      t.self.repeat_.source = some s.next_id := by
  have hc := keyboard_inv_cases s hinv
  obtain ⟨w, ⟨gn, seat, name, ⟨rkey, src0, rate, delay⟩, serial0, ps, kb, ptr, dd, psd, csd,
    button, motion, wheel, wc, axs⟩, timers, n, calls⟩ := s
  simp only at hc hlive hkey
  rcases hc with ⟨h1, h2⟩ | ⟨src, h1, h2⟩ | ⟨src, cb, h1, h2, h3⟩
  · subst h2; simp at hlive
  · subst h2; simp at hlive
  · subst h1; subst h2
    simp only [List.mem_singleton, Prod.mk.injEq] at hlive
    obtain ⟨rfl, rfl⟩ := hlive
    have hne : source ≠ n := by omega
    refine ⟨?_, ?_, ?_, ?_⟩
    · intro x
      cases text <;> simp [wayland_key_repeat_delay, hkey]
    · cases text <;> simp [wayland_key_repeat_delay, hkey, cancelled_before_armed]
    · simp [wayland_key_repeat_delay, hkey]
    · cases text <;>
        simp [keyboard_step, List.find?, wayland_key_repeat_delay, hkey, apply_timer_calls,
          timeout_adds, hne, Ne.symm hne]

/-- The expiry, while no view is active, of an attached timer with a repeat key other than
0: one press goes to the bindings, the source is detached and freed, nothing is armed and
the seat is not written. -/
theorem timer_without_view (s : keyboard_state) (hinv : keyboard_inv s) (source : Nat)
    (cb : repeat_callback) (text : Option String) (hlive : (source, cb) ∈ s.timers)
    (hkey : s.self.repeat_.key ≠ 0) :
    keyboard_step s (keyboard_event.timer source none text) =
      some { s with
        timers := []
        calls := s.calls ++
          [SeatCall.nk_bindings_seat_handle_key s.self.repeat_.key
            NkBindingsKeyState.PRESS] } ∧
    s.self.repeat_.source = some source := by
  have hc := keyboard_inv_cases s hinv
  obtain ⟨w, ⟨gn, seat, name, ⟨rkey, src0, rate, delay⟩, serial0, ps, kb, ptr, dd, psd, csd,
    button, motion, wheel, wc, axs⟩, timers, n, calls⟩ := s
  simp only at hc hlive hkey
  rcases hc with ⟨h1, h2⟩ | ⟨src, h1, h2⟩ | ⟨src, cb2, h1, h2, h3⟩
  · subst h2; simp at hlive
  · subst h2; simp at hlive
  · subst h1; subst h2
    simp only [List.mem_singleton, Prod.mk.injEq] at hlive
    obtain ⟨rfl, rfl⟩ := hlive
    cases cb <;>
      simp [keyboard_step, List.find?, wayland_key_repeat_delay, wayland_key_repeat, hkey,
        apply_timer_calls, timeout_adds]

/-- On every state that satisfies `keyboard_inv` and whose stored source is attached, a
press of key `k` handled with an active view and followed directly by the release of `k`
leaves no timer attached, repeat key 0 and no stored source; the bindings have received
the one real press, and timer expiries handled afterwards change nothing. -/
theorem press_release_attached (s : keyboard_state) (hinv : keyboard_inv s)
    (hatt : source_attached s = true) (view : Nat) (text text2 : Option String)
    (state2 : Option Nat) (serial time serial2 time2 k : Nat) (es : List keyboard_event)
    (hes : ∀ e ∈ es, is_timer e = true) :
    ∃ t, keyboard_run s
        [keyboard_event.key (some view) text serial time k WL_KEYBOARD_KEY_STATE_PRESSED,
         keyboard_event.key state2 text2 serial2 time2 k
           WL_KEYBOARD_KEY_STATE_RELEASED] = some t ∧
      t.timers = [] ∧ t.self.repeat_.key = 0 ∧ t.self.repeat_.source = none ∧
      key_presses t.calls = key_presses s.calls ++ [(k + 8) % 2 ^ 32] ∧
      keyboard_run s
        ([keyboard_event.key (some view) text serial time k WL_KEYBOARD_KEY_STATE_PRESSED,
          keyboard_event.key state2 text2 serial2 time2 k WL_KEYBOARD_KEY_STATE_RELEASED] ++
          es) = some t := by
  obtain ⟨t1, h1, ht1, hk1, hs1, -, hp1⟩ :=
    key_press_view s hinv hatt view text serial time k
  have hinv1 := keyboard_step_inv s hinv _ t1 h1
  have hatt1 : source_attached t1 = true := by
    simp [source_attached, hs1, ht1]
  obtain ⟨t2, h2, ht2, hk2, hs2, -, hp2⟩ :=
    key_release_match t1 hinv1 hatt1 state2 text2 serial2 time2 k hk1.symm
  have hrun : keyboard_run s
      [keyboard_event.key (some view) text serial time k WL_KEYBOARD_KEY_STATE_PRESSED,
       keyboard_event.key state2 text2 serial2 time2 k WL_KEYBOARD_KEY_STATE_RELEASED] =
      some t2 := by
    simp only [keyboard_run, h1, h2]
  refine ⟨t2, hrun, ht2, hk2, hs2, hp2.trans hp1, ?_⟩
  rw [keyboard_run_append, hrun]
  exact timer_run_idle es t2 ht2 hes

/-- C13: where the code departs from the claim. Key 30 is pressed with view 1 on
`keyboard_start`, and timer 7 expires while no view is active: in the state reached,
`keyboard_stale`, no timer is attached and `repeat.source` still holds the freed source
7. When key 30 is then pressed with view 1, `wayland_keyboard_key` calls
`g_source_destroy` on source 7, a use after free, so the press and the release of key 30
have no defined result. -/
theorem press_after_expiry_destroys_freed_source :
    keyboard_run keyboard_start
      [keyboard_event.key (some 1) none 3 0 30 WL_KEYBOARD_KEY_STATE_PRESSED,
       keyboard_event.timer 7 none none] = some keyboard_stale ∧
    keyboard_stale.timers = [] ∧
    keyboard_stale.self.repeat_.source = some 7 ∧
    (wayland_keyboard_key keyboard_stale.wayland (some 1) none keyboard_stale.next_id
      keyboard_stale.self 4 5 30 WL_KEYBOARD_KEY_STATE_PRESSED).2.2 =
      [SeatCall.nk_bindings_seat_handle_key 38 NkBindingsKeyState.PRESS,
       SeatCall.g_source_destroy 7,
       SeatCall.g_timeout_add 600 repeat_callback.wayland_key_repeat_delay 8,
       SeatCall.rofi_view_maybe_update] ∧
    keyboard_run keyboard_stale
      [keyboard_event.key (some 1) none 4 5 30 WL_KEYBOARD_KEY_STATE_PRESSED,
       keyboard_event.key (some 1) none 5 6 30 WL_KEYBOARD_KEY_STATE_RELEASED] = none := by
  refine ⟨by decide, rfl, rfl, by decide, by decide⟩

/-- C14: the literal reading fails for the delay callback: with the delay timer 7 attached
and stored, `wayland_key_repeat_delay` arms the rate timer 8 and destroys no source
before. -/
theorem delay_callback_arms_without_cancel :
    keyboard_step keyboard_start
      (keyboard_event.key (some 1) none 3 0 30 WL_KEYBOARD_KEY_STATE_PRESSED) =
      some keyboard_pressed ∧
    keyboard_pressed.timers = [(7, repeat_callback.wayland_key_repeat_delay)] ∧
    keyboard_pressed.self.repeat_.source = some 7 ∧
    (wayland_key_repeat_delay (some 1) none 8 keyboard_pressed.self).2.1 =
      [SeatCall.nk_bindings_seat_handle_key 38 NkBindingsKeyState.PRESS,
       SeatCall.g_timeout_add 40 repeat_callback.wayland_key_repeat 8,
       SeatCall.rofi_view_maybe_update] ∧
    cancelled_before_armed (some 7)
      (wayland_key_repeat_delay (some 1) none 8 keyboard_pressed.self).2.1 = false := by
  refine ⟨by decide, rfl, rfl, by decide, by decide⟩

/-- C14, amended: in every state reached from one that satisfies `keyboard_inv` by a
sequence of events in which no handler destroys a freed source, at most one timer is
attached and it is the stored one. The key handler destroys the stored source before it
arms. The delay callback arms the rate timer without destroying a source and returns
`G_SOURCE_REMOVE`, which removes its own source and leaves the new timer as the only
attached one. While the stored source is attached (or none is stored) every event is
defined, and the release of the repeating key, repeat-info and the release of a held
keyboard clear the key, destroy the stored source and leave no timer attached. When the
stored source has been freed, those three handlers and every key press destroy the freed
source. -/
theorem repeat_timer_invariant (s0 : keyboard_state) (hinv : keyboard_inv s0)
    (es : List keyboard_event) (s : keyboard_state) (hrun : keyboard_run s0 es = some s) :
    s.timers.length ≤ 1 ∧
    (∀ t ∈ s.timers, s.self.repeat_.source = some t.1) ∧
    (∀ state text serial time key kstate,
      cancelled_before_armed s.self.repeat_.source
        (wayland_keyboard_key s.wayland state text s.next_id s.self serial time key
          kstate).2.2 = true) ∧
    (∀ source view text,
      (source, repeat_callback.wayland_key_repeat_delay) ∈ s.timers →
      s.self.repeat_.key ≠ 0 →
      (∀ x, SeatCall.g_source_destroy x ∉
        (wayland_key_repeat_delay (some view) text s.next_id s.self).2.1) ∧
      (wayland_key_repeat_delay (some view) text s.next_id s.self).2.2 = false ∧
      ∃ t, keyboard_run s0 (es ++ [keyboard_event.timer source (some view) text]) = some t ∧
        t.timers = [(s.next_id, repeat_callback.wayland_key_repeat)]) ∧
    (source_attached s = true →
      (∀ e, ∃ t, keyboard_run s0 (es ++ [e]) = some t) ∧
      (∀ state text serial time key, (key + 8) % 2 ^ 32 = s.self.repeat_.key →
        ∃ t, keyboard_run s0 (es ++ [keyboard_event.key state text serial time key
            WL_KEYBOARD_KEY_STATE_RELEASED]) = some t ∧
          t.timers = [] ∧ t.self.repeat_.key = 0 ∧ t.self.repeat_.source = none) ∧
      (∀ rate delay,
        ∃ t, keyboard_run s0 (es ++ [keyboard_event.repeat_info rate delay]) = some t ∧
          t.timers = [] ∧ t.self.repeat_.key = 0 ∧ t.self.repeat_.source = none) ∧
      (s.self.keyboard ≠ none →
        ∃ t, keyboard_run s0 (es ++ [keyboard_event.keyboard_release]) = some t ∧
          t.timers = [] ∧ t.self.repeat_.key = 0 ∧ t.self.repeat_.source = none)) ∧
    (source_attached s = false →
      (∀ state text serial time key,
        keyboard_run s0 (es ++ [keyboard_event.key state text serial time key
          WL_KEYBOARD_KEY_STATE_PRESSED]) = none) ∧
      (∀ state text serial time key, (key + 8) % 2 ^ 32 = s.self.repeat_.key →
        keyboard_run s0 (es ++ [keyboard_event.key state text serial time key
          WL_KEYBOARD_KEY_STATE_RELEASED]) = none) ∧
      (∀ rate delay,
        keyboard_run s0 (es ++ [keyboard_event.repeat_info rate delay]) = none) ∧
      (s.self.keyboard ≠ none →
        keyboard_run s0 (es ++ [keyboard_event.keyboard_release]) = none)) := by
  have hs := keyboard_run_inv es s0 hinv s hrun
  have happ : ∀ e, keyboard_run s0 (es ++ [e]) = keyboard_step s e := by
    intro e
    rw [keyboard_run_append, hrun]
    simp only [Option.some_bind, keyboard_run]
    cases keyboard_step s e <;> rfl
  refine ⟨hs.1, fun t ht => (hs.2 t ht).1, ?_, ?_, ?_, ?_⟩
  · intro state text serial time key kstate
    exact key_cancels_before_arming _ state text _ _ serial time key kstate
  · intro source view text hlive hkey
    obtain ⟨h1, -, h3, t, h4, h5, -⟩ := delay_expiry_arms s hs source view text hlive hkey
    rw [happ]
    exact ⟨h1, h3, t, h4, h5⟩
  · intro hatt
    refine ⟨?_, ?_, ?_, ?_⟩
    · intro e
      rw [happ]
      exact keyboard_step_defined s hs hatt e
    · intro state text serial time key hk
      rw [happ]
      obtain ⟨t, h1, h2, h3, h4, -⟩ :=
        key_release_match s hs hatt state text serial time key hk
      exact ⟨t, h1, h2, h3, h4⟩
    · intro rate delay
      rw [happ, repeat_info_result s hs, if_pos hatt]
      exact ⟨_, rfl, rfl, rfl, rfl⟩
    · intro hk
      cases hkb : s.self.keyboard with
      | none => exact absurd hkb hk
      | some k =>
        rw [happ, (keyboard_release_result s hs).2 k hkb, if_pos hatt]
        exact ⟨_, rfl, rfl, rfl, rfl⟩
  · intro hatt
    have hne : ¬ source_attached s = true := by simp [hatt]
    refine ⟨?_, ?_, ?_, ?_⟩
    · intro state text serial time key
      rw [happ]
      exact (key_destroys_freed s hatt state text serial time key).1
    · intro state text serial time key hk
      rw [happ]
      exact (key_destroys_freed s hatt state text serial time key).2 hk
    · intro rate delay
      rw [happ, repeat_info_result s hs, if_neg hne]
    · intro hk
      cases hkb : s.self.keyboard with
      | none => exact absurd hkb hk
      | some k => rw [happ, (keyboard_release_result s hs).2 k hkb, if_neg hne]

/-- Key 30 pressed with view 1 on `keyboard_start`: the delay timer 7 is the only attached
one; its expiry with view 1 leaves the rate timer 8 as the only attached one, and instead
a repeat-info event leaves none. -/
theorem repeat_timer_invariant_witness :
    keyboard_inv keyboard_start ∧
    keyboard_run keyboard_start
      [keyboard_event.key (some 1) none 3 0 30 WL_KEYBOARD_KEY_STATE_PRESSED] =
      some keyboard_pressed ∧
    (∃ t, keyboard_run keyboard_start
        ([keyboard_event.key (some 1) none 3 0 30 WL_KEYBOARD_KEY_STATE_PRESSED] ++
          [keyboard_event.timer 7 (some 1) none]) = some t ∧
      t.timers = [(8, repeat_callback.wayland_key_repeat)]) ∧
    (∃ t, keyboard_run keyboard_start
        ([keyboard_event.key (some 1) none 3 0 30 WL_KEYBOARD_KEY_STATE_PRESSED] ++
          [keyboard_event.repeat_info 25 500]) = some t ∧
      t.timers = [] ∧ t.self.repeat_.key = 0 ∧ t.self.repeat_.source = none) :=
  have h := repeat_timer_invariant keyboard_start (by simp [keyboard_inv, keyboard_start])
    [keyboard_event.key (some 1) none 3 0 30 WL_KEYBOARD_KEY_STATE_PRESSED] keyboard_pressed
    (by decide)
  ⟨by simp [keyboard_inv, keyboard_start], by decide,
   (h.2.2.2.1 7 1 none (by decide) (by decide)).2.2,
   (h.2.2.2.2.1 (by decide)).2.2.1 25 500⟩

/-! ## Registry: properties -/

/-- The four singletons with a version constant, and seats and outputs that pass the
minimum, are bound at the minimum of the advertised version and the constant; the primary
selection manager and the cursor shape manager are bound at version 1. -/
theorem bind_version_clamped (have_cursor_shape : Bool) (v : interface_versions)
    (r : wayland_registry) (name version proxy : Nat) :
    (wayland_registry_handle_global have_cursor_shape v r name wl_interface.wl_compositor
      version proxy).map (fun x => bind_version x.2) =
      some (some (min version v.WL_COMPOSITOR_INTERFACE_VERSION)) ∧
    (wayland_registry_handle_global have_cursor_shape v r name wl_interface.wl_shm
      version proxy).map (fun x => bind_version x.2) =
      some (some (min version v.WL_SHM_INTERFACE_VERSION)) ∧
    (wayland_registry_handle_global have_cursor_shape v r name
      wl_interface.zwlr_layer_shell_v1 version proxy).map (fun x => bind_version x.2) =
      some (some (min version v.WL_LAYER_SHELL_INTERFACE_VERSION)) ∧
    (wayland_registry_handle_global have_cursor_shape v r name
      wl_interface.zwp_keyboard_shortcuts_inhibit_manager_v1 version proxy).map
        (fun x => bind_version x.2) =
      some (some (min version v.WL_KEYBOARD_SHORTCUTS_INHIBITOR_INTERFACE_VERSION)) ∧
    (wayland_registry_handle_global have_cursor_shape v r name wl_interface.wl_seat
      version proxy).map (fun x => bind_version x.2) =
      (if version < v.WL_SEAT_INTERFACE_MIN_VERSION then none
       else some (some (min version v.WL_SEAT_INTERFACE_MAX_VERSION))) ∧
    (wayland_registry_handle_global have_cursor_shape v r name wl_interface.wl_output
      version proxy).map (fun x => bind_version x.2) =
      (if version < v.WL_OUTPUT_INTERFACE_MIN_VERSION then none
       else some (some (min version v.WL_OUTPUT_INTERFACE_MAX_VERSION))) ∧
    (wayland_registry_handle_global have_cursor_shape v r name
      wl_interface.zwp_primary_selection_device_manager_v1 version proxy).map
        (fun x => bind_version x.2) = some (some 1) ∧
    (wayland_registry_handle_global true v r name
      wl_interface.wp_cursor_shape_manager_v1 version proxy).map
        (fun x => bind_version x.2) = some (some 1) := by
  refine ⟨rfl, rfl, rfl, rfl, ?_, ?_, rfl, rfl⟩
  · simp only [wayland_registry_handle_global]
    split <;> rfl
  · simp only [wayland_registry_handle_global]
    split <;> rfl

/-- C18: a `wl_data_device_manager` global is bound at version 3 whatever version is
advertised; advertised at version 1 it is bound at 3, not at the minimum of 1 and 3. -/
theorem data_device_manager_bound_at_three (have_cursor_shape : Bool)
    (v : interface_versions) (r : wayland_registry) (name version proxy : Nat) :
    wayland_registry_handle_global have_cursor_shape v r name
      wl_interface.wl_data_device_manager version proxy =
      some ({ r with data_device_manager := some proxy },
        [RegistryCall.wl_registry_bind name wl_interface.wl_data_device_manager 3]) ∧
    (wayland_registry_handle_global have_cursor_shape v r name
      wl_interface.wl_data_device_manager 1 proxy).map (fun x => bind_version x.2) =
      some (some 3) ∧
    (wayland_registry_handle_global have_cursor_shape v r name
      wl_interface.wl_data_device_manager 1 proxy).map (fun x => bind_version x.2) ≠
      some (some (min 1 3)) := by
  refine ⟨rfl, rfl, ?_⟩
  simp [wayland_registry_handle_global, bind_version]

/-- A removal that finds `name` in a singleton slot returns from inside the loop: the
cursor is as before and no cursor object is destroyed. -/
theorem singleton_removal_keeps_cursor (have_cursor_shape : Bool)
    (wl_output_get_version : Nat → Nat) (r : wayland_registry) (name : Nat)
    (h : r.global_names.WAYLAND_GLOBAL_COMPOSITOR = name ∨
      r.global_names.WAYLAND_GLOBAL_SHM = name ∨
      r.global_names.WAYLAND_GLOBAL_LAYER_SHELL = name ∨
      r.global_names.WAYLAND_GLOBAL_KEYBOARD_SHORTCUTS_INHIBITOR = name ∨
      r.global_names.WAYLAND_GLOBAL_CURSOR_SHAPE = name) :
    (wayland_registry_handle_global_remove have_cursor_shape wl_output_get_version r
      name).1.cursor = r.cursor ∧
    (wayland_registry_handle_global_remove have_cursor_shape wl_output_get_version r
      name).1.seats = r.seats ∧
    (wayland_registry_handle_global_remove have_cursor_shape wl_output_get_version r
      name).1.outputs = r.outputs ∧
    (wayland_registry_handle_global_remove have_cursor_shape wl_output_get_version r
      name).2.length ≤ 1 ∧
    (∀ x, RegistryCall.wl_callback_destroy x ∉
      (wayland_registry_handle_global_remove have_cursor_shape wl_output_get_version r
        name).2) ∧
    (∀ x, RegistryCall.wl_surface_destroy x ∉
      (wayland_registry_handle_global_remove have_cursor_shape wl_output_get_version r
        name).2) ∧
    (∀ x, RegistryCall.wl_cursor_theme_destroy x ∉
      (wayland_registry_handle_global_remove have_cursor_shape wl_output_get_version r
        name).2) := by
  unfold wayland_registry_handle_global_remove
  by_cases h1 : r.global_names.WAYLAND_GLOBAL_COMPOSITOR = name
  · simp [h1]
  by_cases h2 : r.global_names.WAYLAND_GLOBAL_SHM = name
  · simp [h1, h2]
  by_cases h3 : r.global_names.WAYLAND_GLOBAL_LAYER_SHELL = name
  · simp [h1, h2, h3]
  by_cases h4 : r.global_names.WAYLAND_GLOBAL_KEYBOARD_SHORTCUTS_INHIBITOR = name
  · simp [h1, h2, h3, h4]
  by_cases h5 : r.global_names.WAYLAND_GLOBAL_CURSOR_SHAPE = name
  · cases have_cursor_shape <;> simp [h1, h2, h3, h4, h5]
  · simp [h1, h2, h3, h4, h5] at h

/-- A removal of a name that is recorded nowhere does what the cursor block does: nothing
when no theme is loaded or compositor and shared memory are both bound, and else the
teardown of the cursor. -/
theorem unknown_removal (have_cursor_shape : Bool) (wl_output_get_version : Nat → Nat)
    (r : wayland_registry) (name : Nat) (h : name_known r name = false) :
    wayland_registry_handle_global_remove have_cursor_shape wl_output_get_version r name =
      global_remove_cursor r ∧
    ((r.cursor.theme = none ∨ (r.compositor ≠ none ∧ r.shm ≠ none)) →
      wayland_registry_handle_global_remove have_cursor_shape wl_output_get_version r name =
        (r, [])) ∧
    ((r.cursor.theme ≠ none ∧ (r.compositor = none ∨ r.shm = none)) →
      (wayland_registry_handle_global_remove have_cursor_shape wl_output_get_version r
        name).1.cursor.theme = none ∧
      RegistryCall.wl_cursor_theme_destroy r.cursor.theme ∈
        (wayland_registry_handle_global_remove have_cursor_shape wl_output_get_version r
          name).2) := by
  simp only [name_known, Bool.or_eq_false_iff, decide_eq_false_iff_not] at h
  obtain ⟨⟨⟨⟨⟨⟨h1, h2⟩, h3⟩, h4⟩, h5⟩, h6⟩, h7⟩ := h
  have hc : (global_remove_cursor r).1.seats = r.seats ∧
      (global_remove_cursor r).1.outputs = r.outputs := by
    unfold global_remove_cursor
    split <;> exact ⟨rfl, rfl⟩
  have hs : (global_remove_cursor r).1.seats.find? (fun seat => seat.global_name = name) =
      none := by
    rw [hc.1, List.find?_eq_none]
    intro x hx
    have := List.any_eq_false.1 h6 x hx
    simpa using this
  have ho : (global_remove_cursor r).1.outputs.find?
      (fun output => output.global_name = name) = none := by
    rw [hc.2, List.find?_eq_none]
    intro x hx
    have := List.any_eq_false.1 h7 x hx
    simpa using this
  have hmain : wayland_registry_handle_global_remove have_cursor_shape
      wl_output_get_version r name = global_remove_cursor r := by
    simp only [wayland_registry_handle_global_remove, h1, h2, h3, h4, h5, if_false,
      global_remove_instance, hs, ho, List.append_nil]
  refine ⟨hmain, ?_, ?_⟩
  · intro hno
    rw [hmain]
    unfold global_remove_cursor
    rw [if_neg]
    rintro ⟨ht, hcs⟩
    rcases hno with hno | hno
    · exact ht hno
    · rcases hcs with hcs | hcs
      · exact hno.1 hcs
      · exact hno.2 hcs
  · intro hp
    rw [hmain]
    unfold global_remove_cursor
    rw [if_pos hp]
    exact ⟨rfl, by simp⟩

/-- C17: the removal of the compositor global 1 from `example_registry`, whose cursor is
loaded, destroys the compositor proxy and nothing else: when the handler returns the frame
callback, surface, image, cursor and theme are as before. The same holds for the removal
of the shared memory global 2. -/
theorem compositor_removal_keeps_cursor :
    wayland_registry_handle_global_remove true (fun _ => 4) example_registry 1 =
      ({ example_registry with
         global_names :=
           { example_registry.global_names with WAYLAND_GLOBAL_COMPOSITOR := 0 }
         compositor := none },
       [RegistryCall.wl_compositor_destroy (some 101)]) ∧
    (wayland_registry_handle_global_remove true (fun _ => 4) example_registry 1).1.cursor =
      { theme := some 201, cursor := some 202, image := some 203, surface := some 204,
        frame_cb := some 205, scale := 1 } ∧
    wayland_registry_handle_global_remove true (fun _ => 4) example_registry 2 =
      ({ example_registry with
         global_names := { example_registry.global_names with WAYLAND_GLOBAL_SHM := 0 }
         shm := none },
       [RegistryCall.wl_shm_destroy (some 102)]) ∧
    (wayland_registry_handle_global_remove true (fun _ => 4) example_registry 2).1.cursor =
      { theme := some 201, cursor := some 202, image := some 203, surface := some 204,
        frame_cb := some 205, scale := 1 } := by
  refine ⟨rfl, rfl, rfl, rfl⟩

/-- C16: once the compositor global 1 is removed from `example_registry`, the removal of
the name 99, recorded in no slot, seat or output, changes the state: it tears the cursor
down. The removal of the seat global 4 runs that teardown and the release of the seat. -/
theorem unknown_name_tears_cursor_down :
    name_known (wayland_registry_handle_global_remove true (fun _ => 4)
      example_registry 1).1 99 = false ∧
    wayland_registry_handle_global_remove true (fun _ => 4)
      (wayland_registry_handle_global_remove true (fun _ => 4) example_registry 1).1 99 =
      ({ (wayland_registry_handle_global_remove true (fun _ => 4) example_registry 1).1 with
         cursor := { theme := none, cursor := none, image := none, surface := none,
                     frame_cb := none, scale := 0 } },
       [RegistryCall.wl_callback_destroy 205, RegistryCall.wl_surface_destroy (some 204),
        RegistryCall.wl_cursor_theme_destroy (some 201)]) ∧
    (wayland_registry_handle_global_remove true (fun _ => 4)
      (wayland_registry_handle_global_remove true (fun _ => 4) example_registry 1).1 4).2 =
      [RegistryCall.wl_callback_destroy 205, RegistryCall.wl_surface_destroy (some 204),
       RegistryCall.wl_cursor_theme_destroy (some 201),
       RegistryCall.seat (SeatCall.wl_seat_release 104)] := by
  refine ⟨by decide, by decide, by decide⟩

/-! ## Layer surface: properties -/

theorem to_int32_to_uint32 (x : Int) (h1 : -2 ^ 31 ≤ x) (h2 : x < 2 ^ 31) :
    to_int32 (to_uint32 x) = x := by
  unfold to_int32 to_uint32
  have h : ((x % 2 ^ 32).toNat : Int) = x % 2 ^ 32 :=
    Int.toNat_of_nonneg (Int.emod_nonneg _ (by norm_num))
  rw [h]
  omega

theorem to_uint32_ne_zero (x : Int) (h1 : -2 ^ 31 ≤ x) (h2 : x < 2 ^ 31) (h : x ≠ 0) :
    to_uint32 x ≠ 0 := by
  intro h0
  have := to_int32_to_uint32 x h1 h2
  rw [h0] at this
  have h00 : to_int32 0 = 0 := by unfold to_int32; omega
  rw [h00] at this
  exact h this.symm

/-- C21: for every configure event, the handler records the width and the height of the
event in `layer_width` and `layer_height`, changes nothing else of the context, and makes
exactly one call, the acknowledgement of the serial of the event on the surface of the
event. After configure(serial 1, width 800, height 30) `display_get_surface_dimensions`
succeeds with 800 and 30. -/
theorem configure_records_and_acks (w : wayland_stuff) (surface serial width height : Nat) :
    (wayland_layer_shell_surface_configure w surface serial width height).1 =
      { w with layer_width := width, layer_height := height } ∧
    (wayland_layer_shell_surface_configure w surface serial width height).2 =
      [LayerCall.zwlr_layer_surface_v1_ack_configure (some surface) serial] ∧
    (∀ a b, display_get_surface_dimensions
      (wayland_layer_shell_surface_configure w surface 1 800 30).1 (some a) (some b) =
      (true, some 800, some 30)) := by
  refine ⟨rfl, rfl, ?_⟩
  intro a b
  have h1 : to_int32 800 = 800 := by unfold to_int32; omega
  have h2 : to_int32 30 = 30 := by unfold to_int32; omega
  simp only [display_get_surface_dimensions, wayland_layer_shell_surface_configure, ne_eq,
    OfNat.ofNat_ne_zero, not_false_eq_true, if_true, Option.map_some', h1, h2]

/-- The configure event with serial 1, width 800 and height 30 on the layer surface 2 is
acknowledged with serial 1, once. -/
theorem configure_records_and_acks_witness :
    (wayland_layer_shell_surface_configure layer_wayland 2 1 800 30).2 =
      [LayerCall.zwlr_layer_surface_v1_ack_configure (some 2) 1] ∧
    display_get_surface_dimensions
      (wayland_layer_shell_surface_configure layer_wayland 2 1 800 30).1 (some 0) (some 0) =
      (true, some 800, some 30) :=
  ⟨(configure_records_and_acks layer_wayland 2 1 800 30).2.1,
   (configure_records_and_acks layer_wayland 2 1 800 30).2.2 0 0⟩

/-- C22: from every state of the two surface handles, `wayland_surface_destroy` leaves both
absent, destroys the layer surface if it was present and then the base surface if it was
present, each once, and changes nothing else; a second call changes nothing and makes no
call. -/
theorem surface_destroy_idempotent (w : wayland_stuff) :
    (wayland_surface_destroy w).1 = { w with wlr_surface := none, surface := none } ∧
    (wayland_surface_destroy w).2 =
      (match w.wlr_surface with
        | some wlr_surface => [LayerCall.zwlr_layer_surface_v1_destroy wlr_surface]
        | none => []) ++
      (match w.surface with
        | some surface => [LayerCall.wl_surface_destroy surface]
        | none => []) ∧
    wayland_surface_destroy (wayland_surface_destroy w).1 =
      ((wayland_surface_destroy w).1, []) := by
  obtain ⟨bc, sc, surface, ls, wlr, lw, lh⟩ := w
  cases surface <;> cases wlr <;> simp [wayland_surface_destroy]

/-- The context with layer surface 2 on base surface 1: the first call destroys 2, then 1;
the second call does nothing. -/
theorem surface_destroy_idempotent_witness :
    (wayland_surface_destroy layer_wayland).2 =
      [LayerCall.zwlr_layer_surface_v1_destroy 2, LayerCall.wl_surface_destroy 1] ∧
    wayland_surface_destroy (wayland_surface_destroy layer_wayland).1 =
      ((wayland_surface_destroy layer_wayland).1, []) :=
  ⟨(surface_destroy_idempotent layer_wayland).2.1,
   (surface_destroy_idempotent layer_wayland).2.2⟩

/-- C30: the claim as stated fails for a configure event whose width does not fit an `int`:
after configure(1, 2147483648, 30) the width returned is -2147483648. -/
theorem configure_width_beyond_int :
    display_get_surface_dimensions
      (wayland_layer_shell_surface_configure layer_wayland 2 1 2147483648 30).1
      (some 0) (some 0) = (true, some (-2147483648), some 30) := by
  have h1 : to_int32 2147483648 = -2147483648 := by unfold to_int32; omega
  have h2 : to_int32 30 = 30 := by unfold to_int32; omega
  simp only [display_get_surface_dimensions, wayland_layer_shell_surface_configure, ne_eq,
    OfNat.ofNat_ne_zero, not_false_eq_true, if_true, Option.map_some', h1, h2]

/-- C30, amended: `display_get_surface_dimensions` returns TRUE exactly when the recorded
width is not 0; then each object pointed to receives the recorded value converted to `int`,
and otherwise nothing is written, whatever the recorded height. After
`display_set_surface_dimensions` with a width other than 0 it returns the width and height
that were set; after a configure event with a width other than 0, width and height at most
2147483647, it returns those. -/
theorem get_surface_dimensions_spec (w : wayland_stuff) (width height : Option Int) :
    ((display_get_surface_dimensions w width height).1 = true ↔ w.layer_width ≠ 0) ∧
    (w.layer_width ≠ 0 →
      display_get_surface_dimensions w width height =
        (true, width.map (fun _ => to_int32 w.layer_width),
          height.map (fun _ => to_int32 w.layer_height))) ∧
    (w.layer_width = 0 →
      display_get_surface_dimensions w width height = (false, width, height)) ∧
    (∀ (c : WindowLocation) (wv hv x_margin y_margin loc a b : Int),
      -2 ^ 31 ≤ wv → wv < 2 ^ 31 → -2 ^ 31 ≤ hv → hv < 2 ^ 31 → wv ≠ 0 →
      display_get_surface_dimensions
        (display_set_surface_dimensions c w wv hv x_margin y_margin loc).1 (some a) (some b) =
        (true, some wv, some hv)) ∧
    (∀ (surface serial wv hv : Nat) (a b : Int), wv ≠ 0 → wv < 2 ^ 31 → hv < 2 ^ 31 →
      display_get_surface_dimensions
        (wayland_layer_shell_surface_configure w surface serial wv hv).1 (some a) (some b) =
        (true, some (wv : Int), some (hv : Int))) := by
  refine ⟨?_, ?_, ?_, ?_, ?_⟩
  · by_cases h : w.layer_width = 0 <;> simp [display_get_surface_dimensions, h]
  · intro h
    simp [display_get_surface_dimensions, h]
  · intro h
    simp [display_get_surface_dimensions, h]
  · intro c wv hv x_margin y_margin loc a b h1 h2 h3 h4 h5
    have hne := to_uint32_ne_zero wv h1 h2 h5
    simp only [display_get_surface_dimensions, display_set_surface_dimensions, ne_eq, hne,
      not_false_eq_true, if_true, Option.map_some']
    rw [to_int32_to_uint32 wv h1 h2, to_int32_to_uint32 hv h3 h4]
  · intro surface serial wv hv a b h1 h2 h3
    simp only [display_get_surface_dimensions, wayland_layer_shell_surface_configure, ne_eq,
      h1, not_false_eq_true, if_true, Option.map_some']
    rw [to_int32_of_lt wv h2, to_int32_of_lt hv h3]

/-- With nothing recorded the call fails and leaves 7 and 9 in place; after a configure
event with width 800 and height 30, and after setting 640 by 0, it returns those. -/
theorem get_surface_dimensions_spec_witness :
    display_get_surface_dimensions layer_wayland (some 7) (some 9) = (false, some 7, some 9) ∧
    display_get_surface_dimensions
      (wayland_layer_shell_surface_configure layer_wayland 2 1 800 30).1 (some 7) (some 9) =
      (true, some 800, some 30) ∧
    display_get_surface_dimensions
      (display_set_surface_dimensions rofi_locations layer_wayland 640 0 0 0 0).1
      (some 7) (some 9) = (true, some 640, some 0) :=
  ⟨(get_surface_dimensions_spec layer_wayland (some 7) (some 9)).2.2.1 rfl,
   (get_surface_dimensions_spec layer_wayland (some 7) (some 9)).2.2.2.2 2 1 800 30 7 9
     (by decide) (by decide) (by decide),
   (get_surface_dimensions_spec layer_wayland (some 7) (some 9)).2.2.2.1 rofi_locations
     640 0 0 0 0 7 9 (by decide) (by decide) (by decide) (by decide) (by decide)⟩

/-! ## Key repeat: cancellation and expiry without a view -/

/-- C24: where the code departs from the claim. In `keyboard_stale`, the state reached
from `keyboard_start` when key 30 is pressed with view 1 and timer 7 expires while no view
is active, `repeat.source` holds the freed source 7. A repeat-info event there makes
`wayland_keyboard_repeat_info` call `g_source_destroy` on source 7, and the release of
keyboard 50 makes `wayland_keyboard_release` do the same: a use after free on both
cancellation paths. -/
theorem cancellation_destroys_freed_source :
    keyboard_run keyboard_start
      [keyboard_event.key (some 1) none 3 0 30 WL_KEYBOARD_KEY_STATE_PRESSED,
       keyboard_event.timer 7 none none] = some keyboard_stale ∧
    source_attached keyboard_stale = false ∧
    (wayland_keyboard_repeat_info keyboard_stale.self 25 500).2 =
      [SeatCall.g_source_destroy 7] ∧
    keyboard_step keyboard_stale (keyboard_event.repeat_info 25 500) = none ∧
    (wayland_keyboard_release keyboard_stale.self).2 =
      [SeatCall.wl_keyboard_release 50, SeatCall.g_source_destroy 7] ∧
    keyboard_step keyboard_stale keyboard_event.keyboard_release = none := by
  refine ⟨by decide, by decide, by decide, by decide, by decide, by decide⟩

/-- C28: in every keyboard state in which an attached timer is the stored one, when an
attached timer, in the delay or in the rate stage, expires with a repeat key other than 0
while no view is active, the bindings receive one press of the repeat key and nothing else
is called; no timer is attached afterwards and none was armed; the seat is unchanged, so
the repeat key is as before and the stored source is still the expired one, which is no
longer attached. -/
theorem timer_fires_without_view (s : keyboard_state) (hinv : keyboard_inv s) (source : Nat)
    (cb : repeat_callback) (text : Option String) (hlive : (source, cb) ∈ s.timers)
    (hkey : s.self.repeat_.key ≠ 0) :
    ∃ t, keyboard_step s (keyboard_event.timer source none text) = some t ∧
      t.calls = s.calls ++
        [SeatCall.nk_bindings_seat_handle_key s.self.repeat_.key NkBindingsKeyState.PRESS] ∧
      t.timers = [] ∧
      t.next_id = s.next_id ∧
      t.self = s.self ∧
      t.wayland = s.wayland ∧
      t.self.repeat_.source = some source ∧
      (∀ x ∈ t.timers, x.1 ≠ source) ∧
      source_attached t = false := by
  obtain ⟨h1, h2⟩ := timer_without_view s hinv source cb text hlive hkey
  refine ⟨_, h1, rfl, rfl, rfl, rfl, rfl, h2, ?_, ?_⟩
  · intro x hx
    simp at hx
  · simp [source_attached, h2]

/-- Key 30 pressed with view 1 on `keyboard_start` arms the delay timer 7. Its expiry while
no view is active sends one more press of keycode 38, leaves no timer attached, and the
stored source is still 7. -/
theorem timer_fires_without_view_witness :
    keyboard_inv keyboard_pressed ∧
    ∃ t, keyboard_step keyboard_pressed (keyboard_event.timer 7 none none) = some t ∧
      key_presses t.calls = [38, 38] ∧ t.timers = [] ∧ t.self.repeat_.source = some 7 := by
  have hinv : keyboard_inv keyboard_pressed := by
    simp [keyboard_inv, keyboard_pressed]
  obtain ⟨t, h1, h2, h3, -, h5, -, h7, -⟩ := timer_fires_without_view keyboard_pressed hinv 7
    repeat_callback.wayland_key_repeat_delay none (by decide) (by decide)
  refine ⟨hinv, t, h1, ?_, h3, ?_⟩
  · rw [h2]
    decide
  · rw [h5] at h7 ⊢
    rfl

/-! ## Buffer selection and pointer frames: frame properties -/

theorem released_map (f : wayland_buffer → wayland_buffer)
    (hf : ∀ b, b.released = true → (f b).released = true) (bs : List wayland_buffer) (i : Nat)
    (b : wayland_buffer) (h : bs[i]? = some b) (hb : b.released = true) :
    ∃ c, (bs.map f)[i]? = some c ∧ c.released = true :=
  ⟨f b, by simp [List.getElem?_map, h], hf b hb⟩

theorem cleanup_buffer_released (b : wayland_buffer) (hb : b.released = true) :
    (wayland_buffer_cleanup_buffer b).1.released = true := by
  rw [cleanup_buffer_fst]
  simp [hb]

theorem release_buffer_released (buffer : Nat) (b : wayland_buffer) (hb : b.released = true) :
    (wayland_buffer_release_buffer buffer b).released = true := by
  unfold wayland_buffer_release_buffer
  split
  · rfl
  · exact hb

theorem cleanup_released (w : wayland_stuff) (p : wayland_buffer_pool) (i : Nat)
    (b : wayland_buffer) (h : p.buffers[i]? = some b) (hb : b.released = true) :
    ∃ c, (wayland_buffer_cleanup w p).1.buffers[i]? = some c ∧ c.released = true := by
  rw [cleanup_pool]
  by_cases ht : p.to_free = true
  · simp only [ht, if_true]
    exact released_map _ cleanup_buffer_released _ i b h hb
  · simp only [ht]
    exact ⟨b, h, hb⟩

/-- C25: `display_buffer_pool_get_next_buffer` leaves the pool and the calls made as they
are, so any number of consecutive calls select the same drawable. Once the selected
drawable is presented on a surface, its buffer is no longer released and the next call
does not select it. Every event other than a presentation keeps a released buffer
released. -/
theorem get_next_buffer_frame (w : wayland_stuff) (env : shm_env) (s : pool_state) :
    pool_step w s pool_event.get_next_buffer = s ∧
    (∀ n, pool_run w s (List.replicate n pool_event.get_next_buffer) = s) ∧
    (∀ n, display_buffer_pool_get_next_buffer env
      (pool_run w s (List.replicate n pool_event.get_next_buffer)).pool =
      display_buffer_pool_get_next_buffer env s.pool) ∧
    (∀ surface wl_surface, w.surface = some wl_surface →
      display_buffer_pool_get_next_buffer env s.pool = some surface →
      (∃ b, s.pool.buffers[surface.user_data]? = some b ∧ b.released = true ∧
        (display_surface_commit w s.pool (some surface)).1.buffers[surface.user_data]? =
          some { b with released := false }) ∧
      ∀ next, display_buffer_pool_get_next_buffer env
        (display_surface_commit w s.pool (some surface)).1 = some next →
        next.user_data ≠ surface.user_data) ∧
    (∀ e, is_surface_commit e = false →
      ∀ (i : Nat) (b : wayland_buffer), s.pool.buffers[i]? = some b → b.released = true →
      ∃ c, (pool_step w s e).pool.buffers[i]? = some c ∧ c.released = true) := by
  have hstep : pool_step w s pool_event.get_next_buffer = s := by
    unfold pool_step
    split <;> rfl
  have hrun : ∀ n, pool_run w s (List.replicate n pool_event.get_next_buffer) = s := by
    intro n
    induction n with
    | zero => rfl
    | succ n ih =>
      rw [List.replicate_succ]
      show pool_run w (pool_step w s pool_event.get_next_buffer) _ = s
      rw [hstep]
      exact ih
  have hsel : ∀ (p : wayland_buffer_pool) (x : cairo_surface_t),
      display_buffer_pool_get_next_buffer env p = some x →
      ∃ b, p.buffers[x.user_data]? = some b ∧ b.released = true := by
    intro p x hx
    unfold display_buffer_pool_get_next_buffer at hx
    cases hs : get_next_buffer_scan p.buffers 0 with
    | none => simp [hs] at hx
    | some j =>
      obtain ⟨k, b, hj, hk, hr, -⟩ := scan_some _ _ _ hs
      have hjk : j = k := by omega
      subst hjk
      simp only [hs, hk, Option.some.injEq] at hx
      subst hx
      exact ⟨b, hk, hr⟩
  refine ⟨hstep, hrun, fun n => by rw [hrun n], ?_, ?_⟩
  · intro surface wl_surface hw hsome
    obtain ⟨b, hb, hr⟩ := hsel _ _ hsome
    have hlt : surface.user_data < s.pool.buffers.length := by
      rcases List.getElem?_eq_some_iff.1 hb with ⟨h, -⟩
      exact h
    have hcommit : (display_surface_commit w s.pool (some surface)).1.buffers[
        surface.user_data]? = some { b with released := false } := by
      simp only [display_surface_commit, hw, hb]
      simp [List.getElem?_set, hlt]
    refine ⟨⟨b, hb, hr, hcommit⟩, ?_⟩
    intro next hnext heq
    obtain ⟨c, hc, hcr⟩ := hsel _ _ hnext
    rw [heq, hcommit] at hc
    simp only [Option.some.injEq] at hc
    rw [← hc] at hcr
    simp at hcr
  · intro e he i b hb hr
    unfold pool_step
    split
    · exact ⟨b, hb, hr⟩
    · cases e with
      | get_next_buffer => exact ⟨b, hb, hr⟩
      | surface_commit surface => simp [is_surface_commit] at he
      | buffer_release buffer =>
        simp only [wayland_buffer_release]
        obtain ⟨c, hc, hcr⟩ := released_map (wayland_buffer_release_buffer buffer)
          (release_buffer_released buffer) _ i b hb hr
        exact cleanup_released w _ i c hc hcr
      | pool_free =>
        simp only [display_buffer_pool_free]
        exact cleanup_released w _ i b hb hr

/-- On the example pool two consecutive calls select buffer 0; once it is presented the
next call selects buffer 1. -/
theorem get_next_buffer_frame_witness :
    display_buffer_pool_get_next_buffer example_env
      (pool_run example_wayland ⟨example_pool, []⟩
        (List.replicate 1 pool_event.get_next_buffer)).pool =
      some ⟨4096, 200, 40, 800, 0⟩ ∧
    ∀ next, display_buffer_pool_get_next_buffer example_env
      (display_surface_commit example_wayland example_pool
        (some ⟨4096, 200, 40, 800, 0⟩)).1 = some next → next.user_data ≠ 0 :=
  ⟨((get_next_buffer_frame example_wayland example_env ⟨example_pool, []⟩).2.2.1 1).trans
      (by decide),
   ((get_next_buffer_frame example_wayland example_env ⟨example_pool, []⟩).2.2.2.1
      ⟨4096, 200, 40, 800, 0⟩ 1 rfl (by decide)).2⟩

theorem listener_keeps_motion (hover_select : Bool) (s : pointer_state) (e : pointer_event)
    (h1 : is_motion e = false) (h2 : is_active_frame e = false) :
    (wayland_pointer_listener hover_select s e).self.motion = s.self.motion ∧
    (wayland_pointer_listener hover_select s e).calls = s.calls := by
  cases e with
  | motion time x y => simp [is_motion] at h1
  | button serial time button state => exact ⟨rfl, rfl⟩
  | axis time axis value =>
    simp only [wayland_pointer_listener, wayland_pointer_axis]
    split_ifs <;> simp
  | frame state =>
    cases state with
    | none => simp [wayland_pointer_listener, wayland_pointer_send_events]
    | some view => simp [is_active_frame] at h2
  | axis_source axis_source => exact ⟨rfl, rfl⟩
  | axis_stop time axis => exact ⟨rfl, rfl⟩
  | axis_discrete axis discrete =>
    simp only [wayland_pointer_listener, wayland_pointer_axis_discrete]
    split_ifs <;> simp
  | axis_value120 axis value120 =>
    simp only [wayland_pointer_listener, wayland_pointer_axis120]
    split_ifs <;> simp

theorem run_keeps_motion (hover_select : Bool) (es : List pointer_event) (s : pointer_state)
    (h : ∀ e ∈ es, is_motion e = false ∧ is_active_frame e = false) :
    (pointer_run hover_select s es).self.motion = s.self.motion ∧
    (pointer_run hover_select s es).calls = s.calls := by
  induction es generalizing s with
  | nil => exact ⟨rfl, rfl⟩
  | cons e es ih =>
    have he := h e (List.mem_cons_self _ _)
    have hs := listener_keeps_motion hover_select s e he.1 he.2
    have := ih (wayland_pointer_listener hover_select s e)
      (fun x hx => h x (List.mem_cons_of_mem _ hx))
    exact ⟨this.1.trans hs.1, this.2.trans hs.2⟩

theorem send_events_button_motion (self : wayland_seat) :
    (send_events_button self).1.motion = self.motion := by
  unfold send_events_button
  simp only
  split <;> rfl

theorem send_events_continuous_motion (self : wayland_seat) :
    (send_events_continuous self).motion = self.motion := by
  unfold send_events_continuous
  split <;> rfl

/-- A frame handled with an active view on a seat whose staged motion is (0, 0) first
dispatches the motion (0, 0) and leaves (-1, -1) staged. -/
theorem send_events_zero_motion (view : Nat) (hover_select : Bool) (self : wayland_seat)
    (hx : self.motion.x = 0) (hy : self.motion.y = 0) :
    (wayland_pointer_send_events (some view) hover_select self).2.head? =
      some (InputCall.rofi_view_handle_mouse_motion 0 0 hover_select) ∧
    (wayland_pointer_send_events (some view) hover_select self).1.motion.x = -1 ∧
    (wayland_pointer_send_events (some view) hover_select self).1.motion.y = -1 := by
  have hm : send_events_motion hover_select self =
      ({ self with motion := { self.motion with x := -1, y := -1 } },
       [InputCall.rofi_view_handle_mouse_motion 0 0 hover_select]) := by
    simp [send_events_motion, hx, hy]
  simp only [wayland_pointer_send_events, hm, send_events_continuous_motion,
    send_events_button_motion]
  simp

/-- A seat whose staged motion is (0, 0): it stays so through events that are neither a
motion nor a frame handled with an active view, and the first such frame dispatches it. -/
theorem first_frame_zero_motion (hover_select : Bool) (w : wayland_stuff) (seat : wayland_seat)
    (es : List pointer_event) (view : Nat) (hm : seat.motion = { x := 0, y := 0, time := 0 })
    (hes : ∀ e ∈ es, is_motion e = false ∧ is_active_frame e = false) :
    (pointer_run hover_select ⟨w, seat, []⟩ es).self.motion = { x := 0, y := 0, time := 0 } ∧
    (pointer_run hover_select ⟨w, seat, []⟩ es).calls = [] ∧
    (pointer_run hover_select ⟨w, seat, []⟩
      (es ++ [pointer_event.frame (some view)])).calls.head? =
      some (InputCall.rofi_view_handle_mouse_motion 0 0 hover_select) ∧
    (pointer_run hover_select ⟨w, seat, []⟩
      (es ++ [pointer_event.frame (some view)])).self.motion.x = -1 ∧
    (pointer_run hover_select ⟨w, seat, []⟩
      (es ++ [pointer_event.frame (some view)])).self.motion.y = -1 := by
  have hk := run_keeps_motion hover_select es ⟨w, seat, []⟩ hes
  have hk1 : (pointer_run hover_select ⟨w, seat, []⟩ es).self.motion =
      { x := 0, y := 0, time := 0 } := hk.1.trans hm
  have hk2 : (pointer_run hover_select ⟨w, seat, []⟩ es).calls = [] := hk.2
  have hz := send_events_zero_motion view hover_select
    (pointer_run hover_select ⟨w, seat, []⟩ es).self (by rw [hk1]) (by rw [hk1])
  refine ⟨hk1, hk2, ?_, ?_, ?_⟩
  · rw [pointer_run_append]
    show (_ ++ (wayland_pointer_send_events (some view) hover_select _).2).head? = _
    rw [hk2]
    exact hz.1
  · rw [pointer_run_append]
    exact hz.2.1
  · rw [pointer_run_append]
    exact hz.2.2

/-- C26: the seat made for a newly advertised `wl_seat` global is zero-initialised, so its
staged motion is (0, 0). Through every sequence of pointer events without a motion and
without a frame handled with an active view the staged motion stays (0, 0) and nothing is
dispatched; the first frame handled with an active view then dispatches, as its first
call, a mouse motion at (0, 0), and leaves (-1, -1) staged. -/
theorem new_seat_first_frame (have_cursor_shape : Bool) (v : interface_versions)
    (r : wayland_registry) (name version proxy : Nat)
    (hv : ¬ version < v.WL_SEAT_INTERFACE_MIN_VERSION) :
    (wayland_registry_handle_global have_cursor_shape v r name wl_interface.wl_seat version
      proxy).map (fun x => x.1.seats) =
      some (r.seats ++ [{ zero_seat with global_name := name, seat := proxy }]) ∧
    ({ zero_seat with global_name := name, seat := proxy } : wayland_seat).motion =
      { x := 0, y := 0, time := 0 } ∧
    ∀ (hover_select : Bool) (w : wayland_stuff) (es : List pointer_event) (view : Nat),
      (∀ e ∈ es, is_motion e = false ∧ is_active_frame e = false) →
      (pointer_run hover_select ⟨w, { zero_seat with global_name := name, seat := proxy }, []⟩
        es).self.motion = { x := 0, y := 0, time := 0 } ∧
      (pointer_run hover_select ⟨w, { zero_seat with global_name := name, seat := proxy }, []⟩
        es).calls = [] ∧
      (pointer_run hover_select ⟨w, { zero_seat with global_name := name, seat := proxy }, []⟩
        (es ++ [pointer_event.frame (some view)])).calls.head? =
        some (InputCall.rofi_view_handle_mouse_motion 0 0 hover_select) ∧
      (pointer_run hover_select ⟨w, { zero_seat with global_name := name, seat := proxy }, []⟩
        (es ++ [pointer_event.frame (some view)])).self.motion.x = -1 ∧
      (pointer_run hover_select ⟨w, { zero_seat with global_name := name, seat := proxy }, []⟩
        (es ++ [pointer_event.frame (some view)])).self.motion.y = -1 := by
  refine ⟨?_, rfl, ?_⟩
  · simp [wayland_registry_handle_global, hv]
  · intro hover_select w es view hes
    exact first_frame_zero_motion hover_select w _ es view rfl hes

/-- A `wl_seat` global 4 advertised at version 7: the seat made for it, after an axis
source event only, receives a frame with view 1: the view gets a motion at (0, 0). -/
theorem new_seat_first_frame_witness :
    (wayland_registry_handle_global true example_versions empty_registry 4
      wl_interface.wl_seat 7 104).map (fun x => x.1.seats) = some [new_seat] ∧
    (pointer_run true ⟨example_wayland, new_seat, []⟩
      ([pointer_event.axis_source 0] ++ [pointer_event.frame (some 1)])).calls.head? =
      some (InputCall.rofi_view_handle_mouse_motion 0 0 true) :=
  ⟨(new_seat_first_frame true example_versions empty_registry 4 7 104 (by decide)).1,
   ((new_seat_first_frame true example_versions empty_registry 4 7 104 (by decide)).2.2
      true example_wayland [pointer_event.axis_source 0] 1 (by decide)).2.2.1⟩

/-- C27: a pointer frame handled while no view is active dispatches nothing and leaves the
seat, with all that is staged on it, the context and the calls made as they are; hence a
run of events gives the same result with and without such frames at its start, and the
next frame handled with an active view dispatches what was staged. -/
theorem frame_without_view (hover_select : Bool) (s : pointer_state) :
    wayland_pointer_send_events none hover_select s.self = (s.self, []) ∧
    wayland_pointer_listener hover_select s (pointer_event.frame none) = s ∧
    (∀ n es, pointer_run hover_select s
      (List.replicate n (pointer_event.frame none) ++ es) = pointer_run hover_select s es) ∧
    (∀ view, pointer_run hover_select s
      [pointer_event.frame none, pointer_event.frame (some view)] =
      wayland_pointer_listener hover_select s (pointer_event.frame (some view))) := by
  have h1 : wayland_pointer_listener hover_select s (pointer_event.frame none) = s := by
    simp [wayland_pointer_listener, wayland_pointer_send_events]
  refine ⟨rfl, h1, ?_, ?_⟩
  · intro n es
    induction n with
    | zero => rfl
    | succ n ih =>
      rw [List.replicate_succ, List.cons_append]
      show pointer_run hover_select
        (wayland_pointer_listener hover_select s (pointer_event.frame none)) _ = _
      rw [h1]
      exact ih
  · intro view
    simp only [pointer_run, List.foldl, h1]

/-- The seat with a staged motion to (5, 5) and a staged press of the left button: a frame
without a view leaves it as it is, and the frame with view 0 that follows dispatches the
two motion calls and the button. -/
theorem frame_without_view_witness :
    (wayland_pointer_listener true ⟨example_wayland, pressed_seat, []⟩
      (pointer_event.frame none)).self = pressed_seat ∧
    (pointer_run true ⟨example_wayland, pressed_seat, []⟩
      [pointer_event.frame none, pointer_event.frame (some 0)]).calls =
      [InputCall.rofi_view_handle_mouse_motion 5 5 true,
       InputCall.rofi_view_handle_mouse_motion 5 5 false,
       InputCall.nk_bindings_seat_handle_button NkBindingsMouseButton.PRIMARY
         NkBindingsButtonState.PRESS 101,
       InputCall.rofi_view_maybe_update] :=
  ⟨by rw [(frame_without_view true ⟨example_wayland, pressed_seat, []⟩).2.1],
   by rw [(frame_without_view true ⟨example_wayland, pressed_seat, []⟩).2.2.2 0]; decide⟩

/-! ## Clipboard: properties -/

theorem block_store_some (block : List (Option Nat)) (offset : Nat) (data : List Nat)
    (h : offset + data.length ≤ block.length) :
    ∃ stored, block_store block offset data = some stored ∧
      stored.length = block.length ∧
      stored.take (offset + data.length) = block.take offset ++ data.map some := by
  refine ⟨_, if_pos h, ?_, ?_⟩
  · simp only [List.length_append, List.length_take, List.length_map, List.length_drop]
    omega
  · have hl : (block.take offset ++ data.map some).length = offset + data.length := by
      simp only [List.length_append, List.length_take, List.length_map]
      omega
    rw [← hl, List.take_left']
    rfl

/-- A would-block answer and a read of at most 1024 bytes keep `clipboard_inv`, make no
call and keep the watch. -/
theorem clipboard_read_inv (data : List Nat) (info : clipboard_read_info)
    (hinv : clipboard_inv data info) (status : GIOStatus) (hread : is_read status = true)
    (hsize : (data ++ chunks [status]).length + CLIPBOARD_READ_INCREMENT < 2 ^ 64) :
    ∃ info2, clipboard_read_glib_callback info status = some (some info2, [], true) ∧
      clipboard_inv (data ++ chunks [status]) info2 ∧
      info2.fd = info.fd ∧ info2.callback = info.callback ∧
      info2.user_data = info.user_data := by
  obtain ⟨h1, h2, h3⟩ := hinv
  cases status with
  | G_IO_STATUS_ERROR => simp [is_read] at hread
  | G_IO_STATUS_EOF => simp [is_read] at hread
  | G_IO_STATUS_AGAIN =>
    refine ⟨info, rfl, ?_, rfl, rfl, rfl⟩
    simp only [chunks, List.append_nil]
    exact ⟨h1, h2, h3⟩
  | G_IO_STATUS_NORMAL chunk =>
    simp only [is_read, decide_eq_true_eq] at hread
    simp only [chunks, List.append_nil, List.length_append] at hsize ⊢
    obtain ⟨stored, hs, hlen, htake⟩ := block_store_some info.buffer info.size chunk
      (by rw [h2]; omega)
    have hsz : (info.size + chunk.length) % 2 ^ 64 = info.size + chunk.length :=
      Nat.mod_eq_of_lt (by unfold CLIPBOARD_READ_INCREMENT at hsize; omega)
    have hn : (info.size + chunk.length + CLIPBOARD_READ_INCREMENT) % 2 ^ 64 =
        info.size + chunk.length + CLIPBOARD_READ_INCREMENT :=
      Nat.mod_eq_of_lt (by omega)
    have hne : info.size + chunk.length + CLIPBOARD_READ_INCREMENT ≠ 0 := by
      unfold CLIPBOARD_READ_INCREMENT
      omega
    have hge : stored.length ≤ info.size + chunk.length + CLIPBOARD_READ_INCREMENT := by
      rw [hlen, h2]
      omega
    refine ⟨{ info with
        buffer := stored ++ List.replicate
          (info.size + chunk.length + CLIPBOARD_READ_INCREMENT - stored.length) none
        size := info.size + chunk.length }, ?_, ⟨?_, ?_, ?_⟩, rfl, rfl, rfl⟩
    · simp only [clipboard_read_glib_callback, hs, hsz, hn, g_realloc, hne, if_false,
        List.take_of_length_le hge]
    · simp only [List.length_append]
      omega
    · simp only [List.length_append, List.length_replicate]
      omega
    · show (stored ++ _).take (info.size + chunk.length) = _
      rw [List.take_append_of_le_length (by rw [hlen, h2]; omega), htake, h3, List.map_append]

/-- A sequence of would-block answers and reads of at most 1024 bytes keeps
`clipboard_inv` and the watch, and adds no call. -/
theorem clipboard_run_reads (reads : List GIOStatus) (data : List Nat)
    (info : clipboard_read_info) (calls : List ClipboardCall) (hinv : clipboard_inv data info)
    (hreads : ∀ e ∈ reads, is_read e = true)
    (hsize : (data ++ chunks reads).length + CLIPBOARD_READ_INCREMENT < 2 ^ 64)
    (rest : List GIOStatus) :
    ∃ info2, clipboard_run ⟨some info, calls⟩ (reads ++ rest) =
        clipboard_run ⟨some info2, calls⟩ rest ∧
      clipboard_inv (data ++ chunks reads) info2 ∧
      info2.fd = info.fd ∧ info2.callback = info.callback ∧
      info2.user_data = info.user_data := by
  induction reads generalizing data info with
  | nil =>
    refine ⟨info, rfl, ?_, rfl, rfl, rfl⟩
    simpa [chunks] using hinv
  | cons e es ih =>
    have hsplit : chunks (e :: es) = chunks [e] ++ chunks es := by
      cases e <;> simp [chunks]
    rw [hsplit, ← List.append_assoc] at hsize ⊢
    have hsz1 : (data ++ chunks [e]).length + CLIPBOARD_READ_INCREMENT < 2 ^ 64 := by
      simp only [List.length_append] at hsize ⊢
      omega
    obtain ⟨info1, hc, hinv1, hf, hcb, hud⟩ := clipboard_read_inv data info hinv e
      (hreads e (List.mem_cons_self _ _)) hsz1
    obtain ⟨info2, hrun, hinv2, hf2, hcb2, hud2⟩ := ih (data ++ chunks [e]) info1 hinv1
      (fun x hx => hreads x (List.mem_cons_of_mem _ hx)) hsize
    refine ⟨info2, ?_, hinv2, hf2.trans hf, hcb2.trans hcb, hud2.trans hud⟩
    rw [← hrun]
    simp [clipboard_run, clipboard_step, hc]

/-- The info installed by `clipboard_read_data` satisfies `clipboard_inv` with no byte
read. -/
theorem clipboard_read_data_inv (fd : Int) (callback user_data : Nat) :
    clipboard_inv []
      { buffer := List.replicate CLIPBOARD_READ_INCREMENT none, size := 0, fd := fd,
        callback := callback, user_data := user_data } := by
  simp [clipboard_inv]

/-- Once the watch has ended no answer changes anything. -/
theorem clipboard_run_ended (calls : List ClipboardCall) (later : List GIOStatus) :
    clipboard_run ⟨none, calls⟩ later = some ⟨none, calls⟩ := by
  induction later with
  | nil => rfl
  | cons e es ih => simpa [clipboard_run, clipboard_step] using ih

/-- The terminal answer on an info that satisfies `clipboard_inv`: the NUL store is within
the buffer; end of stream calls the callback once with a block that starts with the data
and a NUL, an error frees the buffer and does not call it; the watch ends. -/
theorem clipboard_finish (data : List Nat) (info : clipboard_read_info)
    (hinv : clipboard_inv data info) (eof : Bool) :
    ∃ buffer, block_store info.buffer info.size [0] = some buffer ∧
      buffer.take (data.length + 1) = (data ++ [0]).map some ∧
      clipboard_read_finish info eof =
        some (none,
          (if eof then [ClipboardCall.callback info.callback buffer info.user_data]
           else [ClipboardCall.g_warning, ClipboardCall.g_free_buffer]) ++
          [ClipboardCall.g_io_channel_shutdown, ClipboardCall.g_io_channel_unref,
           ClipboardCall.close info.fd, ClipboardCall.g_free_info],
          false) := by
  obtain ⟨h1, h2, h3⟩ := hinv
  obtain ⟨stored, hs, -, htake⟩ := block_store_some info.buffer info.size [0]
    (by rw [h2]; simp [CLIPBOARD_READ_INCREMENT])
  refine ⟨stored, hs, ?_, ?_⟩
  · rw [← h1, List.map_append, ← h3]
    exact htake
  · simp only [clipboard_read_finish, hs]

/-- What `wayland_get_clipboard_data` installs when the clipboard has an offer and the pipe
and the allocations succeed. -/
theorem clipboard_begin_eq (offer : Nat) (fds : Int × Int) (cb_type : clipboard_type)
    (callback user_data : Nat) :
    clipboard_begin offer fds cb_type callback user_data =
      ⟨some { buffer := List.replicate CLIPBOARD_READ_INCREMENT none, size := 0, fd := fds.1,
              callback := callback, user_data := user_data },
       [if cb_type = clipboard_type.CLIPBOARD_DEFAULT then
          ClipboardCall.wl_data_offer_receive offer "text/plain" fds.2
        else ClipboardCall.zwp_primary_selection_offer_v1_receive offer "text/plain" fds.2,
        ClipboardCall.close fds.2, ClipboardCall.g_io_channel_unix_new fds.1,
        ClipboardCall.g_io_add_watch]⟩ := by
  simp [clipboard_begin, wayland_get_clipboard_data, clipboard_read_data]

theorem callback_calls_begin (offer : Nat) (fds : Int × Int) (cb_type : clipboard_type)
    (callback user_data : Nat) (tail : List ClipboardCall) :
    callback_calls ((clipboard_begin offer fds cb_type callback user_data).calls ++ tail) =
      callback_calls tail := by
  rw [clipboard_begin_eq]
  cases cb_type <;> simp [callback_calls, List.filter]

/-- C23: after `wayland_get_clipboard_data` on a clipboard with an offer, with the pipe and
the allocations successful, for every sequence of would-block answers and reads of at most
1024 bytes each (fewer than 2^64 - 1024 bytes in all) followed by a terminal answer and by
any later answers: on end of stream the caller's callback is called exactly once, with its
argument and a block that starts with the bytes read, in order, followed by a NUL; on a
read error it is not called and the buffer is freed. In both cases the watch ends and the
channel and the descriptor are closed. -/
theorem clipboard_read_delivers (offer : Nat) (fds : Int × Int) (cb_type : clipboard_type)
    (callback user_data : Nat) (reads later : List GIOStatus)
    (hreads : ∀ e ∈ reads, is_read e = true)
    (hsize : (chunks reads).length + CLIPBOARD_READ_INCREMENT < 2 ^ 64) :
    (∃ buffer,
      clipboard_run (clipboard_begin offer fds cb_type callback user_data)
        (reads ++ GIOStatus.G_IO_STATUS_EOF :: later) =
        some ⟨none, (clipboard_begin offer fds cb_type callback user_data).calls ++
          [ClipboardCall.callback callback buffer user_data,
           ClipboardCall.g_io_channel_shutdown, ClipboardCall.g_io_channel_unref,
           ClipboardCall.close fds.1, ClipboardCall.g_free_info]⟩ ∧
      buffer.take ((chunks reads).length + 1) = (chunks reads ++ [0]).map some ∧
      callback_calls ((clipboard_begin offer fds cb_type callback user_data).calls ++
          [ClipboardCall.callback callback buffer user_data,
           ClipboardCall.g_io_channel_shutdown, ClipboardCall.g_io_channel_unref,
           ClipboardCall.close fds.1, ClipboardCall.g_free_info]) =
        [ClipboardCall.callback callback buffer user_data]) ∧
    clipboard_run (clipboard_begin offer fds cb_type callback user_data)
      (reads ++ GIOStatus.G_IO_STATUS_ERROR :: later) =
      some ⟨none, (clipboard_begin offer fds cb_type callback user_data).calls ++
        [ClipboardCall.g_warning, ClipboardCall.g_free_buffer,
         ClipboardCall.g_io_channel_shutdown, ClipboardCall.g_io_channel_unref,
         ClipboardCall.close fds.1, ClipboardCall.g_free_info]⟩ ∧
    callback_calls ((clipboard_begin offer fds cb_type callback user_data).calls ++
        [ClipboardCall.g_warning, ClipboardCall.g_free_buffer,
         ClipboardCall.g_io_channel_shutdown, ClipboardCall.g_io_channel_unref,
         ClipboardCall.close fds.1, ClipboardCall.g_free_info]) = [] := by
  have hb := clipboard_begin_eq offer fds cb_type callback user_data
  have hstart : clipboard_begin offer fds cb_type callback user_data =
      ⟨some { buffer := List.replicate CLIPBOARD_READ_INCREMENT none, size := 0, fd := fds.1,
              callback := callback, user_data := user_data },
       (clipboard_begin offer fds cb_type callback user_data).calls⟩ := by
    rw [hb]
  have hrun := fun rest => clipboard_run_reads reads []
    { buffer := List.replicate CLIPBOARD_READ_INCREMENT none, size := 0, fd := fds.1,
      callback := callback, user_data := user_data }
    (clipboard_begin offer fds cb_type callback user_data).calls
    (clipboard_read_data_inv fds.1 callback user_data) hreads (by simpa using hsize) rest
  refine ⟨?_, ?_, ?_⟩
  · obtain ⟨info2, hr, hinv, hf, hcb, hud⟩ := hrun (GIOStatus.G_IO_STATUS_EOF :: later)
    simp only [List.nil_append] at hinv
    obtain ⟨buffer, -, htake, hfin⟩ := clipboard_finish _ info2 hinv true
    simp only at hf hcb hud
    rw [hf, hcb, hud] at hfin
    refine ⟨buffer, ?_, htake, ?_⟩
    · rw [hstart, hr]
      simp only [clipboard_run, clipboard_step, clipboard_read_glib_callback, hfin, if_true]
      exact clipboard_run_ended _ later
    · rw [callback_calls_begin]
      simp [callback_calls, List.filter]
  · obtain ⟨info2, hr, hinv, hf, hcb, hud⟩ := hrun (GIOStatus.G_IO_STATUS_ERROR :: later)
    simp only [List.nil_append] at hinv
    obtain ⟨buffer, -, -, hfin⟩ := clipboard_finish _ info2 hinv false
    simp only at hf hcb hud
    rw [hf] at hfin
    rw [hstart, hr]
    simp only [clipboard_run, clipboard_step, clipboard_read_glib_callback, hfin]
    exact clipboard_run_ended _ later
  · rw [callback_calls_begin]
    simp [callback_calls, List.filter]

/-- The bytes of "hel", a would-block answer, the bytes of "lo" and the end of the stream
on `clipboard_start`: the callback 9 is called once, with a block that starts with the
bytes of "hello" and a NUL. -/
theorem clipboard_read_delivers_witness :
    ∃ buffer,
      callback_calls (clipboard_start.calls ++
          [ClipboardCall.callback 9 buffer 8,
           ClipboardCall.g_io_channel_shutdown, ClipboardCall.g_io_channel_unref,
           ClipboardCall.close 5, ClipboardCall.g_free_info]) =
        [ClipboardCall.callback 9 buffer 8] ∧
      clipboard_run clipboard_start
        ([GIOStatus.G_IO_STATUS_NORMAL [104, 101, 108], GIOStatus.G_IO_STATUS_AGAIN,
          GIOStatus.G_IO_STATUS_NORMAL [108, 111]] ++ GIOStatus.G_IO_STATUS_EOF :: []) =
        some ⟨none, clipboard_start.calls ++
          [ClipboardCall.callback 9 buffer 8,
           ClipboardCall.g_io_channel_shutdown, ClipboardCall.g_io_channel_unref,
           ClipboardCall.close 5, ClipboardCall.g_free_info]⟩ ∧
      buffer.take 6 = [some 104, some 101, some 108, some 108, some 111, some 0] := by
  obtain ⟨buffer, h1, h2, h3⟩ := (clipboard_read_delivers 300 (5, 6)
    clipboard_type.CLIPBOARD_DEFAULT 9 8
    [GIOStatus.G_IO_STATUS_NORMAL [104, 101, 108], GIOStatus.G_IO_STATUS_AGAIN,
      GIOStatus.G_IO_STATUS_NORMAL [108, 111]] []
    (by simp [is_read, CLIPBOARD_READ_INCREMENT])
    (by simp [chunks, CLIPBOARD_READ_INCREMENT])).1
  exact ⟨buffer, h3, h1, by simpa [chunks] using h2⟩

/-- C29: after `wayland_get_clipboard_data` has installed the watch, for every sequence of
would-block answers and reads of at most 1024 bytes each (fewer than 2^64 - 1024 bytes in
all), no store has been outside the buffer, and the info the next invocation of the watch
callback finds has `size` equal to the number of bytes read and a buffer of `size + 1024`
bytes; so a read of at most 1024 bytes at offset `size` and the NUL store at index `size`
are within the buffer. -/
theorem clipboard_buffer_bound (offer : Nat) (fds : Int × Int) (cb_type : clipboard_type)
    (callback user_data : Nat) (reads : List GIOStatus)
    (hreads : ∀ e ∈ reads, is_read e = true)
    (hsize : (chunks reads).length + CLIPBOARD_READ_INCREMENT < 2 ^ 64) :
    ∃ info,
      clipboard_run (clipboard_begin offer fds cb_type callback user_data) reads =
        some ⟨some info, (clipboard_begin offer fds cb_type callback user_data).calls⟩ ∧
      info.size = (chunks reads).length ∧
      info.buffer.length = info.size + CLIPBOARD_READ_INCREMENT ∧
      (∀ chunk : List Nat, chunk.length ≤ CLIPBOARD_READ_INCREMENT →
        info.size + chunk.length ≤ info.buffer.length ∧
        block_store info.buffer info.size chunk ≠ none) ∧
      info.size < info.buffer.length ∧
      block_store info.buffer info.size [0] ≠ none := by
  have hb := clipboard_begin_eq offer fds cb_type callback user_data
  have hstart : clipboard_begin offer fds cb_type callback user_data =
      ⟨some { buffer := List.replicate CLIPBOARD_READ_INCREMENT none, size := 0, fd := fds.1,
              callback := callback, user_data := user_data },
       (clipboard_begin offer fds cb_type callback user_data).calls⟩ := by
    rw [hb]
  obtain ⟨info2, hr, hinv, -⟩ := clipboard_run_reads reads []
    { buffer := List.replicate CLIPBOARD_READ_INCREMENT none, size := 0, fd := fds.1,
      callback := callback, user_data := user_data }
    (clipboard_begin offer fds cb_type callback user_data).calls
    (clipboard_read_data_inv fds.1 callback user_data) hreads (by simpa using hsize) []
  simp only [List.nil_append, List.append_nil] at hinv hr
  obtain ⟨h1, h2, -⟩ := hinv
  refine ⟨info2, ?_, h1, h2, ?_, ?_, ?_⟩
  · rw [hstart, hr]
    rfl
  · intro chunk hc
    have hle : info2.size + chunk.length ≤ info2.buffer.length := by
      rw [h2]
      omega
    obtain ⟨stored, hs, -⟩ := block_store_some _ _ chunk hle
    exact ⟨hle, by rw [hs]; simp⟩
  · rw [h2]
    unfold CLIPBOARD_READ_INCREMENT
    omega
  · obtain ⟨stored, hs, -⟩ := block_store_some info2.buffer info2.size [0]
      (by rw [h2]; simp [CLIPBOARD_READ_INCREMENT])
    rw [hs]
    simp

/-- After the bytes of "hel" and of "lo" on `clipboard_start` the info has size 5 and a
buffer of 1029 bytes. -/
theorem clipboard_buffer_bound_witness :
    ∃ info,
      clipboard_run clipboard_start
        [GIOStatus.G_IO_STATUS_NORMAL [104, 101, 108],
         GIOStatus.G_IO_STATUS_NORMAL [108, 111]] =
        some ⟨some info, clipboard_start.calls⟩ ∧
      info.size = 5 ∧ info.buffer.length = 1029 := by
  obtain ⟨info, h1, h2, h3, -⟩ := clipboard_buffer_bound 300 (5, 6)
    clipboard_type.CLIPBOARD_DEFAULT 9 8
    [GIOStatus.G_IO_STATUS_NORMAL [104, 101, 108], GIOStatus.G_IO_STATUS_NORMAL [108, 111]]
    (by simp [is_read, CLIPBOARD_READ_INCREMENT])
    (by simp [chunks, CLIPBOARD_READ_INCREMENT])
  have h5 : info.size = 5 := by simpa [chunks] using h2
  exact ⟨info, h1, h5, by rw [h3, h5]; rfl⟩

end RofiWayland
